import Mathlib

/-!
# slurm-operator: NodeSet rolling update and Slurm control

A shallow embedding of
`internal/controller/nodeset/nodeset_update.go`,
`internal/controller/nodeset/slurmcontrol/slurmcontrol.go`,
`internal/controller/nodeset/eventhandler/eventhandler_controller.go`, the
method `GetNodeSetsForController` of `internal/utils/refresolver/refresolver.go`
and `pkg/conditions/conditions.go`.

Conventions of the embedding.

* Go pointers to Kubernetes objects are records carrying a `ptr` field (the
  address), so that two objects with equal contents stay distinguishable, as
  they are as Go map keys.
* A Go `map[*Node][]*Pod` is an association list. Go visits the entries of a
  map in an unspecified order, possibly a different one at every `range`
  statement; each `range` over a map therefore takes its visiting order from
  a `MapIteration` argument.
* Go `int`, `int32` and `int64` values are `Int`; every counter below is
  bounded by the length of a slice, far from the limits of its type. Where an
  operand is not a counter (`spec.replicas`, the time limit of a job) the
  operation is reduced to its width with `wrap32` or `wrap64`.
* A Go `error` is its text; `(T, error)` results are `Except GoError T`.
* Functions of the repository and of its libraries whose source is not part
  of the development are fields of `Deps`, `SlurmDeps`, `SyncDeps`,
  `StatusDeps` and `EventDeps`.
* A Go function that can panic ends in a `GoResult`, which tells a return
  from a panic.
-/

namespace SlurmOperator

/-- A Go error value, represented by its text. -/
abbrev GoError := String

/-- A point in time, in seconds. -/
abbrev Time := Int

/-- The part of `corev1.Pod` the controller reads. `Annotations` is a Go map,
`none` when the map is `nil`. -/
structure Pod where
  ptr : Nat
  Namespace : String := ""
  Name : String := ""
  NodeName : String := ""
  Hostname : String := ""
  Labels : List (String × String) := []
  Annotations : Option (List (String × String)) := none
  DeletionTimestamp : Option Time := none
  ReadySince : Option Time := none
deriving DecidableEq, Repr

/-- The constant `annotations.PodDelete`, the annotation that marks a pod for
deletion. -/
def podDeleteKey : String := "slinky.slurm.net/pod-delete"

/-- The part of `corev1.Node` the controller reads; `Weight` is the value of
the `slinky.slurm.net/node-weight` annotation. -/
structure Node where
  ptr : Nat
  Name : String := ""
  Weight : Int := 0
deriving DecidableEq, Repr

/-- The type `intstr.IntOrString`. -/
inductive IntOrString where
  | int (n : Int)
  | str (s : String)
deriving DecidableEq, Repr

structure RollingUpdateNodeSetStrategy where
  MaxUnavailable : Option IntOrString := none
  Partition : Option Int := none
deriving DecidableEq, Repr

structure NodeSetUpdateStrategy where
  RollingUpdate : Option RollingUpdateNodeSetStrategy := none
deriving DecidableEq, Repr

/-- The type `types.NamespacedName`. -/
structure NamespacedName where
  Namespace : String := ""
  Name : String := ""
deriving DecidableEq, Repr

/-- The type `ObjectReference` of the NodeSet API; its method
`NamespacedName()` returns the two fields. -/
structure ObjectReference where
  Namespace : String := ""
  Name : String := ""
deriving DecidableEq, Repr

/-- The method `ObjectReference.NamespacedName`. -/
def ObjectReference.NamespacedName (ref : ObjectReference) : SlurmOperator.NamespacedName :=
  { Namespace := ref.Namespace, Name := ref.Name }

structure NodeSetSpec where
  ControllerRef : ObjectReference := {}
  ClusterName : String := ""
  Replicas : Option Int := none
  UpdateStrategy : NodeSetUpdateStrategy := {}
  MinReadySeconds : Int := 0
deriving DecidableEq, Repr

/-- The type `NodeSetStatus`; `CollisionCount` is a pointer. -/
structure NodeSetStatus where
  ObservedGeneration : Int := 0
  DesiredNumberScheduled : Int := 0
  CurrentNumberScheduled : Int := 0
  NumberMisscheduled : Int := 0
  NumberReady : Int := 0
  UpdatedNumberScheduled : Int := 0
  NumberAvailable : Int := 0
  NumberUnavailable : Int := 0
  NumberIdle : Int := 0
  NumberAllocated : Int := 0
  NumberDown : Int := 0
  NumberDrain : Int := 0
  NodeSetHash : String := ""
  CollisionCount : Option Int := none
  Selector : String := ""
deriving DecidableEq, Repr

structure NodeSet where
  Namespace : String := ""
  Name : String := ""
  Generation : Int := 0
  Annotations : List (String × String) := []
  Spec : NodeSetSpec := {}
  Status : NodeSetStatus := {}
deriving DecidableEq, Repr

/-- The Go type `map[*corev1.Node][]*corev1.Pod`; a `nil` slice is `[]`. -/
abbrev NodeToPods := List (Node × List Pod)

/-- Result of `findUpdatedPodsOnNode`: `(newPod, oldPod, ok)`. -/
abbrev UpdatedPods := Option Pod × Option Pod × Bool

/-- Functions called by the embedded code whose source is not part of the
development: helpers of the `nodeset` package and of `k8s.io/kubernetes`. -/
structure Deps where
  nodeShouldRunNodeSetPod : Node → NodeSet → Bool
  unavailableCount : NodeSet → Int → Except GoError Int
  findUpdatedPodsOnNode : NodeSet → List Pod → String → UpdatedPods
  IsPodAvailable : Pod → Int → Time → Bool
  isNodeSetPodDelete : Pod → Bool

/-- The visiting order of each `range` statement over a map: `collect` is the
loop that gathers `allNodes`, `classify` the loop that fills `updated` and
`rest`, `pass` the main loop of `syncNodeSetRollingUpdate`. -/
structure MapIteration where
  collect : NodeToPods → NodeToPods
  classify : NodeToPods → NodeToPods
  pass : NodeToPods → NodeToPods

/-- A visiting order visits every entry of the map exactly once. -/
def MapIteration.Valid (it : MapIteration) : Prop :=
  ∀ m : NodeToPods, (it.collect m).Perm m ∧ (it.classify m).Perm m ∧ (it.pass m).Perm m

/-- The visiting order that follows the association list. -/
def MapIteration.inOrder : MapIteration := ⟨id, id, id⟩

/-! ## Map operations -/

/-- The test `_, exists := m[node]`. -/
def mapHas (m : NodeToPods) (node : Node) : Bool :=
  m.any (fun e => decide (e.1 = node))

/-- The read `m[node]`, `nil` when the key is absent. -/
def mapGet (m : NodeToPods) (node : Node) : List Pod :=
  match m.find? (fun e => decide (e.1 = node)) with
  | some e => e.2
  | none => []

/-- The write `m[node] = pods`. -/
def mapSet (m : NodeToPods) (node : Node) (pods : List Pod) : NodeToPods :=
  if mapHas m node then
    m.map (fun e => if e.1 = node then (node, pods) else e)
  else
    m ++ [(node, pods)]

/-! ## `utils.NodeByWeight` -/

/-- Modelled from the spec: the `Less` method of `utils.NodeByWeight`, whose
source is missing; nodes are ordered by the weight annotation, ties broken by
node name. -/
def NodeByWeight.Less (a b : Node) : Bool :=
  decide (a.Weight < b.Weight) || (decide (a.Weight = b.Weight) && decide (a.Name < b.Name))

/-- The call `sort.Sort(utils.NodeByWeight(nodes))`. -/
def NodeByWeight.sort (nodes : List Node) : List Node :=
  nodes.insertionSort (fun a b => NodeByWeight.Less b a = false)

/-! ## `updatedDesiredNodeCounts` -/

/-- The loop of `updatedDesiredNodeCounts` over `nodes`: counts the nodes
that want a pod and gives each of them an entry in the map. -/
def desiredLoop (d : Deps) (nodeset : NodeSet) :
    List Node → Int × NodeToPods → Int × NodeToPods
  | [], acc => acc
  | node :: rest, (desiredNumberScheduled, m) =>
    if d.nodeShouldRunNodeSetPod node nodeset then
      desiredLoop d nodeset rest
        (desiredNumberScheduled + 1, if mapHas m node then m else mapSet m node [])
    else
      desiredLoop d nodeset rest (desiredNumberScheduled, m)

/-- The value of `desiredNumberScheduled` that `updatedDesiredNodeCounts`
passes to `unavailableCount` and returns. -/
def desiredNumberScheduled (d : Deps) (nodeset : NodeSet) (nodes : List Node)
    (m : NodeToPods) : Int :=
  match nodeset.Spec.Replicas with
  | some replicas => replicas
  | none => (desiredLoop d nodeset nodes (0, m)).1

/-- The function `updatedDesiredNodeCounts`: the pair
`(maxUnavailable, desiredNumberScheduled)` or the error, together with the
map as the loop leaves it. -/
def updatedDesiredNodeCounts (d : Deps) (nodeset : NodeSet) (nodes : List Node)
    (m : NodeToPods) : Except GoError (Int × Int) × NodeToPods :=
  let m1 := (desiredLoop d nodeset nodes (0, m)).2
  let desired := desiredNumberScheduled d nodeset nodes m
  match d.unavailableCount nodeset desired with
  | .error err => (.error ("invalid value for MaxUnavailable: " ++ err), m1)
  | .ok maxUnavailable =>
    if desired > 0 ∧ maxUnavailable = 0 then
      (.ok (1, desired), m1)
    else
      (.ok (maxUnavailable, desired), m1)

/-! ## `filterNodeSetPodsNodeToUpdate` and `filterNodeSetPodsToUpdate` -/

/-- The value of `partition` read from the update strategy. -/
def partitionOf (nodeset : NodeSet) : Int :=
  match nodeset.Spec.UpdateStrategy.RollingUpdate with
  | some ru => ru.Partition.getD 0
  | none => 0

/-- The classification loop: `(updated, rest)` after visiting `entries`. -/
def classifyLoop (d : Deps) (nodeset : NodeSet) (hash : String) :
    List (Node × List Pod) → List Node × List Node → List Node × List Node
  | [], acc => acc
  | e :: es, (updated, rest) =>
    match d.findUpdatedPodsOnNode nodeset e.2 hash with
    | (newPod, oldPod, ok) =>
      if !ok || newPod.isSome || oldPod.isSome then
        classifyLoop d nodeset hash es (updated ++ [e.1], rest)
      else
        classifyLoop d nodeset hash es (updated, rest ++ [e.1])

/-- The function `filterNodeSetPodsNodeToUpdate`. -/
def filterNodeSetPodsNodeToUpdate (d : Deps) (it : MapIteration) (nodeset : NodeSet)
    (hash : String) (m : NodeToPods) : Except GoError (List Node) :=
  let partition := partitionOf nodeset
  let allNodes := NodeByWeight.sort ((it.collect m).map Prod.fst)
  let (updated, rest) := classifyLoop d nodeset hash (it.classify m) ([], [])
  let updating : List Node := []
  let sorted := (updated ++ updating) ++ rest
  let maxUpdate : Int := (allNodes.length : Int) - partition
  if maxUpdate ≤ 0 then
    .ok []
  else if maxUpdate < (sorted.length : Int) then
    .ok (sorted.take maxUpdate.toNat)
  else
    .ok sorted

/-- The function `filterNodeSetPodsToUpdate`. -/
def filterNodeSetPodsToUpdate (d : Deps) (it : MapIteration) (nodeset : NodeSet)
    (nodes : List Node) (hash : String) (m : NodeToPods) : Except GoError NodeToPods :=
  let existingNodes := nodes.map (fun node => node.Name)
  let m1 := m.filter (fun e => decide (e.1.Name ∈ existingNodes))
  match filterNodeSetPodsNodeToUpdate d it nodeset hash m1 with
  | .error err => .error err
  | .ok nodeNames => .ok (nodeNames.foldl (fun ret name => mapSet ret name (mapGet m1 name)) [])

/-! ## `syncNodeSetRollingUpdate` -/

/-- The three variables the main loop of `syncNodeSetRollingUpdate` updates. -/
structure RollingState where
  numUnavailable : Int := 0
  allowedReplacementPods : List Pod := []
  candidatePodsToDelete : List Pod := []
deriving DecidableEq, Repr

/-- One iteration of the main loop of `syncNodeSetRollingUpdate`. -/
def rollingStep (d : Deps) (nodeset : NodeSet) (hash : String) (now : Time)
    (maxUnavailable : Int) (st : RollingState) (e : Node × List Pod) : RollingState :=
  match d.findUpdatedPodsOnNode nodeset e.2 hash with
  | (_, _, false) => { st with numUnavailable := st.numUnavailable + 1 }
  | (none, none, true) => st
  | (some _, some _, true) => st
  | (some newPod, none, true) =>
    if !d.IsPodAvailable newPod nodeset.Spec.MinReadySeconds now then
      { st with numUnavailable := st.numUnavailable + 1 }
    else st
  | (none, some oldPod, true) =>
    if !d.IsPodAvailable oldPod nodeset.Spec.MinReadySeconds now || d.isNodeSetPodDelete oldPod then
      { st with allowedReplacementPods := st.allowedReplacementPods ++ [oldPod] }
    else if st.numUnavailable ≥ maxUnavailable then
      st
    else
      { st with candidatePodsToDelete := st.candidatePodsToDelete ++ [oldPod] }

/-- The main loop of `syncNodeSetRollingUpdate` over the visited entries. -/
def rollingLoop (d : Deps) (nodeset : NodeSet) (hash : String) (now : Time)
    (maxUnavailable : Int) (entries : List (Node × List Pod)) : RollingState :=
  entries.foldl (rollingStep d nodeset hash now maxUnavailable) {}

/-- The value of `remainingUnavailable` after both clamps. -/
def remainingUnavailable (maxUnavailable : Int) (st : RollingState) : Nat :=
  let remaining := maxUnavailable - st.numUnavailable
  let remaining := if remaining < 0 then 0 else remaining
  let remaining :=
    if remaining > (st.candidatePodsToDelete.length : Int) then
      (st.candidatePodsToDelete.length : Int)
    else remaining
  remaining.toNat

/-- The slice `oldPodsToDelete`. -/
def oldPodsToDelete (maxUnavailable : Int) (st : RollingState) : List Pod :=
  st.allowedReplacementPods ++
    st.candidatePodsToDelete.take (remainingUnavailable maxUnavailable st)

/-- What one pass of `syncNodeSetRollingUpdate` computes before it calls
`syncNodeSetPods`. -/
structure RollingPass where
  maxUnavailable : Int
  filtered : NodeToPods
  state : RollingState
  oldPodsToDelete : List Pod
deriving DecidableEq, Repr

/-- The function `syncNodeSetRollingUpdate` up to its call of
`syncNodeSetPods(ctx, nodeset, oldPodsToDelete, nil)`: the error it returns
before that call, or the pass with the delete list handed over. -/
def syncNodeSetRollingUpdate (d : Deps) (it : MapIteration) (nodeset : NodeSet)
    (nodes : List Node) (m : NodeToPods) (hash : String) (now : Time) :
    Except GoError RollingPass :=
  match updatedDesiredNodeCounts d nodeset nodes m with
  | (.error err, _) => .error ("could not get unavailable numbers: " ++ err)
  | (.ok (maxUnavailable, _), m1) =>
    match filterNodeSetPodsToUpdate d it nodeset nodes hash m1 with
    | .error err => .error ("failed to filterNodeSetPodsToUpdate: " ++ err)
    | .ok filtered =>
      let st := rollingLoop d nodeset hash now maxUnavailable (it.pass filtered)
      .ok ⟨maxUnavailable, filtered, st, oldPodsToDelete maxUnavailable st⟩

/-! ## The Slurm client

The types of `github.com/SlinkyProject/slurm-client` the controller uses. The
remote Slurm control plane is a state of type `σ`; `Get` reads it, `Update`
may change it. -/

/-- The constants `V0044NodeState...` of the Slurm API. -/
inductive V0044NodeState where
  | ALLOCATED | BLOCKED | CLOUD | COMPLETING | DOWN | DRAIN | DYNAMICFUTURE | DYNAMICNORM
  | ERROR | EXTERNAL | FAIL | FUTURE | IDLE | INVALID | INVALIDREG | MAINTENANCE | MIXED
  | NOTRESPONDING | PLANNED | POWERDOWN | POWERDRAIN | POWEREDDOWN | POWERINGDOWN
  | POWERINGUP | POWERUP | REBOOTCANCELED | REBOOTISSUED | REBOOTREQUESTED | RESERVED
  | RESUME | UNDRAIN | UNKNOWN
deriving DecidableEq, Repr

/-- The constants `V0044UpdateNodeMsgState...` the controller writes. -/
inductive V0044UpdateNodeMsgState where
  | DOWN | DRAIN | FAIL | FUTURE | IDLE | RESUME | UNDRAIN
deriving DecidableEq, Repr

/-- The part of `slurmtypes.V0044Node` the controller reads; every field is a
pointer in Go. -/
structure V0044Node where
  Name : Option String := none
  State : Option (List V0044NodeState) := none
  Reason : Option String := none
  Comment : Option String := none
deriving DecidableEq, Repr

/-- The method `GetStateAsSet`: the states of the node, none when `State` is
`nil`. -/
def V0044Node.GetStateAsSet (node : V0044Node) : List V0044NodeState :=
  node.State.getD []

/-- The method `Has` of `set.Set`. -/
def setHas (states : List V0044NodeState) (x : V0044NodeState) : Bool :=
  decide (x ∈ states)

/-- The method `HasAny` of `set.Set`. -/
def setHasAny (states : List V0044NodeState) (xs : List V0044NodeState) : Bool :=
  xs.any (fun x => decide (x ∈ states))

/-- The type `slurmapi.V0044UpdateNodeMsg`. -/
structure V0044UpdateNodeMsg where
  Comment : Option String := none
  Reason : Option String := none
  State : Option (List V0044UpdateNodeMsgState) := none
deriving DecidableEq, Repr

/-- The type `V0044Uint64NoValStruct`, also used for its 32-bit variant. -/
structure V0044NoValStruct where
  Infinite : Option Bool := none
  Number : Option Int := none
  Set : Option Bool := none
deriving DecidableEq, Repr

/-- The constants `V0044JobInfoJobState...` the controller reads, and the
others. -/
inductive V0044JobInfoJobState where
  | PENDING | RUNNING | SUSPENDED | COMPLETED | CANCELLED | FAILED | TIMEOUT | OTHER
deriving DecidableEq, Repr

/-- The part of `slurmtypes.V0044JobInfo` the controller reads. -/
structure V0044JobInfo where
  JobId : Option Int := none
  JobState : Option (List V0044JobInfoJobState) := none
  Nodes : Option String := none
  StartTime : Option V0044NoValStruct := none
  TimeLimit : Option V0044NoValStruct := none
deriving DecidableEq, Repr

/-- The methods of `slurmclient.Client` the node operations call, over the
remote state `σ`. `Update` and `Delete` return the error, `none` for `nil`,
and the remote state they leave; `ListNodes` and `ListJobs` are the method
`List` on a node list and on a job list, and leave the list empty when they
fail. -/
structure Client (σ : Type) where
  Get : σ → String → Except GoError V0044Node
  Update : σ → V0044Node → V0044UpdateNodeMsg → Option GoError × σ
  ListNodes : σ → Except GoError (List V0044Node)
  ListJobs : σ → Except GoError (List V0044JobInfo)
  Delete : σ → V0044Node → Option GoError × σ

/-- The type `realSlurmControl`; `clientMap` is the method `Get` of
`clientmap.ClientMap`. -/
structure realSlurmControl (σ : Type) where
  clientMap : NamespacedName → Option (Client σ)

/-- The type `podinfo.PodInfo`, the identity of a pod written into the
comment of its Slurm node. -/
structure PodInfo where
  Namespace : String := ""
  PodName : String := ""
  Node : String := ""
deriving DecidableEq, Repr

/-- Modelled from the spec: the method `Equal` of `podinfo.PodInfo`, whose
source is missing; two identities are equal when namespace, pod name and
orchestration node agree. -/
def PodInfo.Equal (a b : PodInfo) : Bool := decide (a = b)

/-- Functions of the repository and of its libraries called by
`slurmcontrol.go` and `nodeset_update.go` whose source is not part of the
development. `ParseIntoPodInfo` is the identity left in a zero `PodInfo` by
`podinfo.ParseIntoPodInfo`, whose error the callers discard; `ToString` is the
method of `PodInfo`; `Expand` is `hostlist.Expand`. -/
structure SlurmDeps where
  GetNodeName : Pod → String
  ParseIntoPodInfo : Option String → PodInfo
  ToString : PodInfo → String
  Expand : String → Except GoError (List String)

/-- The method `lookupClient`. -/
def realSlurmControl.lookupClient {σ : Type} (r : realSlurmControl σ) (nodeset : NodeSet) :
    Option (Client σ) :=
  r.clientMap nodeset.Spec.ControllerRef.NamespacedName

/-- The texts `http.StatusText(http.StatusNotFound)` and
`http.StatusText(http.StatusNoContent)`. -/
def statusTextNotFound : String := "Not Found"

def statusTextNoContent : String := "No Content"

/-- The function `tolerateError`, defined with the same body in
`slurmcontrol.go` and in `nodeset_update.go`; `none` is `nil`. -/
def tolerateError (err : Option GoError) : Bool :=
  match err with
  | none => true
  | some errText => errText == statusTextNotFound || errText == statusTextNoContent

def nodeReasonPrefix : String := "slurm-operator:"

/-- The value of `prefixedReason` in `MakeNodeDrain` and `MakeNodeUndrain`. -/
def prefixedReason (reason : String) : String :=
  if reason != "" then nodeReasonPrefix ++ " " ++ reason else ""

/-- What a node operation leaves behind: the error it returns, the `Update`
calls it issued, in order, and the remote state. -/
structure Outcome (σ : Type) where
  err : Option GoError
  updates : List (V0044Node × V0044UpdateNodeMsg)
  remote : σ

/-- The request `MakeNodeDrain` sends. -/
def drainRequest (reason : String) : V0044UpdateNodeMsg :=
  { State := some [V0044UpdateNodeMsgState.DRAIN], Reason := some (prefixedReason reason) }

/-- The method `MakeNodeDrain`. -/
def MakeNodeDrain {σ : Type} (r : realSlurmControl σ) (deps : SlurmDeps) (remote : σ)
    (nodeset : NodeSet) (pod : Pod) (reason : String) : Outcome σ :=
  match r.lookupClient nodeset with
  | none => ⟨none, [], remote⟩
  | some slurmClient =>
    match slurmClient.Get remote (deps.GetNodeName pod) with
    | .error err =>
      if tolerateError (some err) then ⟨none, [], remote⟩ else ⟨some err, [], remote⟩
    | .ok slurmNode =>
      let nodeReason := slurmNode.Reason.getD ""
      if setHas slurmNode.GetStateAsSet V0044NodeState.DRAIN
          && nodeReason == prefixedReason reason then
        ⟨none, [], remote⟩
      else
        let req := drainRequest reason
        match slurmClient.Update remote slurmNode req with
        | (err, remote1) =>
          if err.isSome then
            if tolerateError err then ⟨none, [(slurmNode, req)], remote1⟩
            else ⟨err, [(slurmNode, req)], remote1⟩
          else ⟨none, [(slurmNode, req)], remote1⟩

/-- The method `IsNodeDrained`: the pair `(isDrained, err)`. -/
def IsNodeDrained {σ : Type} (r : realSlurmControl σ) (deps : SlurmDeps) (remote : σ)
    (nodeset : NodeSet) (pod : Pod) : Bool × Option GoError :=
  match r.lookupClient nodeset with
  | none => (true, none)
  | some slurmClient =>
    match slurmClient.Get remote (deps.GetNodeName pod) with
    | .error err =>
      if tolerateError (some err) then (true, none) else (false, some err)
    | .ok slurmNode =>
      let isBusy := setHasAny slurmNode.GetStateAsSet
        [V0044NodeState.ALLOCATED, V0044NodeState.MIXED, V0044NodeState.COMPLETING]
      let isDrain := setHas slurmNode.GetStateAsSet V0044NodeState.DRAIN
        && !setHas slurmNode.GetStateAsSet V0044NodeState.UNDRAIN
      let isDrained := isDrain && !isBusy
      (isDrained, none)

/-- The identity `UpdateNodeWithPodInfo` writes for a pod. -/
def podInfoOf (pod : Pod) : PodInfo :=
  { Namespace := pod.Namespace, PodName := pod.Name, Node := pod.NodeName }

/-- The first request of `UpdateNodeWithPodInfo`: the comment. -/
def commentRequest (deps : SlurmDeps) (podInfo : PodInfo) : V0044UpdateNodeMsg :=
  { Comment := some (deps.ToString podInfo) }

/-- The second request of `UpdateNodeWithPodInfo`: the state `IDLE`. -/
def idleRequest : V0044UpdateNodeMsg :=
  { State := some [V0044UpdateNodeMsgState.IDLE] }

/-- The method `UpdateNodeWithPodInfo`. -/
def UpdateNodeWithPodInfo {σ : Type} (r : realSlurmControl σ) (deps : SlurmDeps) (remote : σ)
    (nodeset : NodeSet) (pod : Pod) : Outcome σ :=
  match r.lookupClient nodeset with
  | none => ⟨none, [], remote⟩
  | some slurmClient =>
    match slurmClient.Get remote (deps.GetNodeName pod) with
    | .error err =>
      if tolerateError (some err) then ⟨none, [], remote⟩ else ⟨some err, [], remote⟩
    | .ok slurmNode =>
      let podInfo := podInfoOf pod
      let podInfoOld := deps.ParseIntoPodInfo slurmNode.Comment
      if podInfoOld.Equal podInfo then
        ⟨none, [], remote⟩
      else
        let req := commentRequest deps podInfo
        match slurmClient.Update remote slurmNode req with
        | (err, remote1) =>
          if err.isSome && !tolerateError err then
            ⟨err, [(slurmNode, req)], remote1⟩
          else if podInfoOld.Node != "" then
            match slurmClient.Update remote1 slurmNode idleRequest with
            | (err2, remote2) =>
              if err2.isSome then
                if tolerateError err2 then
                  ⟨none, [(slurmNode, req), (slurmNode, idleRequest)], remote2⟩
                else ⟨err2, [(slurmNode, req), (slurmNode, idleRequest)], remote2⟩
              else ⟨none, [(slurmNode, req), (slurmNode, idleRequest)], remote2⟩
          else
            ⟨none, [(slurmNode, req)], remote1⟩

/-- The method `RefreshNodeCache`: the error it returns. -/
def RefreshNodeCache {σ : Type} (r : realSlurmControl σ) (remote : σ) (nodeset : NodeSet) :
    Option GoError :=
  match r.lookupClient nodeset with
  | none => none
  | some slurmClient =>
    match slurmClient.ListNodes remote with
    | .error err => some err
    | .ok _ => none

/-- The request `MakeNodeUndrain` sends. -/
def undrainRequest (reason : String) : V0044UpdateNodeMsg :=
  { State := some [V0044UpdateNodeMsgState.UNDRAIN], Reason := some (prefixedReason reason) }

/-- The method `MakeNodeUndrain`. -/
def MakeNodeUndrain {σ : Type} (r : realSlurmControl σ) (deps : SlurmDeps) (remote : σ)
    (nodeset : NodeSet) (pod : Pod) (reason : String) : Outcome σ :=
  match r.lookupClient nodeset with
  | none => ⟨none, [], remote⟩
  | some slurmClient =>
    match slurmClient.Get remote (deps.GetNodeName pod) with
    | .error err =>
      if tolerateError (some err) then ⟨none, [], remote⟩ else ⟨some err, [], remote⟩
    | .ok slurmNode =>
      if !setHas slurmNode.GetStateAsSet V0044NodeState.DRAIN
          || setHas slurmNode.GetStateAsSet V0044NodeState.UNDRAIN then
        ⟨none, [], remote⟩
      else
        let req := undrainRequest reason
        match slurmClient.Update remote slurmNode req with
        | (err, remote1) =>
          if err.isSome then
            if tolerateError err then ⟨none, [(slurmNode, req)], remote1⟩
            else ⟨err, [(slurmNode, req)], remote1⟩
          else ⟨none, [(slurmNode, req)], remote1⟩

/-- The method `IsNodeDrain`: the pair `(isDrain, err)`. -/
def IsNodeDrain {σ : Type} (r : realSlurmControl σ) (deps : SlurmDeps) (remote : σ)
    (nodeset : NodeSet) (pod : Pod) : Bool × Option GoError :=
  match r.lookupClient nodeset with
  | none => (true, none)
  | some slurmClient =>
    match slurmClient.Get remote (deps.GetNodeName pod) with
    | .error err =>
      if tolerateError (some err) then (true, none) else (false, some err)
    | .ok slurmNode => (setHas slurmNode.GetStateAsSet V0044NodeState.DRAIN, none)

/-- The function `strings.Contains`. -/
def stringsContains (s substr : String) : Bool :=
  s.data.tails.any (fun tail => substr.data.isPrefixOf tail)

/-- The function `strings.HasPrefix`. -/
def stringsHasPrefix (s pre : String) : Bool :=
  pre.data.isPrefixOf s.data

/-- The method `IsNodeDownForUnresponsive`: the pair `(wasUnresponsive, err)`. -/
def IsNodeDownForUnresponsive {σ : Type} (r : realSlurmControl σ) (deps : SlurmDeps) (remote : σ)
    (nodeset : NodeSet) (pod : Pod) : Bool × Option GoError :=
  match r.lookupClient nodeset with
  | none => (true, none)
  | some slurmClient =>
    match slurmClient.Get remote (deps.GetNodeName pod) with
    | .error err =>
      if tolerateError (some err) then (true, none) else (false, some err)
    | .ok slurmNode =>
      let isDown := setHas slurmNode.GetStateAsSet V0044NodeState.DOWN
      let reasonNotResponding := stringsContains (slurmNode.Reason.getD "") "Not responding"
      (isDown && reasonNotResponding, none)

/-- The method `IsNodeReasonOurs`: the pair `(ours, err)`. -/
def IsNodeReasonOurs {σ : Type} (r : realSlurmControl σ) (deps : SlurmDeps) (remote : σ)
    (nodeset : NodeSet) (pod : Pod) : Bool × Option GoError :=
  match r.lookupClient nodeset with
  | none => (true, none)
  | some slurmClient =>
    match slurmClient.Get remote (deps.GetNodeName pod) with
    | .error err =>
      if tolerateError (some err) then (true, none) else (false, some err)
    | .ok slurmNode =>
      let nodeReason := slurmNode.Reason.getD ""
      if nodeReason != "" && !stringsHasPrefix nodeReason nodeReasonPrefix then
        (false, none)
      else (true, none)

/-! ### `CalculateNodeStatus` -/

/-- The part of `corev1.PodCondition` the controller fills; `CondType` is the
field `Type`. -/
structure PodCondition where
  CondType : String
  Status : String
  Message : String
deriving DecidableEq, Repr

/-- The constant `corev1.ConditionTrue`. -/
def ConditionTrue : String := "True"

/-- The constants of `pkg/conditions/conditions.go`. -/
def StatePrefix : String := "SlurmNodeState"

def PodConditionAllocated : String := StatePrefix ++ "Allocated"
def PodConditionDown : String := StatePrefix ++ "Down"
def PodConditionError : String := StatePrefix ++ "Error"
def PodConditionFuture : String := StatePrefix ++ "Future"
def PodConditionIdle : String := StatePrefix ++ "Idle"
def PodConditionMixed : String := StatePrefix ++ "Mixed"
def PodConditionUnknown : String := StatePrefix ++ "Unknown"
def PodConditionCompleting : String := StatePrefix ++ "Completing"
def PodConditionDrain : String := StatePrefix ++ "Drain"
def PodConditionFail : String := StatePrefix ++ "Fail"
def PodConditionInvalid : String := StatePrefix ++ "Invalid"
def PodConditionInvalidReg : String := StatePrefix ++ "InvalidReg"
def PodConditionMaintenance : String := StatePrefix ++ "Maintenance"
def PodConditionNotResponding : String := StatePrefix ++ "NotResponding"
def PodConditionUndrain : String := StatePrefix ++ "Undrain"

/-- The type `SlurmNodeStatus`; `NodeStates` is a Go map from node name to
conditions. -/
structure SlurmNodeStatus where
  Total : Int := 0
  Allocated : Int := 0
  Down : Int := 0
  Error : Int := 0
  Future : Int := 0
  Idle : Int := 0
  Mixed : Int := 0
  Unknown : Int := 0
  Completing : Int := 0
  Drain : Int := 0
  Fail : Int := 0
  Invalid : Int := 0
  InvalidReg : Int := 0
  Maintenance : Int := 0
  NotResponding : Int := 0
  Undrain : Int := 0
  NodeStates : List (String × List PodCondition) := []
deriving DecidableEq, Repr

/-- The function `nodeState`. -/
def nodeState (node : V0044Node) (condType : String) : PodCondition :=
  { CondType := condType, Status := ConditionTrue, Message := node.Reason.getD "" }

/-- The statement `m[name] = append(m[name], cond)`. -/
def statesAppend (m : List (String × List PodCondition)) (name : String) (cond : PodCondition) :
    List (String × List PodCondition) :=
  if m.any (fun entry => entry.1 == name) then
    m.map (fun entry => if entry.1 == name then (entry.1, entry.2 ++ [cond]) else entry)
  else
    m ++ [(name, [cond])]

/-- The statement that appends the condition of type `condType` to the
conditions of the node. -/
def recordState (status : SlurmNodeStatus) (nodeName : String) (node : V0044Node)
    (condType : String) : SlurmNodeStatus :=
  { status with NodeStates := statesAppend status.NodeStates nodeName (nodeState node condType) }

/-- The `switch` over the base states in `CalculateNodeStatus`. -/
def countBaseState (status : SlurmNodeStatus) (nodeName : String) (node : V0044Node) :
    SlurmNodeStatus :=
  let states := node.GetStateAsSet
  if setHas states V0044NodeState.ALLOCATED then
    { recordState status nodeName node PodConditionAllocated with
      Allocated := status.Allocated + 1 }
  else if setHas states V0044NodeState.DOWN then
    { recordState status nodeName node PodConditionDown with Down := status.Down + 1 }
  else if setHas states V0044NodeState.ERROR then
    { recordState status nodeName node PodConditionError with Error := status.Error + 1 }
  else if setHas states V0044NodeState.FUTURE then
    { recordState status nodeName node PodConditionFuture with Future := status.Future + 1 }
  else if setHas states V0044NodeState.IDLE then
    { recordState status nodeName node PodConditionIdle with Idle := status.Idle + 1 }
  else if setHas states V0044NodeState.MIXED then
    { recordState status nodeName node PodConditionMixed with Mixed := status.Mixed + 1 }
  else if setHas states V0044NodeState.UNKNOWN then
    { recordState status nodeName node PodConditionUnknown with Unknown := status.Unknown + 1 }
  else status

/-- The eight `if` statements over the flag states in `CalculateNodeStatus`. -/
def countFlagStates (status : SlurmNodeStatus) (nodeName : String) (node : V0044Node) :
    SlurmNodeStatus :=
  let states := node.GetStateAsSet
  let status :=
    if setHas states V0044NodeState.COMPLETING then
      { recordState status nodeName node PodConditionCompleting with
        Completing := status.Completing + 1 }
    else status
  let status :=
    if setHas states V0044NodeState.DRAIN then
      { recordState status nodeName node PodConditionDrain with Drain := status.Drain + 1 }
    else status
  let status :=
    if setHas states V0044NodeState.FAIL then
      { recordState status nodeName node PodConditionFail with Fail := status.Fail + 1 }
    else status
  let status :=
    if setHas states V0044NodeState.INVALID then
      { recordState status nodeName node PodConditionInvalid with Invalid := status.Invalid + 1 }
    else status
  let status :=
    if setHas states V0044NodeState.INVALIDREG then
      { recordState status nodeName node PodConditionInvalidReg with
        InvalidReg := status.InvalidReg + 1 }
    else status
  let status :=
    if setHas states V0044NodeState.MAINTENANCE then
      { recordState status nodeName node PodConditionMaintenance with
        Maintenance := status.Maintenance + 1 }
    else status
  let status :=
    if setHas states V0044NodeState.NOTRESPONDING then
      { recordState status nodeName node PodConditionNotResponding with
        NotResponding := status.NotResponding + 1 }
    else status
  if setHas states V0044NodeState.UNDRAIN then
    { recordState status nodeName node PodConditionUndrain with Undrain := status.Undrain + 1 }
  else status

/-- One iteration of the loop of `CalculateNodeStatus` over the listed nodes;
`podNodeNames` is `podNodeNameSet`. -/
def calculateStep (podNodeNames : List String) (status : SlurmNodeStatus) (node : V0044Node) :
    SlurmNodeStatus :=
  let nodeName := node.Name.getD ""
  if !podNodeNames.contains nodeName then
    status
  else
    let status := { status with Total := status.Total + 1 }
    let status := countBaseState status nodeName node
    countFlagStates status nodeName node

/-- The method `CalculateNodeStatus`: the pair `(status, err)`. -/
def CalculateNodeStatus {σ : Type} (r : realSlurmControl σ) (deps : SlurmDeps) (remote : σ)
    (nodeset : NodeSet) (pods : List Pod) : SlurmNodeStatus × Option GoError :=
  let status : SlurmNodeStatus := {}
  match r.lookupClient nodeset with
  | none => (status, none)
  | some slurmClient =>
    match slurmClient.ListNodes remote with
    | .error err =>
      if tolerateError (some err) then (status, none) else (status, some err)
    | .ok items =>
      let podNodeNames := pods.map deps.GetNodeName
      (items.foldl (calculateStep podNodeNames) status, none)

/-! ### `GetNodeDeadlines` -/

/-- The result of a Go computation on 64-bit integers. -/
def wrap64 (x : Int) : Int := (x + 2 ^ 63) % 2 ^ 64 - 2 ^ 63

/-- The result of a Go computation on 32-bit integers. -/
def wrap32 (x : Int) : Int := (x + 2 ^ 31) % 2 ^ 32 - 2 ^ 31

/-- The constant `infiniteDuration`, in nanoseconds. -/
def infiniteDuration : Int := 2 ^ 63 - 1

/-- The constant `time.Minute`, in nanoseconds. -/
def timeMinute : Int := 60 * 1000000000

/-- Modelled from the spec: the type `timestore.TimeStore` built by
`timestore.NewTimeStore(timestore.Greater)`, whose source is missing; it keeps
the greatest time pushed for each key. Times are in nanoseconds. -/
abbrev TimeStore := List (String × Int)

/-- Modelled from the spec: the method `Push` of `timestore.TimeStore`, which
keeps the greatest value per key. -/
def TimeStore.Push (ts : TimeStore) (key : String) (t : Int) : TimeStore :=
  if ts.any (fun entry => entry.1 == key) then
    ts.map (fun entry => if entry.1 == key then (entry.1, max entry.2 t) else entry)
  else
    ts ++ [(key, t)]

/-- The method `GetStateAsSet` of a job. -/
def V0044JobInfo.GetStateAsSet (job : V0044JobInfo) : List V0044JobInfoJobState :=
  job.JobState.getD []

/-- The time `startTime.Add(timeLimit)` of a job, in nanoseconds since the
epoch. -/
def jobDeadline (job : V0044JobInfo) : Int :=
  let startTimeNoVal := job.StartTime.getD {}
  let startTime := (startTimeNoVal.Number.getD 0) * 1000000000
  let timeLimitNoVal := job.TimeLimit.getD {}
  let timeLimit := wrap64 ((timeLimitNoVal.Number.getD 0) * timeMinute)
  let timeLimit := if timeLimitNoVal.Infinite.getD false then infiniteDuration else timeLimit
  startTime + timeLimit

/-- The loop of `GetNodeDeadlines` over the listed jobs; `slurmNodeNamesSet`
holds the node names of the pods. -/
def deadlinesLoop (deps : SlurmDeps) (slurmNodeNamesSet : List String) :
    List V0044JobInfo → TimeStore → Except GoError TimeStore
  | [], ts => .ok ts
  | job :: jobs, ts =>
    if !job.GetStateAsSet.contains V0044JobInfoJobState.RUNNING then
      deadlinesLoop deps slurmNodeNamesSet jobs ts
    else
      match deps.Expand (job.Nodes.getD "") with
      | .error err => .error err
      | .ok slurmNodeNames =>
        if !slurmNodeNames.any (fun name => slurmNodeNamesSet.contains name) then
          deadlinesLoop deps slurmNodeNamesSet jobs ts
        else
          deadlinesLoop deps slurmNodeNamesSet jobs
            (slurmNodeNames.foldl (fun store name => TimeStore.Push store name (jobDeadline job)) ts)

/-- The method `GetNodeDeadlines`: the store, or the error with a `nil`
store. -/
def GetNodeDeadlines {σ : Type} (r : realSlurmControl σ) (deps : SlurmDeps) (remote : σ)
    (nodeset : NodeSet) (pods : List Pod) : Except GoError TimeStore :=
  let ts : TimeStore := []
  match r.lookupClient nodeset with
  | none => .ok ts
  | some slurmClient =>
    let slurmNodeNamesSet := pods.map deps.GetNodeName
    match slurmClient.ListJobs remote with
    | .error err => .error err
    | .ok items => deadlinesLoop deps slurmNodeNamesSet items ts

/-! ## `syncSlurm`

The file `nodeset_update.go` uses version `v0041` of the Slurm API, whose
nodes, states and update messages have the fields of version `v0044` used
above; both are the same types here. -/

/-- The methods of the Kubernetes client embedded in `defaultNodeSetControl`
that `syncSlurm` calls, over the API state `τ`. -/
structure KubeClient (τ : Type) where
  Get : τ → NamespacedName → Except GoError Pod
  Update : τ → Pod → Option GoError × τ

/-- The type `defaultNodeSetControl`: the embedded Kubernetes client, the
method `Get` of the client map `slurmClusters`, and the method
`UpdateNodeSetStatus` of `statusUpdater`. -/
structure defaultNodeSetControl (σ τ : Type) where
  kube : KubeClient τ
  slurmClusters : NamespacedName → Option (Client σ)
  UpdateNodeSetStatus : τ → NodeSet → NodeSetStatus → Option GoError × τ

/-- Functions called by `syncSlurm` and `syncNodeSetStatus` whose source is
not part of the development: `utils.IsHealthy`, `utils.IsRunningAndAvailable`
and `apierrors.IsNotFound`. -/
structure SyncDeps where
  IsHealthy : Pod → Bool
  IsRunningAndAvailable : Pod → Int → Bool
  IsNotFound : GoError → Bool

/-- The value of `clusterName`. -/
def clusterNameOf (nodeset : NodeSet) : NamespacedName :=
  { Namespace := nodeset.Namespace, Name := nodeset.Spec.ClusterName }

/-- The function `updateSlurmNodeWithPodInfo`. -/
def updateSlurmNodeWithPodInfo {σ τ : Type} (nsc : defaultNodeSetControl σ τ) (d : Deps)
    (deps : SlurmDeps) (remote : σ) (kube : τ) (nodeset : NodeSet) (pod : Pod) : Outcome σ :=
  match nsc.kube.Get kube { Namespace := pod.Namespace, Name := pod.Name } with
  | .error err => ⟨some err, [], remote⟩
  | .ok _ =>
    match nsc.slurmClusters (clusterNameOf nodeset) with
    | none => ⟨none, [], remote⟩
    | some slurmClient =>
      if d.isNodeSetPodDelete pod then
        ⟨none, [], remote⟩
      else
        match slurmClient.Get remote pod.Hostname with
        | .error err => ⟨some err, [], remote⟩
        | .ok slurmNode =>
          let oldPodInfo := deps.ParseIntoPodInfo slurmNode.Comment
          let podInfo : PodInfo := { Namespace := pod.Namespace, PodName := pod.Name }
          if oldPodInfo.Equal podInfo then
            ⟨none, [], remote⟩
          else
            let req : V0044UpdateNodeMsg := { Comment := some (deps.ToString podInfo) }
            match slurmClient.Update remote slurmNode req with
            | (err, remote1) => ⟨err, [(slurmNode, req)], remote1⟩

/-- How a Go function ends: it returns an error, `none` for `nil`, or it
panics. -/
inductive GoResult where
  | returned (err : Option GoError)
  | panicked
deriving DecidableEq, Repr

/-- What the first loop of `syncSlurm` leaves: the error that ends the pass,
if any, the set `kubeNodes`, the `Update` calls issued and the remote. -/
structure PodInfoLoop (σ : Type) where
  err : Option GoError
  kubeNodes : List String
  slurmUpdates : List (V0044Node × V0044UpdateNodeMsg)
  remote : σ

/-- The inner loop of the first loop of `syncSlurm`, over the pods of a node;
the error is the one that is not tolerated. -/
def podInfoPods {σ τ : Type} (nsc : defaultNodeSetControl σ τ) (d : Deps) (deps : SlurmDeps)
    (sd : SyncDeps) (kube : τ) (nodeset : NodeSet) :
    List Pod → List (V0044Node × V0044UpdateNodeMsg) × σ →
      Option GoError × List (V0044Node × V0044UpdateNodeMsg) × σ
  | [], (updates, remote) => (none, updates, remote)
  | pod :: pods, (updates, remote) =>
    if !sd.IsHealthy pod then
      podInfoPods nsc d deps sd kube nodeset pods (updates, remote)
    else
      let out := updateSlurmNodeWithPodInfo nsc d deps remote kube nodeset pod
      if !tolerateError out.err then
        (out.err, updates ++ out.updates, out.remote)
      else
        podInfoPods nsc d deps sd kube nodeset pods (updates ++ out.updates, out.remote)

/-- The first loop of `syncSlurm`, over `nodes`. -/
def podInfoNodes {σ τ : Type} (nsc : defaultNodeSetControl σ τ) (d : Deps) (deps : SlurmDeps)
    (sd : SyncDeps) (kube : τ) (nodeset : NodeSet) (m : NodeToPods) :
    List Node → PodInfoLoop σ → PodInfoLoop σ
  | [], acc => acc
  | node :: nodes, acc =>
    if !mapHas m node then
      podInfoNodes nsc d deps sd kube nodeset m nodes acc
    else
      let kubeNodes := acc.kubeNodes ++ [node.Name]
      match podInfoPods nsc d deps sd kube nodeset (mapGet m node) (acc.slurmUpdates, acc.remote) with
      | (some err, updates, remote) => ⟨some err, kubeNodes, updates, remote⟩
      | (none, updates, remote) =>
        podInfoNodes nsc d deps sd kube nodeset m nodes ⟨none, kubeNodes, updates, remote⟩

/-- The method `HasAll` of `set.Set`. -/
def setHasAll (states : List V0044NodeState) (xs : List V0044NodeState) : Bool :=
  xs.all (fun x => decide (x ∈ states))

/-- What the second loop of `syncSlurm` leaves: how it ended, the set
`slurmNodes`, the nodes passed to `Delete` and the remote. -/
structure DeleteLoop (σ : Type) where
  result : GoResult
  slurmNodes : List String
  deletes : List V0044Node
  remote : σ

/-- The second loop of `syncSlurm`, over the listed Slurm nodes. The
dereference `*node.Name` panics when the name is `nil`. -/
def deleteLoop {σ : Type} (slurmClient : Client σ) (deps : SlurmDeps) (kubeNodes : List String) :
    List V0044Node → List String × List V0044Node × σ → DeleteLoop σ
  | [], (slurmNodes, deletes, remote) => ⟨.returned none, slurmNodes, deletes, remote⟩
  | node :: items, (slurmNodes, deletes, remote) =>
    let hasCommunicationFailure :=
      setHasAll node.GetStateAsSet [V0044NodeState.DOWN, V0044NodeState.NOTRESPONDING]
    let podInfo := deps.ParseIntoPodInfo node.Comment
    let noPodInfo := podInfo.Equal {}
    match node.Name with
    | none => ⟨.panicked, slurmNodes, deletes, remote⟩
    | some name =>
      if kubeNodes.contains name || !hasCommunicationFailure || noPodInfo then
        deleteLoop slurmClient deps kubeNodes items (slurmNodes ++ [name], deletes, remote)
      else
        match slurmClient.Delete remote node with
        | (err, remote1) =>
          if !tolerateError err then
            ⟨.returned err, slurmNodes, deletes ++ [node], remote1⟩
          else
            deleteLoop slurmClient deps kubeNodes items (slurmNodes, deletes ++ [node], remote1)

/-- The map write `annotations[key] = value`. -/
def setKey (kvs : List (String × String)) (key value : String) : List (String × String) :=
  if kvs.any (fun kv => kv.1 == key) then
    kvs.map (fun kv => if kv.1 == key then (key, value) else kv)
  else
    kvs ++ [(key, value)]

/-- The pod `toUpdate`: the copy of the pod with the deletion annotation. -/
def withPodDelete (pod : Pod) : Pod :=
  { pod with Annotations := some (setKey (pod.Annotations.getD []) podDeleteKey "true") }

/-- What the third loop of `syncSlurm` leaves: how it ended, the pods passed
to the `Update` of the Kubernetes client and the API state. -/
structure MarkLoop (τ : Type) where
  result : GoResult
  podUpdates : List Pod
  kube : τ

/-- The inner loop of the third loop of `syncSlurm`, over the pods of a node.
The write into `toUpdate.Annotations` panics when the map is `nil`. -/
def markPods {τ : Type} (kubeClient : KubeClient τ) (d : Deps) (sd : SyncDeps)
    (slurmNodes : List String) : List Pod → List Pod × τ → MarkLoop τ
  | [], (podUpdates, kube) => ⟨.returned none, podUpdates, kube⟩
  | pod :: pods, (podUpdates, kube) =>
    if slurmNodes.contains pod.Hostname || !sd.IsHealthy pod
        || !sd.IsRunningAndAvailable pod 30 || d.isNodeSetPodDelete pod then
      markPods kubeClient d sd slurmNodes pods (podUpdates, kube)
    else
      match pod.Annotations with
      | none => ⟨.panicked, podUpdates, kube⟩
      | some _ =>
        let toUpdate := withPodDelete pod
        match kubeClient.Update kube toUpdate with
        | (some err, kube1) =>
          if sd.IsNotFound err then
            ⟨.returned (some err), podUpdates ++ [toUpdate], kube1⟩
          else
            markPods kubeClient d sd slurmNodes pods (podUpdates ++ [toUpdate], kube1)
        | (none, kube1) =>
          markPods kubeClient d sd slurmNodes pods (podUpdates ++ [toUpdate], kube1)

/-- The third loop of `syncSlurm`, over `nodes`. -/
def markNodes {τ : Type} (kubeClient : KubeClient τ) (d : Deps) (sd : SyncDeps)
    (slurmNodes : List String) (m : NodeToPods) : List Node → List Pod × τ → MarkLoop τ
  | [], (podUpdates, kube) => ⟨.returned none, podUpdates, kube⟩
  | node :: nodes, (podUpdates, kube) =>
    if !mapHas m node then
      markNodes kubeClient d sd slurmNodes m nodes (podUpdates, kube)
    else
      match markPods kubeClient d sd slurmNodes (mapGet m node) (podUpdates, kube) with
      | ⟨.returned none, podUpdates1, kube1⟩ =>
        markNodes kubeClient d sd slurmNodes m nodes (podUpdates1, kube1)
      | stopped => stopped

/-- The items of the node list after `List`: none when the call fails. -/
def listedNodes {σ : Type} (slurmClient : Client σ) (remote : σ) : List V0044Node :=
  match slurmClient.ListNodes remote with
  | .ok items => items
  | .error _ => []

/-- The error of `List`, `none` for `nil`. -/
def listError {σ : Type} (slurmClient : Client σ) (remote : σ) : Option GoError :=
  match slurmClient.ListNodes remote with
  | .ok _ => none
  | .error err => some err

/-- What a pass of `syncSlurm` leaves: how it ended, the `Update` and `Delete`
calls issued to Slurm, the set `slurmNodes` of retained node names, the pods
passed to the `Update` of the Kubernetes client, and both remote states. -/
structure SyncOutcome (σ τ : Type) where
  result : GoResult
  slurmUpdates : List (V0044Node × V0044UpdateNodeMsg)
  deletes : List V0044Node
  slurmNodes : List String
  podUpdates : List Pod
  remote : σ
  kube : τ

/-- The function `syncSlurm`. -/
def syncSlurm {σ τ : Type} (nsc : defaultNodeSetControl σ τ) (d : Deps) (deps : SlurmDeps)
    (sd : SyncDeps) (remote : σ) (kube : τ) (nodeset : NodeSet) (nodes : List Node)
    (m : NodeToPods) : SyncOutcome σ τ :=
  match nsc.slurmClusters (clusterNameOf nodeset) with
  | none => ⟨.returned none, [], [], [], [], remote, kube⟩
  | some slurmClient =>
    if !tolerateError (listError slurmClient remote) then
      ⟨.returned (listError slurmClient remote), [], [], [], [], remote, kube⟩
    else
      let first := podInfoNodes nsc d deps sd kube nodeset m nodes ⟨none, [], [], remote⟩
      match first.err with
      | some err => ⟨.returned (some err), first.slurmUpdates, [], [], [], first.remote, kube⟩
      | none =>
        let second := deleteLoop slurmClient deps first.kubeNodes
          (listedNodes slurmClient remote) ([], [], first.remote)
        match second.result with
        | .returned none =>
          let third := markNodes nsc.kube d sd second.slurmNodes m nodes ([], kube)
          ⟨third.result, first.slurmUpdates, second.deletes, second.slurmNodes,
            third.podUpdates, second.remote, third.kube⟩
        | stopped =>
          ⟨stopped, first.slurmUpdates, second.deletes, second.slurmNodes, [], second.remote,
            kube⟩

/-! ## `syncNodeSetStatus` -/

/-- Functions called by `syncNodeSetStatus` whose source is not part of the
development. `selectorString` is `metav1.LabelSelectorAsSelector` on the
selector of the NodeSet followed by `String()`; `sortPods` is
`sort.Sort(utils.PodByCreationTimestampAndPhase(...))`; `ParseInt` is
`strconv.ParseInt(s, 10, 64)`. -/
structure StatusDeps where
  KeyFunc : NodeSet → String
  selectorString : NodeSet → Except GoError String
  sortPods : List Pod → List Pod
  IsPodReady : Pod → Bool
  isNodeSetPodAvailable : Pod → Int → Time → Bool
  IsPodUpdated : Pod → String → Option Int → Bool
  isPodFromNodeSet : NodeSet → Pod → Bool
  ParseInt : String → Except GoError Int

/-- The constant `appsv1.DeprecatedTemplateGeneration`. -/
def DeprecatedTemplateGeneration : String := "deprecated.daemonset.template.generation"

/-- The value stored under `key` in a Go map of strings, if any. -/
def annotationOf (kvs : List (String × String)) (key : String) : Option String :=
  (kvs.find? (fun kv => kv.1 == key)).map Prod.snd

/-- The function `GetTemplateGeneration`: `(nil, nil)` is `.ok none`. -/
def GetTemplateGeneration (st : StatusDeps) (nodeset : NodeSet) : Except GoError (Option Int) :=
  match annotationOf nodeset.Annotations DeprecatedTemplateGeneration with
  | none => .ok none
  | some annotation =>
    match st.ParseInt annotation with
    | .error err => .error err
    | .ok generation => .ok (some generation)

/-- The function `inconsistentStatus`. -/
def inconsistentStatus (nodeset : NodeSet) (status : NodeSetStatus) : Bool :=
  decide (status.ObservedGeneration > nodeset.Status.ObservedGeneration) ||
    decide (status.DesiredNumberScheduled ≠ nodeset.Status.DesiredNumberScheduled) ||
    decide (status.CurrentNumberScheduled ≠ nodeset.Status.CurrentNumberScheduled) ||
    decide (status.NumberMisscheduled ≠ nodeset.Status.NumberMisscheduled) ||
    decide (status.NumberReady ≠ nodeset.Status.NumberReady) ||
    decide (status.UpdatedNumberScheduled ≠ nodeset.Status.UpdatedNumberScheduled) ||
    decide (status.NumberAvailable ≠ nodeset.Status.NumberAvailable) ||
    decide (status.NumberUnavailable ≠ nodeset.Status.NumberUnavailable) ||
    decide (status.NumberIdle ≠ nodeset.Status.NumberIdle) ||
    decide (status.NumberAllocated ≠ nodeset.Status.NumberAllocated) ||
    decide (status.NumberDrain ≠ nodeset.Status.NumberDrain) ||
    decide (status.NodeSetHash ≠ nodeset.Status.NodeSetHash)

/-- What `updateStatus` leaves: the error it returns, the statuses passed to
`UpdateNodeSetStatus`, and the API state. -/
structure StatusWrite (τ : Type) where
  err : Option GoError
  writes : List NodeSetStatus
  kube : τ

/-- The function `updateStatus`. -/
def updateStatus {σ τ : Type} (nsc : defaultNodeSetControl σ τ) (kube : τ) (nodeset : NodeSet)
    (status : NodeSetStatus) : StatusWrite τ :=
  if !inconsistentStatus nodeset status then
    ⟨none, [], kube⟩
  else
    match nsc.UpdateNodeSetStatus kube nodeset status with
    | (err, kube1) => ⟨err, [status], kube1⟩

/-- The counters of `syncNodeSetStatus`. -/
structure StatusCounts where
  desiredNumberScheduled : Int := 0
  currentNumberScheduled : Int := 0
  numberMisscheduled : Int := 0
  numberReady : Int := 0
  updatedNumberScheduled : Int := 0
  numberAvailable : Int := 0
  numberIdle : Int := 0
  numberAllocated : Int := 0
  numberDown : Int := 0
  numberDrain : Int := 0
deriving DecidableEq, Repr

/-- The first half of an iteration of the loop of `syncNodeSetStatus`: the
counters of the pods of the node. -/
def countNodePods (d : Deps) (st : StatusDeps) (nodeset : NodeSet) (m : NodeToPods)
    (hash : String) (now : Time) (counts : StatusCounts) (node : Node) : StatusCounts :=
  let shouldRun := d.nodeShouldRunNodeSetPod node nodeset
  let scheduled := decide ((mapGet m node).length > 0)
  if shouldRun then
    let counts := { counts with desiredNumberScheduled := counts.desiredNumberScheduled + 1 }
    if scheduled then
      let counts := { counts with currentNumberScheduled := counts.currentNumberScheduled + 1 }
      match st.sortPods (mapGet m node) with
      | [] => counts
      | pod :: _ =>
        let counts :=
          if st.IsPodReady pod then
            let counts := { counts with numberReady := counts.numberReady + 1 }
            if st.isNodeSetPodAvailable pod nodeset.Spec.MinReadySeconds now then
              { counts with numberAvailable := counts.numberAvailable + 1 }
            else counts
          else counts
        let generation :=
          match GetTemplateGeneration st nodeset with
          | .error _ => none
          | .ok generation => generation
        if st.IsPodUpdated pod hash generation then
          { counts with updatedNumberScheduled := counts.updatedNumberScheduled + 1 }
        else counts
    else counts
  else
    if scheduled then
      { counts with numberMisscheduled := counts.numberMisscheduled + 1 }
    else counts

/-- The `switch` and the `if` over the states of the Slurm node in
`syncNodeSetStatus`. -/
def countSlurmStates (counts : StatusCounts) (slurmNode : V0044Node) : StatusCounts :=
  let states := slurmNode.GetStateAsSet
  let counts :=
    if setHas states V0044NodeState.IDLE then
      { counts with numberIdle := counts.numberIdle + 1 }
    else if setHasAny states [V0044NodeState.ALLOCATED, V0044NodeState.MIXED] then
      { counts with numberAllocated := counts.numberAllocated + 1 }
    else if setHas states V0044NodeState.DOWN then
      { counts with numberDown := counts.numberDown + 1 }
    else counts
  if setHas states V0044NodeState.DRAIN then
    { counts with numberDrain := counts.numberDrain + 1 }
  else counts

/-- What the loop of `syncNodeSetStatus` leaves: the error that ends the
function, if any, the counters, the `Update` calls issued to Slurm and the
remote. -/
structure StatusLoop (σ : Type) where
  err : Option GoError
  counts : StatusCounts
  slurmUpdates : List (V0044Node × V0044UpdateNodeMsg)
  remote : σ

/-- The loop of `syncNodeSetStatus` over `nodes`. A `Get` that fails with
`Not Found` leaves `slurmNode` at its zero value. -/
def statusLoop {σ τ : Type} (nsc : defaultNodeSetControl σ τ) (d : Deps) (deps : SlurmDeps)
    (sd : SyncDeps) (st : StatusDeps) (kube : τ) (nodeset : NodeSet) (m : NodeToPods)
    (hash : String) (now : Time) : List Node → StatusLoop σ → StatusLoop σ
  | [], acc => acc
  | node :: nodes, acc =>
    let counts := countNodePods d st nodeset m hash now acc.counts node
    match nsc.slurmClusters (clusterNameOf nodeset) with
    | none =>
      statusLoop nsc d deps sd st kube nodeset m hash now nodes { acc with counts := counts }
    | some slurmClient =>
      let fetched : Except GoError V0044Node :=
        match slurmClient.Get acc.remote node.Name with
        | .ok slurmNode => .ok slurmNode
        | .error err =>
          if err != statusTextNotFound then .error ("failed to get Slurm Node: " ++ err)
          else .ok {}
      match fetched with
      | .error err => { acc with err := some err, counts := counts }
      | .ok slurmNode =>
        let podInfo := deps.ParseIntoPodInfo slurmNode.Comment
        let pod : Pod := { ptr := 0, Namespace := podInfo.Namespace, Name := podInfo.PodName }
        if !st.isPodFromNodeSet nodeset pod then
          statusLoop nsc d deps sd st kube nodeset m hash now nodes { acc with counts := counts }
        else
          let synced : Outcome σ :=
            if sd.IsHealthy pod then
              updateSlurmNodeWithPodInfo nsc d deps acc.remote kube nodeset pod
            else ⟨none, [], acc.remote⟩
          match synced.err with
          | some err =>
            if err != statusTextNotFound then
              ⟨some err, counts, acc.slurmUpdates ++ synced.updates, synced.remote⟩
            else
              statusLoop nsc d deps sd st kube nodeset m hash now nodes
                ⟨none, countSlurmStates counts slurmNode, acc.slurmUpdates ++ synced.updates,
                  synced.remote⟩
          | none =>
            statusLoop nsc d deps sd st kube nodeset m hash now nodes
              ⟨none, countSlurmStates counts slurmNode, acc.slurmUpdates ++ synced.updates,
                synced.remote⟩

/-- The status `syncNodeSetStatus` hands to `updateStatus`. The counters are
`int32` variables and `spec.replicas` is any `int32`, so the difference
`desiredNumberScheduled - numberAvailable` is the one of 32-bit integers. -/
def computedStatus (nodeset : NodeSet) (counts : StatusCounts) (collisionCount : Int)
    (hash : String) (updateObservedGen : Bool) (selector : String) : NodeSetStatus :=
  let desiredNumberScheduled :=
    match nodeset.Spec.Replicas with
    | some replicas => replicas
    | none => counts.desiredNumberScheduled
  let numberUnavailable := wrap32 (desiredNumberScheduled - counts.numberAvailable)
  { nodeset.Status with
    ObservedGeneration :=
      if updateObservedGen then nodeset.Generation else nodeset.Status.ObservedGeneration,
    DesiredNumberScheduled := desiredNumberScheduled,
    CurrentNumberScheduled := counts.currentNumberScheduled,
    NumberMisscheduled := counts.numberMisscheduled,
    NumberReady := counts.numberReady,
    UpdatedNumberScheduled := counts.updatedNumberScheduled,
    NumberAvailable := counts.numberAvailable,
    NumberUnavailable := numberUnavailable,
    NumberIdle := counts.numberIdle,
    NumberAllocated := counts.numberAllocated,
    NumberDown := counts.numberDown,
    NumberDrain := counts.numberDrain,
    NodeSetHash := hash,
    CollisionCount := some collisionCount,
    Selector := selector }

/-- What `syncNodeSetStatus` leaves: the error it returns, the status handed
to `updateStatus`, if the function gets there, the statuses passed to
`UpdateNodeSetStatus`, the duration in seconds pushed to `durationStore`, the
`Update` calls issued to Slurm, and both remote states. -/
structure StatusOutcome (σ τ : Type) where
  err : Option GoError
  computed : Option NodeSetStatus
  writes : List NodeSetStatus
  resync : Option Int
  slurmUpdates : List (V0044Node × V0044UpdateNodeMsg)
  remote : σ
  kube : τ

/-- The function `syncNodeSetStatus`. -/
def syncNodeSetStatus {σ τ : Type} (nsc : defaultNodeSetControl σ τ) (d : Deps)
    (deps : SlurmDeps) (sd : SyncDeps) (st : StatusDeps) (remote : σ) (kube : τ)
    (nodeset : NodeSet) (nodes : List Node) (m : NodeToPods) (collisionCount : Int)
    (hash : String) (updateObservedGen : Bool) (now : Time) : StatusOutcome σ τ :=
  match st.selectorString nodeset with
  | .error err =>
    ⟨some ("could not get label selector for NodeSet(" ++ st.KeyFunc nodeset ++ "): " ++ err),
      none, [], none, [], remote, kube⟩
  | .ok selector =>
    let loop := statusLoop nsc d deps sd st kube nodeset m hash now nodes ⟨none, {}, [], remote⟩
    match loop.err with
    | some err => ⟨some err, none, [], none, loop.slurmUpdates, loop.remote, kube⟩
    | none =>
      let status := computedStatus nodeset loop.counts collisionCount hash updateObservedGen
        selector
      let written := updateStatus nsc kube nodeset status
      match written.err with
      | some err =>
        ⟨some ("error updating NodeSet(" ++ st.KeyFunc nodeset ++ ") status: " ++ err),
          some status, written.writes, none, loop.slurmUpdates, loop.remote, written.kube⟩
      | none =>
        let resync : Option Int :=
          if nodeset.Spec.MinReadySeconds ≥ 0
              ∧ loop.counts.numberReady ≠ loop.counts.numberAvailable then
            some nodeset.Spec.MinReadySeconds
          else if loop.counts.numberIdle + loop.counts.numberAllocated
              ≠ status.DesiredNumberScheduled then
            some 5
          else none
        ⟨none, some status, written.writes, resync, loop.slurmUpdates, loop.remote,
          written.kube⟩

/-- A remote stores the written comment: after a successful `Update` through
an object of the same name as the node stored under `key`, reading `key`
yields a node of that name whose comment is the one of the request, or the
stored one when the request carries none. -/
def Client.StoresComment {σ : Type} (c : Client σ) : Prop :=
  ∀ (remote remote1 : σ) (key : String) (stored obj : V0044Node) (req : V0044UpdateNodeMsg),
    c.Get remote key = .ok stored → obj.Name = stored.Name →
    c.Update remote obj req = (none, remote1) →
    ∃ stored1, c.Get remote1 key = .ok stored1 ∧ stored1.Name = stored.Name
      ∧ stored1.Comment = (match req.Comment with
          | some comment => some comment
          | none => stored.Comment)

/-- A remote stores what `Update` writes: after a successful `Update` of a
node read under `key`, reading `key` again yields a node that carries the
reason of the request and, when the request sets `DRAIN`, the `DRAIN` flag. -/
def Client.StoresUpdates {σ : Type} (c : Client σ) : Prop :=
  ∀ (remote remote1 : σ) (key : String) (node : V0044Node) (req : V0044UpdateNodeMsg),
    c.Get remote key = .ok node → c.Update remote node req = (none, remote1) →
    ∃ node1, c.Get remote1 key = .ok node1
      ∧ (∀ reason, req.Reason = some reason → node1.Reason = some reason)
      ∧ (∀ states, req.State = some states → V0044UpdateNodeMsgState.DRAIN ∈ states →
          V0044NodeState.DRAIN ∈ node1.GetStateAsSet)

/-! ## A recording remote

A remote that keeps a list of nodes and writes every field of an `Update`
into the node of the same name. -/

/-- The node state an update state sets. -/
def V0044UpdateNodeMsgState.toNodeState : V0044UpdateNodeMsgState → V0044NodeState
  | .DOWN => .DOWN
  | .DRAIN => .DRAIN
  | .FAIL => .FAIL
  | .FUTURE => .FUTURE
  | .IDLE => .IDLE
  | .RESUME => .RESUME
  | .UNDRAIN => .UNDRAIN

/-- The node after the fields of `req` are written into it. -/
def writeUpdate (node : V0044Node) (req : V0044UpdateNodeMsg) : V0044Node :=
  { Name := node.Name,
    State := match req.State with
      | none => node.State
      | some states => some (states.map V0044UpdateNodeMsgState.toNodeState ++ node.GetStateAsSet),
    Reason := match req.Reason with
      | none => node.Reason
      | some reason => some reason,
    Comment := match req.Comment with
      | none => node.Comment
      | some comment => some comment }

/-- The recording remote as a client over a list of nodes. -/
def recordingClient : Client (List V0044Node) where
  Get := fun remote key =>
    match remote.find? (fun node => decide (node.Name = some key)) with
    | some node => .ok node
    | none => .error statusTextNotFound
  Update := fun remote node req =>
    (none, remote.map (fun stored => if stored.Name = node.Name then writeUpdate stored req else stored))
  ListNodes := fun remote => .ok remote
  ListJobs := fun _ => .ok []
  Delete := fun remote node => (none, remote.filter (fun stored => decide (stored.Name ≠ node.Name)))

/-- A control whose client map holds the recording remote for every
controller. -/
def recordingControl : realSlurmControl (List V0044Node) := ⟨fun _ => some recordingClient⟩

/-- The characters of a comment up to the first `/`, and those after it. -/
def splitSlash : List Char → List Char × List Char
  | [] => ([], [])
  | c :: cs =>
    if c = '/' then ([], cs)
    else (c :: (splitSlash cs).1, (splitSlash cs).2)

/-- A comment format for examples: `namespace/podName/node`. -/
def slashToString (info : PodInfo) : String :=
  info.Namespace ++ "/" ++ info.PodName ++ "/" ++ info.Node

/-- The identity read from a comment in the format of `slashToString`; the
zero identity for an absent or empty comment. -/
def slashParse (comment : Option String) : PodInfo :=
  match comment with
  | none => {}
  | some text =>
    let first := splitSlash text.data
    let second := splitSlash first.2
    { Namespace := String.mk first.1, PodName := String.mk second.1, Node := String.mk second.2 }

/-- A control without any client. -/
def noClientControl : realSlurmControl (List V0044Node) := ⟨fun _ => none⟩

/-- The node name of a pod is its hostname; comments are in the format of
`slashToString`; a host list is a single host name. -/
def refSlurmDeps : SlurmDeps where
  GetNodeName := fun pod => pod.Hostname
  ParseIntoPodInfo := slashParse
  ToString := slashToString
  Expand := fun hosts => if hosts = "" then .ok [] else .ok [hosts]

/-- The Slurm node of `podA`, idle. -/
def idleWorkerA : V0044Node := { Name := some "worker-a", State := some [V0044NodeState.IDLE] }

/-- The Slurm node of `podA` after a drain for `maintenance`. -/
def drainedWorkerA : V0044Node :=
  { Name := some "worker-a", State := some [V0044NodeState.DRAIN, V0044NodeState.IDLE],
    Reason := some "slurm-operator: maintenance" }

/-- The Slurm node of `podA`, allocated and draining. -/
def drainingWorkerA : V0044Node :=
  { Name := some "worker-a", State := some [V0044NodeState.ALLOCATED, V0044NodeState.DRAIN] }

/-! ## Vocabulary of the rolling-update properties -/

/-- The node has excess pods: `findUpdatedPodsOnNode` reports `ok = false`. -/
def hasExcessPods (d : Deps) (nodeset : NodeSet) (hash : String) (e : Node × List Pod) : Bool :=
  !(d.findUpdatedPodsOnNode nodeset e.2 hash).2.2

/-- The node holds an up-to-date pod and no old pod, and the up-to-date pod
is not available. -/
def newPodUnavailable (d : Deps) (nodeset : NodeSet) (hash : String) (now : Time)
    (e : Node × List Pod) : Bool :=
  match d.findUpdatedPodsOnNode nodeset e.2 hash with
  | (some newPod, none, true) => !d.IsPodAvailable newPod nodeset.Spec.MinReadySeconds now
  | _ => false

/-- An optional-replace pod is available and not marked for deletion. -/
def optionalReplace (d : Deps) (nodeset : NodeSet) (now : Time) (p : Pod) : Bool :=
  d.IsPodAvailable p nodeset.Spec.MinReadySeconds now && !d.isNodeSetPodDelete p

/-- A must-replace pod is not available, or is marked for deletion. -/
def mustReplace (d : Deps) (nodeset : NodeSet) (now : Time) (p : Pod) : Bool :=
  !d.IsPodAvailable p nodeset.Spec.MinReadySeconds now || d.isNodeSetPodDelete p

/-- The node holds the old pod `p` and no up-to-date pod. -/
def onlyOldPod (d : Deps) (nodeset : NodeSet) (hash : String) (e : Node × List Pod)
    (p : Pod) : Prop :=
  d.findUpdatedPodsOnNode nodeset e.2 hash = (none, some p, true)

/-- The must-replace pod an entry contributes to `allowedReplacementPods`. -/
def mustReplacePodOf (d : Deps) (nodeset : NodeSet) (hash : String) (now : Time)
    (e : Node × List Pod) : Option Pod :=
  match d.findUpdatedPodsOnNode nodeset e.2 hash with
  | (none, some oldPod, true) => if mustReplace d nodeset now oldPod then some oldPod else none
  | _ => none

/-! ## Reference helpers

Concrete versions of the functions in `Deps`, after the daemon set controller
of Kubernetes from which the NodeSet controller derives. They are used to
evaluate the embedded code on concrete inputs. -/

/-- The label that carries the hash of the pod template. -/
def controllerRevisionHashKey : String := "controller-revision-hash"

/-- The value stored under `key`, if any. -/
def lookupKey (kvs : List (String × String)) (key : String) : Option String :=
  (kvs.find? (fun kv => kv.1 == key)).map Prod.snd

/-- The pod carries the hash of the current template. -/
def isPodUpdated (pod : Pod) (hash : String) : Bool :=
  lookupKey pod.Labels controllerRevisionHashKey == some hash

/-- Splits the live pods of a node into the up-to-date and the old one;
`ok = false` when there are two of either kind. -/
def refFindUpdatedPodsOnNode (hash : String) : List Pod → UpdatedPods → UpdatedPods
  | [], acc => acc
  | pod :: pods, (newPod, oldPod, ok) =>
    if pod.DeletionTimestamp.isSome then
      refFindUpdatedPodsOnNode hash pods (newPod, oldPod, ok)
    else if isPodUpdated pod hash then
      if newPod.isSome then (none, none, false)
      else refFindUpdatedPodsOnNode hash pods (some pod, oldPod, ok)
    else
      if oldPod.isSome then (none, none, false)
      else refFindUpdatedPodsOnNode hash pods (newPod, some pod, ok)

/-- Reference helpers: every node wants a pod, `maxUnavailable` is the
integer of the update strategy, a pod is available once it has been ready for
`minReadySeconds`. -/
def refDeps : Deps where
  nodeShouldRunNodeSetPod := fun _ _ => true
  unavailableCount := fun nodeset _ =>
    match nodeset.Spec.UpdateStrategy.RollingUpdate with
    | none => .ok 0
    | some ru =>
      match ru.MaxUnavailable with
      | some (.int n) => .ok n
      | some (.str _) => .error "invalid type: string is not a percentage"
      | none => .error "nil value for IntOrString"
  findUpdatedPodsOnNode := fun _ pods hash => refFindUpdatedPodsOnNode hash pods (none, none, true)
  IsPodAvailable := fun pod minReadySeconds now =>
    match pod.ReadySince with
    | none => false
    | some since => decide (minReadySeconds = 0) || decide (since + minReadySeconds ≤ now)
  isNodeSetPodDelete := fun pod => lookupKey (pod.Annotations.getD []) podDeleteKey == some "true"

/-! ## Example cluster

Four nodes `node-a` to `node-d` of weights 1 to 4, each holding one pod of the
old template hash that has been ready since time 0. -/

def nodeA : Node := { ptr := 1, Name := "node-a", Weight := 1 }
def nodeB : Node := { ptr := 2, Name := "node-b", Weight := 2 }
def nodeC : Node := { ptr := 3, Name := "node-c", Weight := 3 }
def nodeD : Node := { ptr := 4, Name := "node-d", Weight := 4 }

/-- A pod of the old template, ready since time 0. -/
def stalePod (ptr : Nat) (name host : String) : Pod :=
  { ptr := ptr, Namespace := "slurm", Name := name, NodeName := host, Hostname := name,
    Labels := [(controllerRevisionHashKey, "old")], ReadySince := some 0 }

/-- A pod of the old template that is not ready. -/
def brokenPod (ptr : Nat) (name host : String) : Pod :=
  { ptr := ptr, Namespace := "slurm", Name := name, NodeName := host, Hostname := name,
    Labels := [(controllerRevisionHashKey, "old")], ReadySince := none }

def podA : Pod := stalePod 11 "worker-a" "node-a"
def podB : Pod := stalePod 12 "worker-b" "node-b"
def podC : Pod := stalePod 13 "worker-c" "node-c"
def podD : Pod := stalePod 14 "worker-d" "node-d"

def fourNodes : List Node := [nodeA, nodeB, nodeC, nodeD]

def fourStale : NodeToPods := [(nodeA, [podA]), (nodeB, [podB]), (nodeC, [podC]), (nodeD, [podD])]

/-- A NodeSet with the given replicas, `maxUnavailable` and partition. -/
def nodeSetWith (replicas : Option Int) (maxUnavailable : Int) (partition : Option Int) : NodeSet :=
  let rollingUpdate : RollingUpdateNodeSetStrategy :=
    { MaxUnavailable := some (IntOrString.int maxUnavailable), Partition := partition }
  { Namespace := "slurm", Name := "workers",
    Spec := { Replicas := replicas, UpdateStrategy := { RollingUpdate := some rollingUpdate } } }

/-- The pass over the example cluster with `replicas = 4`, `maxUnavailable = 1`
and no partition, visited in the order `node-a` to `node-d`. -/
def fourStalePass : RollingPass :=
  { maxUnavailable := 1, filtered := fourStale,
    state := { numUnavailable := 0, allowedReplacementPods := [],
               candidatePodsToDelete := [podA, podB, podC, podD] },
    oldPodsToDelete := [podA] }

/-- An old pod on `node-a` that is not ready. -/
def brokenA : Pod := brokenPod 21 "worker-a" "node-a"

/-- Two nodes: `node-a` holds an old pod that is not ready, `node-b` an old
pod that is available. -/
def brokenAndStale : NodeToPods := [(nodeA, [brokenA]), (nodeB, [podB])]

/-- The pass over `brokenAndStale` with `maxUnavailable = 1`, visited in the
order `node-a`, `node-b`. -/
def brokenAndStalePass : RollingPass :=
  { maxUnavailable := 1, filtered := brokenAndStale,
    state := { numUnavailable := 0, allowedReplacementPods := [brokenA],
               candidatePodsToDelete := [podB] },
    oldPodsToDelete := [brokenA, podB] }

/-- Two nodes, each holding one available old pod; the entry of `node-b`,
the node of greater weight, comes first. -/
def twoStaleReversed : NodeToPods := [(nodeB, [podB]), (nodeA, [podA])]

/-- The pass over the example cluster with `maxUnavailable = 1` and
`partition = 2`, visited in the order `node-a` to `node-d`. -/
def partitionTwoPass : RollingPass :=
  { maxUnavailable := 1, filtered := [(nodeA, [podA]), (nodeB, [podB])],
    state := { numUnavailable := 0, allowedReplacementPods := [],
               candidatePodsToDelete := [podA, podB] },
    oldPodsToDelete := [podA] }

/-- A second old pod on `node-a`. -/
def podA2 : Pod := stalePod 15 "worker-a2" "node-a"

/-- Two nodes: `node-a` holds two old pods, `node-b` one available old pod. -/
def excessAndStale : NodeToPods := [(nodeA, [podA, podA2]), (nodeB, [podB])]

/-- The pass over `excessAndStale` with `maxUnavailable = 2`, visited in the
order `node-a`, `node-b`. -/
def excessAndStalePass : RollingPass :=
  { maxUnavailable := 2, filtered := excessAndStale,
    state := { numUnavailable := 1, allowedReplacementPods := [],
               candidatePodsToDelete := [podB] },
    oldPodsToDelete := [podB] }

/-- The Slurm node of `podA` with the identity of `podA` on `node-a`. -/
def workerAOnNodeA : V0044Node :=
  { Name := some "worker-a", State := some [V0044NodeState.IDLE],
    Comment := some "slurm/worker-a/node-a" }

/-- The Slurm node of `podA` with the identity of `podA` on `node-b`, still
allocated. -/
def workerAOnNodeB : V0044Node :=
  { Name := some "worker-a", State := some [V0044NodeState.ALLOCATED],
    Comment := some "slurm/worker-a/node-b" }

/-- The node `workerAOnNodeB` after the comment and the state `IDLE` are
written. -/
def workerAMigrated : V0044Node :=
  { Name := some "worker-a", State := some [V0044NodeState.IDLE, V0044NodeState.ALLOCATED],
    Comment := some "slurm/worker-a/node-a" }

/-! ## Vocabulary of the `syncSlurm` properties -/

/-- The names of the orchestration nodes that appear both in the node list and
in the node-to-pods map. -/
def liveNodeNames (nodes : List Node) (m : NodeToPods) : List String :=
  (nodes.filter (fun node => mapHas m node)).map (fun node => node.Name)

/-- The Slurm node has a name that is none of `kubeNodes`, its state set
contains both `DOWN` and `NOTRESPONDING`, and its comment parses to a
non-empty pod identity. -/
def isOrphanedOf (deps : SlurmDeps) (kubeNodes : List String) (node : V0044Node) : Bool :=
  match node.Name with
  | none => false
  | some name =>
    decide (name ∉ kubeNodes)
      && decide (V0044NodeState.DOWN ∈ node.GetStateAsSet
          ∧ V0044NodeState.NOTRESPONDING ∈ node.GetStateAsSet)
      && decide (deps.ParseIntoPodInfo node.Comment ≠ {})

/-- The condition of C13 for the deletion of a listed Slurm node. -/
def isOrphaned (deps : SlurmDeps) (nodes : List Node) (m : NodeToPods) (node : V0044Node) : Bool :=
  isOrphanedOf deps (liveNodeNames nodes m) node

/-- The pods of the listed orchestration nodes that have an entry in the
map. -/
def candidatePods (nodes : List Node) (m : NodeToPods) : List Pod :=
  (nodes.filter (fun node => mapHas m node)).flatMap (fun node => mapGet m node)

/-- The condition of C14 for marking a pod: its hostname is not a retained
Slurm node name, it is healthy, running and available past the 30 seconds,
and not already marked for deletion. -/
def shouldMark (d : Deps) (sd : SyncDeps) (retained : List String) (pod : Pod) : Bool :=
  decide (pod.Hostname ∉ retained) && sd.IsHealthy pod && sd.IsRunningAndAvailable pod 30
    && !d.isNodeSetPodDelete pod

/-! ## Example of a `syncSlurm` pass -/

/-- Reference helpers of `syncSlurm`: a pod is healthy unless it is being
deleted, and running and available once it is ready; an error is a not-found
error when its text says so. -/
def refSyncDeps : SyncDeps where
  IsHealthy := fun pod => pod.DeletionTimestamp.isNone
  IsRunningAndAvailable := fun pod _ => pod.ReadySince.isSome
  IsNotFound := fun err => stringsContains err "not found"

/-- A Kubernetes API that finds every pod and records every update. -/
def acceptingKube : KubeClient (List Pod) where
  Get := fun _ key => .ok { ptr := 0, Namespace := key.Namespace, Name := key.Name }
  Update := fun kube pod => (none, kube ++ [pod])

/-- A Kubernetes API that finds every pod and answers every update with a
conflict. -/
def conflictKube : KubeClient (List Pod) where
  Get := fun _ key => .ok { ptr := 0, Namespace := key.Namespace, Name := key.Name }
  Update := fun kube _ => (some "Operation cannot be fulfilled on pods: the object has been modified", kube)

/-- A control over the recording remote and the accepting API. -/
def acceptingControl : defaultNodeSetControl (List V0044Node) (List Pod) where
  kube := acceptingKube
  slurmClusters := fun _ => some recordingClient
  UpdateNodeSetStatus := fun kube _ _ => (none, kube)

/-- A control over the recording remote and the conflicting API. -/
def conflictControl : defaultNodeSetControl (List V0044Node) (List Pod) where
  kube := conflictKube
  slurmClusters := fun _ => some recordingClient
  UpdateNodeSetStatus := fun kube _ _ => (none, kube)

/-- The pods `podA` and `podB` with an empty annotation map. -/
def annotatedA : Pod := { podA with Annotations := some [] }
def annotatedB : Pod := { podB with Annotations := some [] }

/-- The map of `node-a` and `node-b` with the annotated pods. -/
def twoAnnotated : NodeToPods := [(nodeA, [annotatedA]), (nodeB, [annotatedB])]

/-- The Slurm node of `annotatedA`, idle, carrying its identity. -/
def registeredWorkerA : V0044Node :=
  { Name := some "worker-a", State := some [V0044NodeState.IDLE],
    Comment := some "slurm/worker-a/" }

/-- A Slurm node that is down and not responding and carries the identity of
a pod that no longer exists. -/
def lostWorkerX : V0044Node :=
  { Name := some "worker-x",
    State := some [V0044NodeState.DOWN, V0044NodeState.NOTRESPONDING],
    Comment := some "slurm/worker-x/" }

/-! ## Example of a `syncNodeSetStatus` pass -/

/-- The number written by a list of decimal digits, `none` for an empty list
or a character that is not a digit; `acc` is the number read so far. -/
def parseDigits : List Char → Option Nat → Option Nat
  | [], acc => acc
  | c :: cs, acc =>
    if 48 ≤ c.toNat ∧ c.toNat ≤ 57 then parseDigits cs (some (acc.getD 0 * 10 + (c.toNat - 48)))
    else none

/-- The call `strconv.ParseInt(text, 10, 64)`: an optional sign followed by
decimal digits, within the range of a 64-bit integer. -/
def parseInt10 (text : String) : Except GoError Int :=
  let signed : Option Int :=
    match text.data with
    | '-' :: cs => (parseDigits cs none).map (fun n => -(n : Int))
    | '+' :: cs => (parseDigits cs none).map (fun n => (n : Int))
    | cs => (parseDigits cs none).map (fun n => (n : Int))
  match signed with
  | none => .error "invalid syntax"
  | some value =>
    if value < -(2 ^ 63) ∨ 2 ^ 63 - 1 < value then .error "value out of range" else .ok value

/-- Reference helpers of `syncNodeSetStatus`: the pods of a node are already
in order, a pod is ready once `ReadySince` is set and available as in
`refDeps`, no Slurm comment names a pod of the NodeSet. -/
def refStatusDeps : StatusDeps where
  KeyFunc := fun nodeset => nodeset.Namespace ++ "/" ++ nodeset.Name
  selectorString := fun _ => .ok "app.kubernetes.io/name=slurmd"
  sortPods := fun pods => pods
  IsPodReady := fun pod => pod.ReadySince.isSome
  isNodeSetPodAvailable := refDeps.IsPodAvailable
  IsPodUpdated := fun pod hash _ => isPodUpdated pod hash
  isPodFromNodeSet := fun _ _ => false
  ParseInt := parseInt10

/-- A control without Slurm client, over the accepting API. -/
def statusControl : defaultNodeSetControl (List V0044Node) (List Pod) where
  kube := acceptingKube
  slurmClusters := fun _ => none
  UpdateNodeSetStatus := fun kube _ _ => (none, kube)

/-- A NodeSet with `replicas = 1`. -/
def oneReplica : NodeSet := { Namespace := "slurm", Name := "workers", Spec := { Replicas := some 1 } }

/-- The status computed for `oneReplica` over two nodes that each hold an
available pod. -/
def oneReplicaStatus : NodeSetStatus :=
  { DesiredNumberScheduled := 1, CurrentNumberScheduled := 2, NumberReady := 2,
    NumberAvailable := 2, NumberUnavailable := -1, NodeSetHash := "new",
    CollisionCount := some 0, Selector := "app.kubernetes.io/name=slurmd" }

/-- A NodeSet of generation 3 whose stored status has observed generation 5. -/
def storedNodeSet : NodeSet :=
  { Namespace := "slurm", Name := "workers", Generation := 3,
    Status := { ObservedGeneration := 5, DesiredNumberScheduled := 2, NumberDown := 0,
                CollisionCount := some 0, Selector := "app=a" } }

/-! ## Vocabulary of the `CalculateNodeStatus` properties -/

/-- The listed Slurm node has a matching pod: its name, the empty name when it
has none, is the node name of a pod of the list. -/
def hasMatchingPod (deps : SlurmDeps) (pods : List Pod) (node : V0044Node) : Bool :=
  (pods.map deps.GetNodeName).contains (node.Name.getD "")

/-- The sum of the seven base-state counters. -/
def SlurmNodeStatus.baseTotal (status : SlurmNodeStatus) : Int :=
  status.Allocated + status.Down + status.Error + status.Future + status.Idle + status.Mixed
    + status.Unknown

/-- The node carries one of the seven base states. -/
def hasBaseState (node : V0044Node) : Bool :=
  setHasAny node.GetStateAsSet
    [V0044NodeState.ALLOCATED, V0044NodeState.DOWN, V0044NodeState.ERROR, V0044NodeState.FUTURE,
      V0044NodeState.IDLE, V0044NodeState.MIXED, V0044NodeState.UNKNOWN]

/-- The node has a matching pod and carries the state. -/
def countsFor (deps : SlurmDeps) (pods : List Pod) (state : V0044NodeState)
    (node : V0044Node) : Bool :=
  hasMatchingPod deps pods node && setHas node.GetStateAsSet state

/-- The statement `m[name] = append(m[name], cond)` run for each condition of
a list, in order. -/
def appendAll (m : List (String × List PodCondition)) (name : String)
    (conds : List PodCondition) : List (String × List PodCondition) :=
  conds.foldl (fun states cond => statesAppend states name cond) m

/-- The condition the `switch` over the base states of `CalculateNodeStatus`
appends for a node. -/
def baseConditions (node : V0044Node) : List PodCondition :=
  let states := node.GetStateAsSet
  if setHas states V0044NodeState.ALLOCATED then [nodeState node PodConditionAllocated]
  else if setHas states V0044NodeState.DOWN then [nodeState node PodConditionDown]
  else if setHas states V0044NodeState.ERROR then [nodeState node PodConditionError]
  else if setHas states V0044NodeState.FUTURE then [nodeState node PodConditionFuture]
  else if setHas states V0044NodeState.IDLE then [nodeState node PodConditionIdle]
  else if setHas states V0044NodeState.MIXED then [nodeState node PodConditionMixed]
  else if setHas states V0044NodeState.UNKNOWN then [nodeState node PodConditionUnknown]
  else []

/-- The conditions the `if` statements over the flag states of
`CalculateNodeStatus` append for a node, in order. -/
def flagConditions (node : V0044Node) : List PodCondition :=
  let states := node.GetStateAsSet
  (if setHas states V0044NodeState.COMPLETING then [nodeState node PodConditionCompleting] else [])
    ++ (if setHas states V0044NodeState.DRAIN then [nodeState node PodConditionDrain] else [])
    ++ (if setHas states V0044NodeState.FAIL then [nodeState node PodConditionFail] else [])
    ++ (if setHas states V0044NodeState.INVALID then [nodeState node PodConditionInvalid] else [])
    ++ (if setHas states V0044NodeState.INVALIDREG then [nodeState node PodConditionInvalidReg]
        else [])
    ++ (if setHas states V0044NodeState.MAINTENANCE then [nodeState node PodConditionMaintenance]
        else [])
    ++ (if setHas states V0044NodeState.NOTRESPONDING then
          [nodeState node PodConditionNotResponding]
        else [])
    ++ (if setHas states V0044NodeState.UNDRAIN then [nodeState node PodConditionUndrain] else [])

/-- The status `CalculateNodeStatus` computes for the pod `podA` over the listed
nodes `drainedWorkerA` and `lostWorkerX`. -/
def drainedAndLostStatus : SlurmNodeStatus :=
  { Total := 1, Idle := 1, Drain := 1,
    NodeStates := [("worker-a",
      [{ CondType := "SlurmNodeStateIdle", Status := "True",
         Message := "slurm-operator: maintenance" },
       { CondType := "SlurmNodeStateDrain", Status := "True",
         Message := "slurm-operator: maintenance" }])] }

/-! ## Vocabulary of the `GetNodeDeadlines` properties -/

/-- The job is running, its allocation expands to a list of node names that
holds the node name of a pod of the list, and `key` is one of the names of
the allocation. -/
def pushesFor (deps : SlurmDeps) (pods : List Pod) (job : V0044JobInfo) (key : String) : Prop :=
  V0044JobInfoJobState.RUNNING ∈ job.GetStateAsSet
    ∧ ∃ names, deps.Expand (job.Nodes.getD "") = .ok names
        ∧ (∃ name ∈ names, ∃ pod ∈ pods, deps.GetNodeName pod = name)
        ∧ key ∈ names

/-- The calls of `Push` that `GetNodeDeadlines` makes for a job, in order. -/
def jobPushes (deps : SlurmDeps) (slurmNodeNamesSet : List String) (job : V0044JobInfo) :
    List (String × Int) :=
  if job.GetStateAsSet.contains V0044JobInfoJobState.RUNNING then
    match deps.Expand (job.Nodes.getD "") with
    | .ok slurmNodeNames =>
      if slurmNodeNames.any (fun name => slurmNodeNamesSet.contains name) then
        slurmNodeNames.map (fun name => (name, jobDeadline job))
      else []
    | .error _ => []
  else []

/-! ## Example of a `GetNodeDeadlines` call -/

/-- The host names of a comma-separated list; `cur` holds the characters of
the current name in reverse. -/
def splitComma : List Char → List Char → List String
  | [], cur => [String.mk cur.reverse]
  | c :: cs, cur =>
    if c = ',' then String.mk cur.reverse :: splitComma cs []
    else splitComma cs (c :: cur)

/-- The helpers of `refSlurmDeps` with host lists that are comma-separated
host names. -/
def commaSlurmDeps : SlurmDeps :=
  { refSlurmDeps with
    Expand := fun hosts => if hosts = "" then .ok [] else .ok (splitComma hosts.data []) }

/-- The recording remote with a fixed list of jobs. -/
def jobsClient (jobs : List V0044JobInfo) : Client (List V0044Node) :=
  { recordingClient with ListJobs := fun _ => .ok jobs }

/-- A control whose client map holds `jobsClient jobs` for every controller. -/
def jobsControl (jobs : List V0044JobInfo) : realSlurmControl (List V0044Node) :=
  ⟨fun _ => some (jobsClient jobs)⟩

/-- A running job on `worker-a` and `worker-b`, started at second 1000 with a
limit of 60 minutes. -/
def runningJob : V0044JobInfo :=
  { JobId := some 7, JobState := some [V0044JobInfoJobState.RUNNING],
    Nodes := some "worker-a,worker-b",
    StartTime := some { Number := some 1000, Set := some true },
    TimeLimit := some { Number := some 60, Set := some true } }

/-- A store agrees with a list of pushes: every entry carries a pushed value
that is the greatest pushed for its key, and every pushed key has an entry. -/
def TimeStore.Agrees (ts : TimeStore) (pushes : List (String × Int)) : Prop :=
  (∀ key t, (key, t) ∈ ts →
      (key, t) ∈ pushes ∧ ∀ t1, (key, t1) ∈ pushes → t1 ≤ t)
    ∧ (∀ key t1, (key, t1) ∈ pushes → ∃ t, (key, t) ∈ ts)

/-! ## Vocabulary of the template generation properties -/

/-- The helpers of `st` with `IsPodUpdated` asked with a `nil` generation
whatever generation it is given. -/
def StatusDeps.withNilGeneration (st : StatusDeps) : StatusDeps :=
  { st with IsPodUpdated := fun pod hash _ => st.IsPodUpdated pod hash none }

/-- The NodeSet `oneReplica` with a template generation that is not a
number. -/
def malformedGeneration : NodeSet :=
  { oneReplica with Annotations := [(DeprecatedTemplateGeneration, "seven")] }

/-- The status computed for `malformedGeneration` over `node-a` holding the
pod `podA`. -/
def malformedGenerationStatus : NodeSetStatus :=
  { DesiredNumberScheduled := 1, CurrentNumberScheduled := 1, NumberReady := 1,
    NumberAvailable := 1, NumberUnavailable := 0, NodeSetHash := "new",
    CollisionCount := some 0, Selector := "app.kubernetes.io/name=slurmd" }

/-! ## The event handler of the NodeSet controller

The file `internal/controller/nodeset/eventhandler/eventhandler_controller.go`
and the method `GetNodeSetsForController` of
`internal/utils/refresolver/refresolver.go`. They use version `v1beta1` of the
NodeSet API, whose NodeSet has the fields read here; it is the type `NodeSet`
above. -/

/-- The part of `slinkyv1beta1.Controller` the handler reads. -/
structure Controller where
  Namespace : String := ""
  Name : String := ""
deriving DecidableEq, Repr

/-- A value of the interface `client.Object`: a Controller, a NodeSet, or an
object of another type (also the `nil` interface). -/
inductive ClientObject where
  | controller (c : Controller)
  | nodeSet (n : NodeSet)
  | other
deriving DecidableEq, Repr

/-- The types `event.CreateEvent`, `event.UpdateEvent`, `event.DeleteEvent`
and `event.GenericEvent`. -/
structure CreateEvent where
  Object : ClientObject

structure UpdateEvent where
  ObjectOld : ClientObject
  ObjectNew : ClientObject

structure DeleteEvent where
  Object : ClientObject

structure GenericEvent where
  Object : ClientObject

/-- Functions of the repository called by the handler whose source is not
part of the development: the method `IsMatch` of `ObjectReference` and
`objectutils.NamespacedName`. -/
structure EventDeps where
  IsMatch : ObjectReference → NamespacedName → Bool
  NamespacedName : Controller → NamespacedName

/-- The interface `client.Reader`: `ListNodeSets` is the method `List` on a
NodeSet list. -/
structure Reader where
  ListNodeSets : Except GoError (List NodeSet)

/-- The work queue, represented by the objects handed to
`objectutils.EnqueueRequest`, in order; each call adds the reconcile request of
its object. -/
abbrev RequestQueue := List NodeSet

/-- The type `refresolver.RefResolver`. -/
structure RefResolver where
  reader : Reader

/-- The function `refresolver.New`. -/
def RefResolver.New (reader : Reader) : RefResolver := ⟨reader⟩

/-- The loop of `GetNodeSetsForController` over the listed items; `out` is
`out.Items`. -/
def nodeSetsForControllerLoop (ed : EventDeps) (controller : Controller) :
    List NodeSet → List NodeSet → List NodeSet
  | [], out => out
  | item :: items, out =>
    if ed.IsMatch item.Spec.ControllerRef (ed.NamespacedName controller) then
      nodeSetsForControllerLoop ed controller items (out ++ [item])
    else
      nodeSetsForControllerLoop ed controller items out

/-- The method `GetNodeSetsForController`. -/
def RefResolver.GetNodeSetsForController (r : RefResolver) (ed : EventDeps)
    (controller : Controller) : Except GoError (List NodeSet) :=
  match r.reader.ListNodeSets with
  | .error err => .error err
  | .ok items => .ok (nodeSetsForControllerLoop ed controller items [])

/-- The type `ControllerEventHandler`. -/
structure ControllerEventHandler where
  Reader : Reader
  refResolver : RefResolver

/-- The function `NewControllerEventHandler`. -/
def NewControllerEventHandler (reader : Reader) : ControllerEventHandler :=
  { Reader := reader, refResolver := RefResolver.New reader }

/-- The loop of `enqueueRequest` over `list.Items`. -/
def enqueueLoop : List NodeSet → RequestQueue → RequestQueue
  | [], q => q
  | item :: items, q => enqueueLoop items (q ++ [item])

/-- The method `enqueueRequest`: the queue it leaves. -/
def ControllerEventHandler.enqueueRequest (e : ControllerEventHandler) (ed : EventDeps)
    (obj : ClientObject) (q : RequestQueue) : RequestQueue :=
  match obj with
  | .controller controller =>
    match e.refResolver.GetNodeSetsForController ed controller with
    | .error _ => q
    | .ok list => enqueueLoop list q
  | _ => q

/-- The method `Create`. -/
def ControllerEventHandler.Create (e : ControllerEventHandler) (ed : EventDeps)
    (evt : CreateEvent) (q : RequestQueue) : RequestQueue :=
  e.enqueueRequest ed evt.Object q

/-- The method `Update`. -/
def ControllerEventHandler.Update (e : ControllerEventHandler) (ed : EventDeps)
    (evt : UpdateEvent) (q : RequestQueue) : RequestQueue :=
  e.enqueueRequest ed evt.ObjectNew q

/-- The method `Delete`. -/
def ControllerEventHandler.Delete (e : ControllerEventHandler) (ed : EventDeps)
    (evt : DeleteEvent) (q : RequestQueue) : RequestQueue :=
  e.enqueueRequest ed evt.Object q

/-- The method `Generic`, whose body is blank. -/
def ControllerEventHandler.Generic (_e : ControllerEventHandler) (_ed : EventDeps)
    (_evt : GenericEvent) (q : RequestQueue) : RequestQueue :=
  q

/-- The NodeSet references the Controller. -/
def referencesController (ed : EventDeps) (controller : Controller) (item : NodeSet) : Bool :=
  ed.IsMatch item.Spec.ControllerRef (ed.NamespacedName controller)

/-! ## Example of Controller events

The objects of `Test_ControllerEventHandler_Create`. -/

/-- Reference helpers of the handler: a reference matches a key of the same
namespace and name. -/
def refEventDeps : EventDeps where
  IsMatch := fun ref key => ref.Namespace == key.Namespace && ref.Name == key.Name
  NamespacedName := fun controller => { Namespace := controller.Namespace, Name := controller.Name }

/-- The function `testutils.NewController`, for the fields read here. -/
def NewController (name : String) : Controller := { Namespace := "default", Name := name }

/-- The function `testutils.NewNodeset`, for the fields read here. -/
def NewNodeset (name : String) (controller : Controller) (replicas : Int) : NodeSet :=
  { Namespace := "default", Name := name,
    Spec := { ControllerRef := { Namespace := controller.Namespace, Name := controller.Name },
              Replicas := some replicas } }

def controller1 : Controller := NewController "slurm1"
def controller2 : Controller := NewController "slurm2"
def nodesetA : NodeSet := NewNodeset "slurmA" controller1 2
def nodesetB : NodeSet := NewNodeset "slurmB" controller1 2
def nodeset2A : NodeSet := NewNodeset "slurm2A" controller2 2

/-! ## Vocabulary of the delete list -/

/-- The optional-replace pod an entry holds: the old pod of a node without an
up-to-date pod, when it is available and not marked for deletion. -/
def optionalReplacePodOf (d : Deps) (nodeset : NodeSet) (hash : String) (now : Time)
    (e : Node × List Pod) : Option Pod :=
  match d.findUpdatedPodsOnNode nodeset e.2 hash with
  | (none, some oldPod, true) => if mustReplace d nodeset now oldPod then none else some oldPod
  | _ => none

/-- The number of must-replace pods of the entries. -/
def mustReplaceCount (d : Deps) (nodeset : NodeSet) (hash : String) (now : Time)
    (entries : List (Node × List Pod)) : Nat :=
  (entries.filterMap (mustReplacePodOf d nodeset hash now)).length

/-- The number of optional-replace pods of the entries. -/
def optionalReplaceCount (d : Deps) (nodeset : NodeSet) (hash : String) (now : Time)
    (entries : List (Node × List Pod)) : Nat :=
  (entries.filterMap (optionalReplacePodOf d nodeset hash now)).length

/-- The number of entries that count as unavailable: the nodes with excess
pods and the nodes whose up-to-date pod is unavailable. -/
def unavailableNodes (d : Deps) (nodeset : NodeSet) (hash : String) (now : Time)
    (entries : List (Node × List Pod)) : Nat :=
  entries.countP (hasExcessPods d nodeset hash)
    + entries.countP (newPodUnavailable d nodeset hash now)

/-- The length of the delete list in terms of the three counts. -/
def deleteCount (d : Deps) (nodeset : NodeSet) (hash : String) (now : Time)
    (maxUnavailable : Int) (entries : List (Node × List Pod)) : Int :=
  (mustReplaceCount d nodeset hash now entries : Int)
    + min (optionalReplaceCount d nodeset hash now entries : Int)
        (max 0 (maxUnavailable - (unavailableNodes d nodeset hash now entries : Int)))

/-- A listed Slurm node without a name. -/
def namelessNode : V0044Node := { Name := none, State := some [V0044NodeState.IDLE] }

/-! ## `pkg/conditions`

The file `pkg/conditions/conditions.go`, whose constants are above. -/

/-- The part of `corev1.PodStatus` read by the functions below; the status is
not `nil`. -/
structure PodStatus where
  Conditions : List PodCondition := []
deriving DecidableEq, Repr

/-- The function `podutil.GetPodCondition` of Kubernetes: the first condition
of the given type, `none` when there is none; the index it also returns is
not used. -/
def GetPodCondition (status : PodStatus) (condType : String) : Option PodCondition :=
  status.Conditions.find? (fun cond => cond.CondType == condType)

/-- The function `IsConditionTrue`. -/
def conditions.IsConditionTrue (status : PodStatus) (condType : String) : Bool :=
  match GetPodCondition status condType with
  | some cond => cond.Status == ConditionTrue
  | none => false

/-- The function `IsNodeBusy`. -/
def conditions.IsNodeBusy (status : PodStatus) : Bool :=
  let isBusy := conditions.IsConditionTrue status PodConditionAllocated
    || conditions.IsConditionTrue status PodConditionMixed
  isBusy || conditions.IsConditionTrue status PodConditionCompleting

/-- The function `IsNodeDrain` of the package `conditions`. -/
def conditions.IsNodeDrain (status : PodStatus) : Bool :=
  conditions.IsConditionTrue status PodConditionDrain
    && !conditions.IsConditionTrue status PodConditionUndrain

/-- The function `IsNodeDrained` of the package `conditions`. -/
def conditions.IsNodeDrained (status : PodStatus) : Bool :=
  conditions.IsNodeDrain status && !conditions.IsNodeBusy status

/-- The function `IsNodeDraining`. -/
def conditions.IsNodeDraining (status : PodStatus) : Bool :=
  conditions.IsNodeDrain status && conditions.IsNodeBusy status

/-! ## Vocabulary of the condition properties -/

/-- The seven base states. -/
def baseStates : List V0044NodeState :=
  [V0044NodeState.ALLOCATED, V0044NodeState.DOWN, V0044NodeState.ERROR, V0044NodeState.FUTURE,
    V0044NodeState.IDLE, V0044NodeState.MIXED, V0044NodeState.UNKNOWN]

/-- The state set of the node contains at most one base state. -/
def atMostOneBaseState (node : V0044Node) : Bool :=
  decide ((baseStates.filter (fun state => setHas node.GetStateAsSet state)).length ≤ 1)

/-- The read `m[name]` of `NodeStates`, `nil` when the key is absent. -/
def statesOf (m : List (String × List PodCondition)) (name : String) : List PodCondition :=
  match m.find? (fun entry => entry.1 == name) with
  | some entry => entry.2
  | none => []

/-- The pod status whose conditions are the ones `CalculateNodeStatus` records
under the name of the node. -/
def recordedStatus (status : SlurmNodeStatus) (node : V0044Node) : PodStatus :=
  { Conditions := statesOf status.NodeStates (node.Name.getD "") }

/-- The Slurm node of `podA`, allocated, with the identity of an earlier pod
`worker-old` on the same node `node-a`. -/
def workerARenamed : V0044Node :=
  { Name := some "worker-a", State := some [V0044NodeState.ALLOCATED],
    Comment := some "slurm/worker-old/node-a" }

/-! ## Vocabulary of the node selection -/

/-- The node of the entry holds a pod for `findUpdatedPodsOnNode`: an
up-to-date pod, an old pod, or an inconsistent set of pods (`ok = false`). -/
def holdsPod (d : Deps) (nodeset : NodeSet) (hash : String) (e : Node × List Pod) : Bool :=
  !(d.findUpdatedPodsOnNode nodeset e.2 hash).2.2
    || (d.findUpdatedPodsOnNode nodeset e.2 hash).1.isSome
    || (d.findUpdatedPodsOnNode nodeset e.2 hash).2.1.isSome

/-! ## Further examples of passes -/

/-- The node holds an up-to-date pod that is unavailable, with or without an
old pod next to it. -/
def upToDatePodUnavailable (d : Deps) (nodeset : NodeSet) (hash : String) (now : Time)
    (e : Node × List Pod) : Bool :=
  match d.findUpdatedPodsOnNode nodeset e.2 hash with
  | (some newPod, _, true) => !d.IsPodAvailable newPod nodeset.Spec.MinReadySeconds now
  | _ => false

/-- An up-to-date pod on `node-a` that is not ready. -/
def unreadyNewA : Pod :=
  { ptr := 31, Namespace := "slurm", Name := "worker-a-new", NodeName := "node-a",
    Hostname := "worker-a-new", Labels := [(controllerRevisionHashKey, "new")],
    ReadySince := none }

/-- Two nodes: `node-a` holds an available old pod and an up-to-date pod that
is not ready, `node-b` one available old pod. -/
def oldAndUnreadyNew : NodeToPods := [(nodeA, [podA, unreadyNewA]), (nodeB, [podB])]

/-- The pass over `oldAndUnreadyNew` with `maxUnavailable = 1`, visited in the
order `node-a`, `node-b`. -/
def oldAndUnreadyNewPass : RollingPass :=
  { maxUnavailable := 1, filtered := oldAndUnreadyNew,
    state := { numUnavailable := 0, allowedReplacementPods := [],
               candidatePodsToDelete := [podB] },
    oldPodsToDelete := [podB] }

/-- An up-to-date pod on `node-b` that has been ready since time 0. -/
def availableNewB : Pod :=
  { ptr := 32, Namespace := "slurm", Name := "worker-b", NodeName := "node-b",
    Hostname := "worker-b", Labels := [(controllerRevisionHashKey, "new")],
    ReadySince := some 0 }

/-- Two nodes: `node-a` holds an old pod that is not ready, `node-b` an
up-to-date pod that is available. -/
def brokenAndNew : NodeToPods := [(nodeA, [brokenA]), (nodeB, [availableNewB])]

/-- The visiting order in which the classification loop of
`filterNodeSetPodsNodeToUpdate` runs through the map backwards. -/
def MapIteration.classifyReversed : MapIteration := ⟨id, List.reverse, id⟩

/-- The pass over `brokenAndNew` with `maxUnavailable = 1` and `partition = 1`
when the classification loop visits `node-a` first. -/
def brokenAndNewPassA : RollingPass :=
  { maxUnavailable := 1, filtered := [(nodeA, [brokenA])],
    state := { numUnavailable := 0, allowedReplacementPods := [brokenA],
               candidatePodsToDelete := [] },
    oldPodsToDelete := [brokenA] }

/-- The pass over `brokenAndNew` with `maxUnavailable = 1` and `partition = 1`
when the classification loop visits `node-b` first. -/
def brokenAndNewPassB : RollingPass :=
  { maxUnavailable := 1, filtered := [(nodeB, [availableNewB])],
    state := { numUnavailable := 0, allowedReplacementPods := [],
               candidatePodsToDelete := [] },
    oldPodsToDelete := [] }

/-- A NodeSet whose `replicas` is the least 32-bit integer. -/
def minReplicas : NodeSet :=
  { Namespace := "slurm", Name := "workers", Spec := { Replicas := some (-2147483648) } }

/-- The status computed for `minReplicas` over two nodes that each hold an
available pod. -/
def minReplicasStatus : NodeSetStatus :=
  { DesiredNumberScheduled := -2147483648, CurrentNumberScheduled := 2, NumberReady := 2,
    NumberAvailable := 2, NumberUnavailable := 2147483646, NodeSetHash := "new",
    CollisionCount := some 0, Selector := "app.kubernetes.io/name=slurmd" }

/-! ## The main loop of `syncNodeSetRollingUpdate` -/

theorem rollingStep_numUnavailable (d : Deps) (nodeset : NodeSet) (hash : String) (now : Time)
    (maxUnavailable : Int) (st : RollingState) (e : Node × List Pod) :
    (rollingStep d nodeset hash now maxUnavailable st e).numUnavailable
      = st.numUnavailable + (if hasExcessPods d nodeset hash e then 1 else 0)
          + (if newPodUnavailable d nodeset hash now e then 1 else 0) := by
  unfold rollingStep hasExcessPods newPodUnavailable
  rcases hf : d.findUpdatedPodsOnNode nodeset e.2 hash with ⟨_ | np, _ | op, _ | _⟩ <;>
    simp <;> (repeat' split) <;> simp_all

theorem rollingStep_allowed (d : Deps) (nodeset : NodeSet) (hash : String) (now : Time)
    (maxUnavailable : Int) (st : RollingState) (e : Node × List Pod) :
    (rollingStep d nodeset hash now maxUnavailable st e).allowedReplacementPods
      = st.allowedReplacementPods ++ (mustReplacePodOf d nodeset hash now e).toList := by
  unfold rollingStep mustReplacePodOf mustReplace
  rcases hf : d.findUpdatedPodsOnNode nodeset e.2 hash with ⟨_ | np, _ | op, _ | _⟩ <;>
    simp <;> (repeat' split) <;> simp_all

theorem rollingStep_candidates (d : Deps) (nodeset : NodeSet) (hash : String) (now : Time)
    (maxUnavailable : Int) (st : RollingState) (e : Node × List Pod) :
    (rollingStep d nodeset hash now maxUnavailable st e).candidatePodsToDelete
        = st.candidatePodsToDelete
      ∨ ∃ p, onlyOldPod d nodeset hash e p ∧ optionalReplace d nodeset now p = true
          ∧ st.numUnavailable < maxUnavailable
          ∧ (rollingStep d nodeset hash now maxUnavailable st e).candidatePodsToDelete
              = st.candidatePodsToDelete ++ [p] := by
  unfold rollingStep onlyOldPod optionalReplace
  rcases hf : d.findUpdatedPodsOnNode nodeset e.2 hash with ⟨_ | np, _ | op, _ | _⟩ <;>
    simp <;> (repeat' split) <;> simp_all

theorem rollingFold_numUnavailable (d : Deps) (nodeset : NodeSet) (hash : String) (now : Time)
    (maxUnavailable : Int) (entries : List (Node × List Pod)) (st : RollingState) :
    (entries.foldl (rollingStep d nodeset hash now maxUnavailable) st).numUnavailable
      = st.numUnavailable + (entries.countP (hasExcessPods d nodeset hash) : Int)
          + (entries.countP (newPodUnavailable d nodeset hash now) : Int) := by
  induction entries generalizing st with
  | nil => simp
  | cons e es ih =>
    rw [List.foldl_cons, ih, rollingStep_numUnavailable, List.countP_cons, List.countP_cons]
    split_ifs <;> push_cast <;> omega

theorem rollingFold_allowed (d : Deps) (nodeset : NodeSet) (hash : String) (now : Time)
    (maxUnavailable : Int) (entries : List (Node × List Pod)) (st : RollingState) :
    (entries.foldl (rollingStep d nodeset hash now maxUnavailable) st).allowedReplacementPods
      = st.allowedReplacementPods ++ entries.filterMap (mustReplacePodOf d nodeset hash now) := by
  induction entries generalizing st with
  | nil => simp
  | cons e es ih =>
    rw [List.foldl_cons, ih, rollingStep_allowed, List.filterMap_cons]
    cases mustReplacePodOf d nodeset hash now e <;> simp

theorem rollingFold_candidates (d : Deps) (nodeset : NodeSet) (hash : String) (now : Time)
    (maxUnavailable : Int) (entries : List (Node × List Pod)) (st : RollingState)
    (p : Pod)
    (hp : p ∈ (entries.foldl (rollingStep d nodeset hash now maxUnavailable) st).candidatePodsToDelete) :
    p ∈ st.candidatePodsToDelete
      ∨ (optionalReplace d nodeset now p = true ∧ ∃ e ∈ entries, onlyOldPod d nodeset hash e p) := by
  induction entries generalizing st with
  | nil => left; simpa using hp
  | cons e es ih =>
    rw [List.foldl_cons] at hp
    rcases ih _ hp with h | ⟨ho, e1, he1, hold⟩
    · rcases rollingStep_candidates d nodeset hash now maxUnavailable st e with heq | ⟨q, hq, hopt, _, heq⟩
      · left; rwa [heq] at h
      · rw [heq, List.mem_append, List.mem_singleton] at h
        rcases h with h | h
        · left; exact h
        · right; subst h; exact ⟨hopt, e, List.mem_cons_self _ _, hq⟩
    · right; exact ⟨ho, e1, List.mem_cons_of_mem _ he1, hold⟩

theorem mustReplacePodOf_eq_some (d : Deps) (nodeset : NodeSet) (hash : String) (now : Time)
    (e : Node × List Pod) (p : Pod) :
    mustReplacePodOf d nodeset hash now e = some p
      ↔ onlyOldPod d nodeset hash e p ∧ mustReplace d nodeset now p = true := by
  unfold mustReplacePodOf onlyOldPod
  rcases hf : d.findUpdatedPodsOnNode nodeset e.2 hash with ⟨_ | np, _ | op, _ | _⟩ <;> simp
  constructor
  · rintro ⟨h1, h2⟩; subst h2; exact ⟨rfl, h1⟩
  · rintro ⟨h1, h2⟩; subst h1; exact ⟨h2, rfl⟩

theorem optionalReplace_eq_not_mustReplace (d : Deps) (nodeset : NodeSet) (now : Time) (p : Pod) :
    optionalReplace d nodeset now p = !mustReplace d nodeset now p := by
  unfold optionalReplace mustReplace
  cases d.IsPodAvailable p nodeset.Spec.MinReadySeconds now <;> cases d.isNodeSetPodDelete p <;> rfl

/-- The optional-replace pods of the delete list are the accepted candidates. -/
theorem oldPodsToDelete_filter_optional (d : Deps) (nodeset : NodeSet) (hash : String)
    (now : Time) (maxUnavailable : Int) (entries : List (Node × List Pod)) :
    (oldPodsToDelete maxUnavailable (rollingLoop d nodeset hash now maxUnavailable entries)).filter
        (optionalReplace d nodeset now)
      = (rollingLoop d nodeset hash now maxUnavailable entries).candidatePodsToDelete.take
          (remainingUnavailable maxUnavailable
            (rollingLoop d nodeset hash now maxUnavailable entries)) := by
  unfold oldPodsToDelete
  rw [List.filter_append]
  have h1 : (rollingLoop d nodeset hash now maxUnavailable entries).allowedReplacementPods.filter
      (optionalReplace d nodeset now) = [] := by
    rw [List.filter_eq_nil_iff]
    intro p hp
    unfold rollingLoop at hp
    rw [rollingFold_allowed] at hp
    simp only [List.nil_append, List.mem_filterMap] at hp
    obtain ⟨e, _, he⟩ := hp
    rw [mustReplacePodOf_eq_some] at he
    rw [optionalReplace_eq_not_mustReplace, he.2]; simp
  have h2 : ((rollingLoop d nodeset hash now maxUnavailable entries).candidatePodsToDelete.take
      (remainingUnavailable maxUnavailable
        (rollingLoop d nodeset hash now maxUnavailable entries))).filter
      (optionalReplace d nodeset now)
      = (rollingLoop d nodeset hash now maxUnavailable entries).candidatePodsToDelete.take
        (remainingUnavailable maxUnavailable
          (rollingLoop d nodeset hash now maxUnavailable entries)) := by
    rw [List.filter_eq_self]
    intro p hp
    have hp1 := List.mem_of_mem_take hp
    unfold rollingLoop at hp1
    rcases rollingFold_candidates d nodeset hash now maxUnavailable entries _ p hp1 with h | h
    · simp at h
    · exact h.1
  rw [h1, h2, List.nil_append]

theorem remainingUnavailable_le (maxUnavailable : Int) (st : RollingState) :
    (remainingUnavailable maxUnavailable st : Int) ≤ max 0 (maxUnavailable - st.numUnavailable)
      ∧ remainingUnavailable maxUnavailable st ≤ st.candidatePodsToDelete.length := by
  unfold remainingUnavailable
  simp only
  split_ifs <;> omega

/-! ## Properties of `updatedDesiredNodeCounts` -/

/-- C3: whenever `unavailableCount` succeeds with the resolved value `r`,
`updatedDesiredNodeCounts` succeeds and returns `desiredNumberScheduled`
together with a `maxUnavailable` that is not 0 when `desiredNumberScheduled`
is positive: a resolved 0 becomes 1 then, and a non-zero `r` is returned
unchanged. -/
theorem updatedDesiredNodeCounts_maxUnavailable (d : Deps) (nodeset : NodeSet)
    (nodes : List Node) (m : NodeToPods) (r : Int)
    (hcount : d.unavailableCount nodeset (desiredNumberScheduled d nodeset nodes m) = .ok r) :
    ∃ maxUnavailable,
      (updatedDesiredNodeCounts d nodeset nodes m).1
        = .ok (maxUnavailable, desiredNumberScheduled d nodeset nodes m)
      ∧ (desiredNumberScheduled d nodeset nodes m > 0 → maxUnavailable ≠ 0)
      ∧ (r = 0 → desiredNumberScheduled d nodeset nodes m > 0 → maxUnavailable = 1)
      ∧ (r ≠ 0 → maxUnavailable = r) := by
  unfold updatedDesiredNodeCounts
  simp only [hcount]
  by_cases hz : desiredNumberScheduled d nodeset nodes m > 0 ∧ r = 0
  · refine ⟨1, ?_, ?_, ?_, ?_⟩
    · simp [hz]
    · intro _; decide
    · intro _ _; rfl
    · intro hr; exact absurd hz.2 hr
  · refine ⟨r, ?_, ?_, ?_, ?_⟩
    · simp [hz]
    · intro hpos hr; exact hz ⟨hpos, hr⟩
    · intro hr hpos; exact absurd ⟨hpos, hr⟩ hz
    · intro _; rfl

/-! ## Properties of `syncNodeSetRollingUpdate` -/

theorem MapIteration.inOrder_valid : MapIteration.inOrder.Valid := by
  intro m
  exact ⟨List.Perm.refl _, List.Perm.refl _, List.Perm.refl _⟩

/-- A successful pass is the main loop run over the filtered map in the
visiting order, with the delete list built from its final state. -/
theorem syncNodeSetRollingUpdate_ok (d : Deps) (it : MapIteration) (nodeset : NodeSet)
    (nodes : List Node) (m : NodeToPods) (hash : String) (now : Time) (pass : RollingPass)
    (h : syncNodeSetRollingUpdate d it nodeset nodes m hash now = .ok pass) :
    pass.state = rollingLoop d nodeset hash now pass.maxUnavailable (it.pass pass.filtered)
      ∧ pass.oldPodsToDelete = oldPodsToDelete pass.maxUnavailable pass.state
      ∧ (∃ desired, (updatedDesiredNodeCounts d nodeset nodes m).1
            = .ok (pass.maxUnavailable, desired))
      ∧ filterNodeSetPodsToUpdate d it nodeset nodes hash
            (updatedDesiredNodeCounts d nodeset nodes m).2 = .ok pass.filtered := by
  unfold syncNodeSetRollingUpdate at h
  rcases hu : updatedDesiredNodeCounts d nodeset nodes m with ⟨_ | ⟨maxU, desired⟩, m1⟩
  · simp [hu] at h
  · rw [hu] at h
    simp only at h
    rcases hf : filterNodeSetPodsToUpdate d it nodeset nodes hash m1 with _ | filtered
    · simp [hf] at h
    · rw [hf] at h
      simp only [Except.ok.injEq] at h
      subst h
      exact ⟨rfl, rfl, ⟨desired, rfl⟩, rfl⟩

/-- C1, as stated, fails: with `maxUnavailable = 1`, `node-a` holding an
available old pod next to an up-to-date pod that is not ready, and `node-b`
holding an available old pod, one filtered node has an up-to-date pod that is
unavailable and none has excess pods, so that the stated bound is
`max(0, 1 - 1) = 0`, and the delete list holds the optional-replace pod of
`node-b`. -/
theorem optional_exceeds_stated_budget :
    syncNodeSetRollingUpdate refDeps MapIteration.inOrder (nodeSetWith none 1 none)
        [nodeA, nodeB] oldAndUnreadyNew "new" 100 = .ok oldAndUnreadyNewPass
      ∧ oldAndUnreadyNewPass.filtered.countP
          (hasExcessPods refDeps (nodeSetWith none 1 none) "new") = 0
      ∧ oldAndUnreadyNewPass.filtered.countP
          (upToDatePodUnavailable refDeps (nodeSetWith none 1 none) "new" 100) = 1
      ∧ oldAndUnreadyNewPass.oldPodsToDelete.countP
          (optionalReplace refDeps (nodeSetWith none 1 none) 100) = 1
      ∧ ¬ (((oldAndUnreadyNewPass.oldPodsToDelete.countP
              (optionalReplace refDeps (nodeSetWith none 1 none) 100) : Nat) : Int)
            ≤ max 0 (oldAndUnreadyNewPass.maxUnavailable
                - ((oldAndUnreadyNewPass.filtered.countP
                      (hasExcessPods refDeps (nodeSetWith none 1 none) "new") : Nat) : Int)
                - ((oldAndUnreadyNewPass.filtered.countP
                      (upToDatePodUnavailable refDeps (nodeSetWith none 1 none) "new" 100)
                      : Nat) : Int))) := by
  refine ⟨by rfl, by decide, by decide, by decide, by decide⟩

/-- C1, amended: in every pass of `syncNodeSetRollingUpdate` that reaches
`syncNodeSetPods`, the number of optional-replace pods (available and not
marked for deletion) in the delete list is at most
`max(0, maxUnavailable - numUnavailable)`, where `numUnavailable` is the
number of filtered nodes with excess pods plus the number of filtered nodes
whose only live pod is an up-to-date pod that is unavailable (a node that
holds an old pod next to its up-to-date pod is not counted); when
`maxUnavailable - numUnavailable` is negative the delete list holds no
optional-replace pod. -/
theorem syncNodeSetRollingUpdate_optional_le (d : Deps) (it : MapIteration) (nodeset : NodeSet)
    (nodes : List Node) (m : NodeToPods) (hash : String) (now : Time) (pass : RollingPass)
    (hv : it.Valid)
    (h : syncNodeSetRollingUpdate d it nodeset nodes m hash now = .ok pass) :
    ((pass.oldPodsToDelete.countP (optionalReplace d nodeset now) : Nat) : Int)
        ≤ max 0 (pass.maxUnavailable - pass.state.numUnavailable)
      ∧ pass.state.numUnavailable
          = (pass.filtered.countP (hasExcessPods d nodeset hash) : Int)
            + (pass.filtered.countP (newPodUnavailable d nodeset hash now) : Int)
      ∧ (pass.maxUnavailable - pass.state.numUnavailable < 0 →
          ∀ p ∈ pass.oldPodsToDelete, optionalReplace d nodeset now p = false) := by
  obtain ⟨hst, hdel, _, _⟩ := syncNodeSetRollingUpdate_ok d it nodeset nodes m hash now pass h
  have hperm := (hv pass.filtered).2.2
  have hfilter := oldPodsToDelete_filter_optional d nodeset hash now pass.maxUnavailable
    (it.pass pass.filtered)
  rw [← hst, ← hdel] at hfilter
  have hrem := remainingUnavailable_le pass.maxUnavailable pass.state
  have hcount : pass.oldPodsToDelete.countP (optionalReplace d nodeset now)
      = remainingUnavailable pass.maxUnavailable pass.state := by
    rw [List.countP_eq_length_filter, hfilter, List.length_take]
    exact Nat.min_eq_left hrem.2
  refine ⟨?_, ?_, ?_⟩
  · rw [hcount]; exact hrem.1
  · rw [hst]
    unfold rollingLoop
    rw [rollingFold_numUnavailable, hperm.countP_eq, hperm.countP_eq]
    simp
  · intro hneg p hp
    have hzero : remainingUnavailable pass.maxUnavailable pass.state = 0 := by
      have := hrem.1
      omega
    rw [hzero] at hcount
    rw [List.countP_eq_zero] at hcount
    simpa using hcount p hp

/-- Witness of the amended C1 on the example cluster with `maxUnavailable = 1`. -/
theorem syncNodeSetRollingUpdate_optional_le_witness :
    syncNodeSetRollingUpdate refDeps MapIteration.inOrder (nodeSetWith (some 4) 1 none)
        fourNodes fourStale "new" 100 = .ok fourStalePass
      ∧ ((fourStalePass.oldPodsToDelete.countP
            (optionalReplace refDeps (nodeSetWith (some 4) 1 none) 100) : Nat) : Int)
          ≤ max 0 (fourStalePass.maxUnavailable - fourStalePass.state.numUnavailable) :=
  ⟨by rfl, (syncNodeSetRollingUpdate_optional_le refDeps MapIteration.inOrder
      (nodeSetWith (some 4) 1 none) fourNodes fourStale "new" 100 fourStalePass
      MapIteration.inOrder_valid (by rfl)).1⟩

/-- C2: in every pass of `syncNodeSetRollingUpdate` that reaches
`syncNodeSetPods`, every old pod of a filtered node that has no up-to-date pod
and whose old pod is not available or is marked for deletion is in the delete
list, whatever `maxUnavailable` and `numUnavailable` are. -/
theorem syncNodeSetRollingUpdate_mustReplace_mem (d : Deps) (it : MapIteration)
    (nodeset : NodeSet) (nodes : List Node) (m : NodeToPods) (hash : String) (now : Time)
    (pass : RollingPass) (hv : it.Valid)
    (h : syncNodeSetRollingUpdate d it nodeset nodes m hash now = .ok pass)
    (e : Node × List Pod) (p : Pod) (he : e ∈ pass.filtered)
    (hold : onlyOldPod d nodeset hash e p)
    (hmust : d.IsPodAvailable p nodeset.Spec.MinReadySeconds now = false
      ∨ d.isNodeSetPodDelete p = true) :
    p ∈ pass.oldPodsToDelete := by
  obtain ⟨hst, hdel, _, _⟩ := syncNodeSetRollingUpdate_ok d it nodeset nodes m hash now pass h
  have hperm := (hv pass.filtered).2.2
  rw [hdel, hst]
  unfold oldPodsToDelete rollingLoop
  rw [rollingFold_allowed]
  apply List.mem_append_left
  simp only [List.nil_append, List.mem_filterMap]
  refine ⟨e, hperm.mem_iff.mpr he, ?_⟩
  rw [mustReplacePodOf_eq_some]
  refine ⟨hold, ?_⟩
  unfold mustReplace
  rcases hmust with h1 | h1 <;> simp [h1]

/-- Witness of C2: the unready old pod of `node-a` is in the delete list. -/
theorem syncNodeSetRollingUpdate_mustReplace_mem_witness :
    syncNodeSetRollingUpdate refDeps MapIteration.inOrder (nodeSetWith none 1 none)
        [nodeA, nodeB] brokenAndStale "new" 100 = .ok brokenAndStalePass
      ∧ brokenA ∈ brokenAndStalePass.oldPodsToDelete :=
  ⟨by rfl, syncNodeSetRollingUpdate_mustReplace_mem refDeps MapIteration.inOrder
      (nodeSetWith none 1 none) [nodeA, nodeB] brokenAndStale "new" 100 brokenAndStalePass
      MapIteration.inOrder_valid (by rfl) (nodeA, [brokenA]) brokenA
      (List.mem_cons_self _ _) (by unfold onlyOldPod; rfl) (Or.inl (by rfl))⟩

/-- Witness of C3 on the example cluster: a resolved `maxUnavailable` of 0
with four desired pods is returned as 1. -/
theorem updatedDesiredNodeCounts_maxUnavailable_witness :
    ∃ maxUnavailable,
      (updatedDesiredNodeCounts refDeps (nodeSetWith (some 4) 0 none) fourNodes fourStale).1
        = .ok (maxUnavailable,
            desiredNumberScheduled refDeps (nodeSetWith (some 4) 0 none) fourNodes fourStale)
      ∧ (desiredNumberScheduled refDeps (nodeSetWith (some 4) 0 none) fourNodes fourStale > 0 →
          maxUnavailable ≠ 0)
      ∧ (0 = (0 : Int) →
          desiredNumberScheduled refDeps (nodeSetWith (some 4) 0 none) fourNodes fourStale > 0 →
          maxUnavailable = 1)
      ∧ ((0 : Int) ≠ 0 → maxUnavailable = 0) :=
  updatedDesiredNodeCounts_maxUnavailable refDeps (nodeSetWith (some 4) 0 none) fourNodes
    fourStale 0 (by rfl)

/-! ## Partition and node order -/

/-- C4: with `partition = 1` and the two nodes `node-a` (weight 1) and
`node-b` (weight 2), each holding one available old pod, a `range` that visits
`node-b` first makes `filterNodeSetPodsNodeToUpdate` return `node-b`, which is
not among the first `n - p = 1` nodes of the list sorted by
`utils.NodeByWeight`: the sorted `allNodes` is used for its length only. -/
theorem filterNodeSetPodsNodeToUpdate_not_by_weight :
    filterNodeSetPodsNodeToUpdate refDeps MapIteration.inOrder (nodeSetWith none 1 (some 1))
        "new" twoStaleReversed = .ok [nodeB]
      ∧ NodeByWeight.sort (twoStaleReversed.map Prod.fst) = [nodeA, nodeB]
      ∧ nodeB ∉ (NodeByWeight.sort (twoStaleReversed.map Prod.fst)).take (2 - 1) := by
  refine ⟨by rfl, by rfl, ?_⟩
  have h : (NodeByWeight.sort (twoStaleReversed.map Prod.fst)).take (2 - 1) = [nodeA] := by rfl
  rw [h]
  decide

/-- C6: with `partition = 2` and the four nodes ranked `node-a` to `node-d` by
weight, each holding one available old pod, a `range` that visits the nodes in
that order makes `filterNodeSetPodsNodeToUpdate` return `node-a` and `node-b`,
not `node-c` and `node-d`, and with `maxUnavailable = 1` the pod of `node-a`
is in the delete list of `syncNodeSetRollingUpdate`. -/
theorem partition_two_selects_visited_first :
    NodeByWeight.sort (fourStale.map Prod.fst) = [nodeA, nodeB, nodeC, nodeD]
      ∧ filterNodeSetPodsNodeToUpdate refDeps MapIteration.inOrder
          (nodeSetWith (some 4) 1 (some 2)) "new" fourStale = .ok [nodeA, nodeB]
      ∧ syncNodeSetRollingUpdate refDeps MapIteration.inOrder (nodeSetWith (some 4) 1 (some 2))
          fourNodes fourStale "new" 100 = .ok partitionTwoPass
      ∧ podA ∈ partitionTwoPass.oldPodsToDelete
      ∧ podA ∈ mapGet fourStale nodeA := by
  refine ⟨by rfl, by rfl, by rfl, ?_, ?_⟩
  · exact List.mem_cons_self _ _
  · exact List.mem_cons_self _ _

/-! ## The availability budget -/

/-- C8, as stated, fails: with `maxUnavailable = 1`, an unready old pod on
`node-a` and an available old pod on `node-b`, one optional-replace pod is
selected, no up-to-date pod is unavailable, and the delete list holds two
pods, one more than `maxUnavailable`. It also fails with an available old pod
next to an unready up-to-date pod on `node-a` and an available old pod on
`node-b`: one optional-replace pod is selected, one up-to-date pod is
unavailable, and the delete list holds one pod, two in all. -/
theorem budget_ignores_mustReplace :
    syncNodeSetRollingUpdate refDeps MapIteration.inOrder (nodeSetWith none 1 none)
        [nodeA, nodeB] brokenAndStale "new" 100 = .ok brokenAndStalePass
      ∧ 1 ≤ brokenAndStalePass.oldPodsToDelete.countP
          (optionalReplace refDeps (nodeSetWith none 1 none) 100)
      ∧ ¬ (((brokenAndStalePass.filtered.countP
              (newPodUnavailable refDeps (nodeSetWith none 1 none) "new" 100) : Nat) : Int)
            + (brokenAndStalePass.oldPodsToDelete.length : Int)
          ≤ brokenAndStalePass.maxUnavailable)
      ∧ brokenAndStalePass.filtered.countP
          (upToDatePodUnavailable refDeps (nodeSetWith none 1 none) "new" 100) = 0
      ∧ syncNodeSetRollingUpdate refDeps MapIteration.inOrder (nodeSetWith none 1 none)
          [nodeA, nodeB] oldAndUnreadyNew "new" 100 = .ok oldAndUnreadyNewPass
      ∧ 1 ≤ oldAndUnreadyNewPass.oldPodsToDelete.countP
          (optionalReplace refDeps (nodeSetWith none 1 none) 100)
      ∧ ¬ (((oldAndUnreadyNewPass.filtered.countP
              (upToDatePodUnavailable refDeps (nodeSetWith none 1 none) "new" 100) : Nat) : Int)
            + (oldAndUnreadyNewPass.oldPodsToDelete.length : Int)
          ≤ oldAndUnreadyNewPass.maxUnavailable) := by
  refine ⟨by rfl, by decide, by decide, by decide, by rfl, by decide, by decide⟩

/-- C8, amended: whenever a pass of `syncNodeSetRollingUpdate` selects at
least one optional-replace pod, `numUnavailable` (filtered nodes with excess
pods plus filtered nodes whose only live pod is an up-to-date pod that is
unavailable) plus the number of optional-replace pods in the delete list does
not exceed `maxUnavailable`; must-replace pods do not count against the
budget, nor does an unavailable up-to-date pod that shares its node with an
old pod. -/
theorem syncNodeSetRollingUpdate_budget (d : Deps) (it : MapIteration) (nodeset : NodeSet)
    (nodes : List Node) (m : NodeToPods) (hash : String) (now : Time) (pass : RollingPass)
    (hv : it.Valid)
    (h : syncNodeSetRollingUpdate d it nodeset nodes m hash now = .ok pass)
    (hsel : 1 ≤ pass.oldPodsToDelete.countP (optionalReplace d nodeset now)) :
    (pass.filtered.countP (hasExcessPods d nodeset hash) : Int)
        + (pass.filtered.countP (newPodUnavailable d nodeset hash now) : Int)
        + (pass.oldPodsToDelete.countP (optionalReplace d nodeset now) : Int)
      ≤ pass.maxUnavailable := by
  obtain ⟨hst, hdel, _, _⟩ := syncNodeSetRollingUpdate_ok d it nodeset nodes m hash now pass h
  have hperm := (hv pass.filtered).2.2
  have hfilter := oldPodsToDelete_filter_optional d nodeset hash now pass.maxUnavailable
    (it.pass pass.filtered)
  rw [← hst, ← hdel] at hfilter
  have hrem := remainingUnavailable_le pass.maxUnavailable pass.state
  have hcount : pass.oldPodsToDelete.countP (optionalReplace d nodeset now)
      = remainingUnavailable pass.maxUnavailable pass.state := by
    rw [List.countP_eq_length_filter, hfilter, List.length_take]
    exact Nat.min_eq_left hrem.2
  have hnum : pass.state.numUnavailable
      = (pass.filtered.countP (hasExcessPods d nodeset hash) : Int)
        + (pass.filtered.countP (newPodUnavailable d nodeset hash now) : Int) := by
    rw [hst]
    unfold rollingLoop
    rw [rollingFold_numUnavailable, hperm.countP_eq, hperm.countP_eq]
    simp
  rw [hcount] at hsel ⊢
  rw [← hnum]
  have := hrem.1
  omega

/-- Witness of the amended C8 on the pass that selects one optional-replace
pod next to a must-replace pod. -/
theorem syncNodeSetRollingUpdate_budget_witness :
    1 ≤ brokenAndStalePass.oldPodsToDelete.countP
          (optionalReplace refDeps (nodeSetWith none 1 none) 100)
      ∧ (brokenAndStalePass.filtered.countP
            (hasExcessPods refDeps (nodeSetWith none 1 none) "new") : Int)
          + (brokenAndStalePass.filtered.countP
              (newPodUnavailable refDeps (nodeSetWith none 1 none) "new" 100) : Int)
          + (brokenAndStalePass.oldPodsToDelete.countP
              (optionalReplace refDeps (nodeSetWith none 1 none) 100) : Int)
        ≤ brokenAndStalePass.maxUnavailable :=
  ⟨by decide, syncNodeSetRollingUpdate_budget refDeps MapIteration.inOrder
      (nodeSetWith none 1 none) [nodeA, nodeB] brokenAndStale "new" 100 brokenAndStalePass
      MapIteration.inOrder_valid (by rfl) (by decide)⟩

/-! ## The filtered map -/

theorem mapSet_mem (m : NodeToPods) (node : Node) (pods : List Pod) (e : Node × List Pod)
    (he : e ∈ mapSet m node pods) : e ∈ m ∨ e = (node, pods) := by
  unfold mapSet at he
  split at he
  · rw [List.mem_map] at he
    obtain ⟨a, ha, hae⟩ := he
    split at hae
    · right; exact hae.symm
    · left; rw [← hae]; exact ha
  · rw [List.mem_append, List.mem_singleton] at he
    exact he

theorem mapGet_mem (m : NodeToPods) (node : Node) :
    (node, mapGet m node) ∈ m ∨ mapGet m node = [] := by
  unfold mapGet
  cases hfind : m.find? (fun e => decide (e.1 = node)) with
  | none => right; rfl
  | some e =>
    left
    have hmem := List.mem_of_find?_eq_some hfind
    have hkey := List.find?_some hfind
    simp only [decide_eq_true_eq] at hkey
    rw [← hkey]
    exact hmem

theorem desiredLoop_mem (d : Deps) (nodeset : NodeSet) (nodes : List Node) (c : Int)
    (m : NodeToPods) (e : Node × List Pod)
    (he : e ∈ (desiredLoop d nodeset nodes (c, m)).2) : e ∈ m ∨ e.2 = [] := by
  induction nodes generalizing c m with
  | nil => left; simpa [desiredLoop] using he
  | cons node rest ih =>
    unfold desiredLoop at he
    split at he
    · rcases ih _ _ he with h | h
      · split at h
        · left; exact h
        · rcases mapSet_mem _ _ _ _ h with h1 | h1
          · left; exact h1
          · right; rw [h1]
      · right; exact h
    · exact ih _ _ he

theorem updatedDesiredNodeCounts_snd (d : Deps) (nodeset : NodeSet) (nodes : List Node)
    (m : NodeToPods) :
    (updatedDesiredNodeCounts d nodeset nodes m).2 = (desiredLoop d nodeset nodes (0, m)).2 := by
  unfold updatedDesiredNodeCounts
  simp only
  split
  · rfl
  · split <;> rfl

theorem retFold_mem (m : NodeToPods) (names : List Node) (acc : NodeToPods)
    (e : Node × List Pod)
    (he : e ∈ names.foldl (fun ret name => mapSet ret name (mapGet m name)) acc) :
    e ∈ acc ∨ ∃ k ∈ names, e = (k, mapGet m k) := by
  induction names generalizing acc with
  | nil => left; simpa using he
  | cons k ks ih =>
    rw [List.foldl_cons] at he
    rcases ih _ he with h | ⟨k1, hk1, hk1e⟩
    · rcases mapSet_mem _ _ _ _ h with h1 | h1
      · left; exact h1
      · right; exact ⟨k, List.mem_cons_self _ _, h1⟩
    · right; exact ⟨k1, List.mem_cons_of_mem _ hk1, hk1e⟩

theorem filterNodeSetPodsToUpdate_mem (d : Deps) (it : MapIteration) (nodeset : NodeSet)
    (nodes : List Node) (hash : String) (m ret : NodeToPods)
    (h : filterNodeSetPodsToUpdate d it nodeset nodes hash m = .ok ret)
    (e : Node × List Pod) (he : e ∈ ret) : e ∈ m ∨ e.2 = [] := by
  unfold filterNodeSetPodsToUpdate at h
  simp only at h
  split at h
  · simp at h
  · simp only [Except.ok.injEq] at h
    rw [← h] at he
    rcases retFold_mem _ _ _ _ he with h1 | ⟨k, _, hk⟩
    · simp at h1
    · rcases mapGet_mem (m.filter (fun e => decide (e.1.Name ∈ nodes.map (fun node => node.Name)))) k
        with h2 | h2
      · left; rw [hk]; exact List.mem_of_mem_filter h2
      · right; rw [hk]; exact h2

/-- Every entry of the filtered map of a pass is an entry of the input map or
holds no pod. -/
theorem syncNodeSetRollingUpdate_filtered_mem (d : Deps) (it : MapIteration) (nodeset : NodeSet)
    (nodes : List Node) (m : NodeToPods) (hash : String) (now : Time) (pass : RollingPass)
    (h : syncNodeSetRollingUpdate d it nodeset nodes m hash now = .ok pass)
    (e : Node × List Pod) (he : e ∈ pass.filtered) : e ∈ m ∨ e.2 = [] := by
  obtain ⟨_, _, _, hf⟩ := syncNodeSetRollingUpdate_ok d it nodeset nodes m hash now pass h
  rcases filterNodeSetPodsToUpdate_mem d it nodeset nodes hash _ _ hf e he with h1 | h1
  · rw [updatedDesiredNodeCounts_snd] at h1
    exact desiredLoop_mem d nodeset nodes 0 m e h1
  · right; exact h1

/-- Every pod of the delete list is the old pod of a filtered node that holds
no up-to-date pod. -/
theorem oldPodsToDelete_onlyOld (d : Deps) (nodeset : NodeSet) (hash : String) (now : Time)
    (maxUnavailable : Int) (entries : List (Node × List Pod)) (p : Pod)
    (hp : p ∈ oldPodsToDelete maxUnavailable
      (rollingLoop d nodeset hash now maxUnavailable entries)) :
    ∃ e ∈ entries, onlyOldPod d nodeset hash e p := by
  unfold oldPodsToDelete at hp
  rw [List.mem_append] at hp
  rcases hp with hp | hp
  · unfold rollingLoop at hp
    rw [rollingFold_allowed] at hp
    simp only [List.nil_append, List.mem_filterMap] at hp
    obtain ⟨e, he, hsome⟩ := hp
    rw [mustReplacePodOf_eq_some] at hsome
    exact ⟨e, he, hsome.1⟩
  · have hp1 := List.mem_of_mem_take hp
    unfold rollingLoop at hp1
    rcases rollingFold_candidates d nodeset hash now maxUnavailable entries _ p hp1 with h | h
    · simp at h
    · exact h.2

/-- C7: in a pass of `syncNodeSetRollingUpdate`, over a map whose nodes hold
pairwise distinct pods and a `findUpdatedPodsOnNode` that returns as old pod a
pod of the node, a filtered node on which `findUpdatedPodsOnNode` reports
`ok = false`, or both an old and a new pod, or only an up-to-date pod, has
none of its pods in the delete list; and `numUnavailable` counts each
filtered node with excess pods exactly once, next to the nodes whose only pod
is up to date and unavailable. -/
theorem syncNodeSetRollingUpdate_skips_node (d : Deps) (it : MapIteration) (nodeset : NodeSet)
    (nodes : List Node) (m : NodeToPods) (hash : String) (now : Time) (pass : RollingPass)
    (hv : it.Valid)
    (hfind : ∀ pods p, (d.findUpdatedPodsOnNode nodeset pods hash).2.1 = some p → p ∈ pods)
    (hdisj : m.Pairwise (fun a b => ∀ p, p ∈ a.2 → p ∉ b.2))
    (h : syncNodeSetRollingUpdate d it nodeset nodes m hash now = .ok pass)
    (e : Node × List Pod) (he : e ∈ pass.filtered)
    (hcase : (d.findUpdatedPodsOnNode nodeset e.2 hash).2.2 = false
      ∨ ((d.findUpdatedPodsOnNode nodeset e.2 hash).1.isSome = true
          ∧ (d.findUpdatedPodsOnNode nodeset e.2 hash).2.1.isSome = true)
      ∨ ((d.findUpdatedPodsOnNode nodeset e.2 hash).1.isSome = true
          ∧ (d.findUpdatedPodsOnNode nodeset e.2 hash).2.1 = none)) :
    (∀ p ∈ e.2, p ∉ pass.oldPodsToDelete)
      ∧ pass.state.numUnavailable
          = (pass.filtered.countP (hasExcessPods d nodeset hash) : Int)
            + (pass.filtered.countP (newPodUnavailable d nodeset hash now) : Int) := by
  obtain ⟨hst, hdel, _, _⟩ := syncNodeSetRollingUpdate_ok d it nodeset nodes m hash now pass h
  have hperm := (hv pass.filtered).2.2
  refine ⟨?_, ?_⟩
  · intro p hpe hpd
    rw [hdel, hst] at hpd
    obtain ⟨e1, he1, hold⟩ := oldPodsToDelete_onlyOld d nodeset hash now _ _ p hpd
    have he1f : e1 ∈ pass.filtered := hperm.mem_iff.mp he1
    unfold onlyOldPod at hold
    have hp1 : p ∈ e1.2 := hfind e1.2 p (by rw [hold])
    have hne : e ≠ e1 := by
      intro heq
      rw [heq, hold] at hcase
      simp at hcase
    have hsymm : Symmetric (fun a b : Node × List Pod => ∀ p, p ∈ a.2 → p ∉ b.2) := by
      intro a b hab q hq hqa
      exact hab q hqa hq
    rcases syncNodeSetRollingUpdate_filtered_mem d it nodeset nodes m hash now pass h e he
      with hem | hem
    · rcases syncNodeSetRollingUpdate_filtered_mem d it nodeset nodes m hash now pass h e1 he1f
        with he1m | he1m
      · exact hdisj.forall hsymm hem he1m hne p hpe hp1
      · rw [he1m] at hp1; simp at hp1
    · rw [hem] at hpe; simp at hpe
  · rw [hst]
    unfold rollingLoop
    rw [rollingFold_numUnavailable, hperm.countP_eq, hperm.countP_eq]
    simp

theorem refFindUpdatedPodsOnNode_old_mem (hash : String) (pods : List Pod) (acc : UpdatedPods)
    (p : Pod) (h : (refFindUpdatedPodsOnNode hash pods acc).2.1 = some p) :
    p ∈ pods ∨ acc.2.1 = some p := by
  induction pods generalizing acc with
  | nil => right; simpa [refFindUpdatedPodsOnNode] using h
  | cons pod rest ih =>
    obtain ⟨newPod, oldPod, ok⟩ := acc
    unfold refFindUpdatedPodsOnNode at h
    split at h
    · rcases ih _ h with h1 | h1
      · left; exact List.mem_cons_of_mem _ h1
      · right; exact h1
    · split at h
      · split at h
        · simp at h
        · rcases ih _ h with h1 | h1
          · left; exact List.mem_cons_of_mem _ h1
          · right; exact h1
      · split at h
        · simp at h
        · rcases ih _ h with h1 | h1
          · left; exact List.mem_cons_of_mem _ h1
          · left
            simp only [Option.some.injEq] at h1
            rw [← h1]
            exact List.mem_cons_self _ _

/-- Witness of C7: `node-a` holds two old pods, and neither is in the delete
list. -/
theorem syncNodeSetRollingUpdate_skips_node_witness :
    syncNodeSetRollingUpdate refDeps MapIteration.inOrder (nodeSetWith none 2 none)
        [nodeA, nodeB] excessAndStale "new" 100 = .ok excessAndStalePass
      ∧ (∀ p ∈ [podA, podA2], p ∉ excessAndStalePass.oldPodsToDelete)
      ∧ excessAndStalePass.state.numUnavailable = 1 := by
  have h := syncNodeSetRollingUpdate_skips_node refDeps MapIteration.inOrder
    (nodeSetWith none 2 none) [nodeA, nodeB] excessAndStale "new" 100 excessAndStalePass
    MapIteration.inOrder_valid
    (fun pods p hp => by
      rcases refFindUpdatedPodsOnNode_old_mem "new" pods (none, none, true) p hp with h1 | h1
      · exact h1
      · simp at h1)
    (by decide) (by rfl) (nodeA, [podA, podA2]) (List.mem_cons_self _ _) (Or.inl (by rfl))
  exact ⟨by rfl, h.1, by rfl⟩

/-! ## One pass over nodes that all hold one available old pod -/

theorem desiredLoop_unchanged (d : Deps) (nodeset : NodeSet) (nodes : List Node) (c : Int)
    (m : NodeToPods)
    (hwant : ∀ node ∈ nodes, d.nodeShouldRunNodeSetPod node nodeset = true → mapHas m node = true) :
    (desiredLoop d nodeset nodes (c, m)).2 = m := by
  induction nodes generalizing c with
  | nil => rfl
  | cons node rest ih =>
    have hrest : ∀ n ∈ rest, d.nodeShouldRunNodeSetPod n nodeset = true → mapHas m n = true :=
      fun n hn => hwant n (List.mem_cons_of_mem _ hn)
    unfold desiredLoop
    split
    · rename_i hw
      rw [if_pos (hwant node (List.mem_cons_self _ _) hw)]
      exact ih _ hrest
    · exact ih _ hrest

theorem classifyLoop_all_updated (d : Deps) (nodeset : NodeSet) (hash : String)
    (es : List (Node × List Pod)) (updated rest : List Node)
    (hold : ∀ e ∈ es, (d.findUpdatedPodsOnNode nodeset e.2 hash).2.1.isSome = true) :
    classifyLoop d nodeset hash es (updated, rest) = (updated ++ es.map Prod.fst, rest) := by
  induction es generalizing updated with
  | nil => simp [classifyLoop]
  | cons e es ih =>
    have hes : ∀ a ∈ es, (d.findUpdatedPodsOnNode nodeset a.2 hash).2.1.isSome = true :=
      fun a ha => hold a (List.mem_cons_of_mem _ ha)
    have he := hold e (List.mem_cons_self _ _)
    unfold classifyLoop
    rcases hf : d.findUpdatedPodsOnNode nodeset e.2 hash with ⟨newPod, oldPod, ok⟩
    rw [hf] at he
    simp only at he
    simp only [he, Bool.or_true, if_true]
    rw [ih _ hes]
    simp

theorem mapHas_eq_true_iff (m : NodeToPods) (node : Node) :
    mapHas m node = true ↔ node ∈ m.map Prod.fst := by
  unfold mapHas
  simp only [List.any_eq_true, decide_eq_true_eq, List.mem_map]

theorem mapGet_of_mem (m : NodeToPods) (hkeys : (m.map Prod.fst).Nodup) (e : Node × List Pod)
    (he : e ∈ m) : mapGet m e.1 = e.2 := by
  induction m with
  | nil => simp at he
  | cons a rest ih =>
    rw [List.map_cons, List.nodup_cons] at hkeys
    unfold mapGet
    rw [List.find?_cons]
    by_cases hk : a.1 = e.1
    · simp only [hk, decide_True]
      rcases List.mem_cons.mp he with h1 | h1
      · rw [h1]
      · exfalso
        apply hkeys.1
        rw [hk]
        exact List.mem_map_of_mem Prod.fst h1
    · simp only [hk, decide_False]
      rcases List.mem_cons.mp he with h1 | h1
      · exact absurd (by rw [h1]) hk
      · exact ih hkeys.2 h1

theorem retFold_nodup (m : NodeToPods) (names : List Node) (acc : NodeToPods)
    (hnodup : names.Nodup) (hfresh : ∀ k ∈ names, k ∉ acc.map Prod.fst) :
    names.foldl (fun ret name => mapSet ret name (mapGet m name)) acc
      = acc ++ names.map (fun k => (k, mapGet m k)) := by
  induction names generalizing acc with
  | nil => simp
  | cons k ks ih =>
    rw [List.nodup_cons] at hnodup
    have hk : mapHas acc k = false := by
      rw [Bool.eq_false_iff]
      intro hc
      exact hfresh k (List.mem_cons_self _ _) ((mapHas_eq_true_iff acc k).mp hc)
    rw [List.foldl_cons]
    have hset : mapSet acc k (mapGet m k) = acc ++ [(k, mapGet m k)] := by
      unfold mapSet
      simp [hk]
    rw [hset, ih _ hnodup.2]
    · simp
    · intro k1 hk1 hmem
      rw [List.map_append, List.mem_append] at hmem
      rcases hmem with h1 | h1
      · exact hfresh k1 (List.mem_cons_of_mem _ hk1) h1
      · simp only [List.map_cons, List.map_nil, List.mem_singleton] at h1
        rw [h1] at hk1
        exact hnodup.1 hk1

/-- Without partition, over a map whose nodes all exist and all hold an old
pod, the filtered map is the input map in the order the classification loop
visits it. -/
theorem filterNodeSetPodsToUpdate_all_old (d : Deps) (it : MapIteration) (nodeset : NodeSet)
    (nodes : List Node) (hash : String) (m : NodeToPods) (hv : it.Valid)
    (hpart : partitionOf nodeset = 0)
    (hnames : ∀ e ∈ m, e.1.Name ∈ nodes.map (fun node => node.Name))
    (hkeys : (m.map Prod.fst).Nodup)
    (hold : ∀ e ∈ m, (d.findUpdatedPodsOnNode nodeset e.2 hash).2.1.isSome = true) :
    filterNodeSetPodsToUpdate d it nodeset nodes hash m = .ok (it.classify m) := by
  have hfilter : m.filter (fun e => decide (e.1.Name ∈ nodes.map (fun node => node.Name))) = m := by
    rw [List.filter_eq_self]
    intro e he
    simpa using hnames e he
  have hcl := (hv m).2.1
  have hco := (hv m).1
  have hold1 : ∀ e ∈ it.classify m, (d.findUpdatedPodsOnNode nodeset e.2 hash).2.1.isSome = true :=
    fun e he => hold e (hcl.mem_iff.mp he)
  have hlen : (NodeByWeight.sort ((it.collect m).map Prod.fst)).length = m.length := by
    unfold NodeByWeight.sort
    rw [List.length_insertionSort, List.length_map, hco.length_eq]
  have hnames1 : filterNodeSetPodsNodeToUpdate d it nodeset hash m
      = .ok ((it.classify m).map Prod.fst) := by
    unfold filterNodeSetPodsNodeToUpdate
    simp only [classifyLoop_all_updated d nodeset hash _ _ _ hold1, hlen, hpart,
      List.nil_append, List.append_nil, List.length_map, hcl.length_eq, sub_zero]
    by_cases hz : (m.length : Int) ≤ 0
    · have h0 : m = [] := by
        have : m.length = 0 := by omega
        exact List.length_eq_zero.mp this
      have hc0 : it.classify m = [] := by
        rw [h0] at hcl ⊢
        exact hcl.eq_nil
      simp [hz, hc0]
    · simp [hz]
  unfold filterNodeSetPodsToUpdate
  simp only [hfilter, hnames1]
  have hnodup : ((it.classify m).map Prod.fst).Nodup := (hcl.map Prod.fst).nodup_iff.mpr hkeys
  rw [retFold_nodup m _ [] hnodup (by simp)]
  simp only [List.nil_append, List.map_map, Except.ok.injEq]
  conv_rhs => rw [← List.map_id (it.classify m)]
  apply List.map_congr_left
  intro e he
  simp only [Function.comp_apply, id_eq]
  rw [mapGet_of_mem m hkeys e (hcl.mem_iff.mp he)]

theorem rollingFold_all_candidates (d : Deps) (nodeset : NodeSet) (hash : String) (now : Time)
    (maxUnavailable : Int) (entries : List (Node × List Pod)) (st : RollingState)
    (hbudget : st.numUnavailable < maxUnavailable)
    (hstale : ∀ e ∈ entries, ∃ p, d.findUpdatedPodsOnNode nodeset e.2 hash = (none, some p, true)
      ∧ d.IsPodAvailable p nodeset.Spec.MinReadySeconds now = true
      ∧ d.isNodeSetPodDelete p = false) :
    (entries.foldl (rollingStep d nodeset hash now maxUnavailable) st).numUnavailable
        = st.numUnavailable
      ∧ (entries.foldl (rollingStep d nodeset hash now maxUnavailable) st).allowedReplacementPods
        = st.allowedReplacementPods
      ∧ (entries.foldl (rollingStep d nodeset hash now maxUnavailable)
          st).candidatePodsToDelete.length
        = st.candidatePodsToDelete.length + entries.length := by
  induction entries generalizing st with
  | nil => simp
  | cons e es ih =>
    obtain ⟨p, hf, hav, hdel⟩ := hstale e (List.mem_cons_self _ _)
    have hstep : rollingStep d nodeset hash now maxUnavailable st e
        = { st with candidatePodsToDelete := st.candidatePodsToDelete ++ [p] } := by
      unfold rollingStep
      rw [hf]
      simp only [hav, hdel, Bool.not_true, Bool.or_false, Bool.false_eq_true, if_false]
      rw [if_neg (by omega)]
    rw [List.foldl_cons, hstep]
    obtain ⟨h1, h2, h3⟩ := ih { st with candidatePodsToDelete := st.candidatePodsToDelete ++ [p] }
      hbudget (fun a ha => hstale a (List.mem_cons_of_mem _ ha))
    refine ⟨h1, h2, ?_⟩
    rw [h3]
    dsimp only
    rw [List.length_append, List.length_singleton, List.length_cons]
    omega

/-- C5: for a NodeSet without partition whose `maxUnavailable` resolves to
`maxUnavailable ≥ 1`, over a map of `n` existing nodes that each hold exactly
one old pod, available and not marked for deletion, one pass of
`syncNodeSetRollingUpdate` hands exactly `min(maxUnavailable, n)` pods to
`syncNodeSetPods`; exactly 1 when `maxUnavailable = 1` and `n = 4`. -/
theorem syncNodeSetRollingUpdate_all_stale (d : Deps) (it : MapIteration) (nodeset : NodeSet)
    (nodes : List Node) (m : NodeToPods) (hash : String) (now : Time)
    (maxUnavailable desired : Int) (hv : it.Valid)
    (hpart : partitionOf nodeset = 0)
    (hmax : (updatedDesiredNodeCounts d nodeset nodes m).1 = .ok (maxUnavailable, desired))
    (hone : 1 ≤ maxUnavailable)
    (hkeys : (m.map Prod.fst).Nodup)
    (hnames : ∀ e ∈ m, e.1.Name ∈ nodes.map (fun node => node.Name))
    (hwant : ∀ node ∈ nodes, d.nodeShouldRunNodeSetPod node nodeset = true → mapHas m node = true)
    (hstale : ∀ e ∈ m, ∃ p, e.2 = [p]
      ∧ d.findUpdatedPodsOnNode nodeset e.2 hash = (none, some p, true)
      ∧ d.IsPodAvailable p nodeset.Spec.MinReadySeconds now = true
      ∧ d.isNodeSetPodDelete p = false) :
    ∃ pass, syncNodeSetRollingUpdate d it nodeset nodes m hash now = .ok pass
      ∧ pass.maxUnavailable = maxUnavailable
      ∧ (pass.oldPodsToDelete.length : Int) = min maxUnavailable (m.length : Int)
      ∧ (maxUnavailable = 1 → m.length = 4 → pass.oldPodsToDelete.length = 1) := by
  have hsnd : (updatedDesiredNodeCounts d nodeset nodes m).2 = m := by
    rw [updatedDesiredNodeCounts_snd]
    exact desiredLoop_unchanged d nodeset nodes 0 m hwant
  have hu : updatedDesiredNodeCounts d nodeset nodes m = (.ok (maxUnavailable, desired), m) :=
    Prod.ext hmax hsnd
  have hold : ∀ e ∈ m, (d.findUpdatedPodsOnNode nodeset e.2 hash).2.1.isSome = true := by
    intro e he
    obtain ⟨p, _, hf, _⟩ := hstale e he
    rw [hf]; rfl
  have hf := filterNodeSetPodsToUpdate_all_old d it nodeset nodes hash m hv hpart hnames hkeys hold
  have hpass := (hv (it.classify m)).2.2
  have hcl := (hv m).2.1
  have hloop := rollingFold_all_candidates d nodeset hash now maxUnavailable
    (it.pass (it.classify m)) {} (by show (0 : Int) < maxUnavailable; omega)
    (fun e he => by
      obtain ⟨p, _, h1, h2, h3⟩ := hstale e (hcl.mem_iff.mp (hpass.mem_iff.mp he))
      exact ⟨p, h1, h2, h3⟩)
  obtain ⟨hnum, hallowed, hcand⟩ := hloop
  have hlen : (it.pass (it.classify m)).length = m.length := by
    rw [hpass.length_eq, hcl.length_eq]
  refine ⟨⟨maxUnavailable, it.classify m,
    rollingLoop d nodeset hash now maxUnavailable (it.pass (it.classify m)),
    oldPodsToDelete maxUnavailable
      (rollingLoop d nodeset hash now maxUnavailable (it.pass (it.classify m)))⟩, ?_, rfl, ?_⟩
  · unfold syncNodeSetRollingUpdate
    rw [hu]
    simp only [hf]
  · have hlength : ((oldPodsToDelete maxUnavailable
        (rollingLoop d nodeset hash now maxUnavailable (it.pass (it.classify m)))).length : Int)
        = min maxUnavailable (m.length : Int) := by
      unfold oldPodsToDelete remainingUnavailable rollingLoop
      rw [List.length_append, List.length_take, hallowed, hnum, hcand, hlen]
      dsimp only
      simp only [List.length_nil, zero_add, sub_zero]
      split_ifs <;> omega
    refine ⟨hlength, ?_⟩
    intro h1 h4
    subst h1
    rw [h4] at hlength
    have h5 : min (1 : Int) ((4 : Nat) : Int) = 1 := by decide
    rw [h5] at hlength
    exact_mod_cast hlength

/-- Witness of C5: `replicas = 4`, `maxUnavailable = 1`, four nodes with one
available old pod each; exactly one pod is selected. -/
theorem syncNodeSetRollingUpdate_all_stale_witness :
    ∃ pass, syncNodeSetRollingUpdate refDeps MapIteration.inOrder (nodeSetWith (some 4) 1 none)
        fourNodes fourStale "new" 100 = .ok pass
      ∧ pass.maxUnavailable = 1
      ∧ (pass.oldPodsToDelete.length : Int) = min 1 (fourStale.length : Int)
      ∧ ((1 : Int) = 1 → fourStale.length = 4 → pass.oldPodsToDelete.length = 1) :=
  syncNodeSetRollingUpdate_all_stale refDeps MapIteration.inOrder (nodeSetWith (some 4) 1 none)
    fourNodes fourStale "new" 100 1 4 MapIteration.inOrder_valid (by rfl) (by rfl) (by decide)
    (by decide) (by decide) (by decide)
    (by
      intro e he
      simp only [fourStale, List.mem_cons, List.mem_singleton, List.not_mem_nil, or_false] at he
      rcases he with rfl | rfl | rfl | rfl
      · exact ⟨podA, rfl, by rfl, by rfl, by rfl⟩
      · exact ⟨podB, rfl, by rfl, by rfl, by rfl⟩
      · exact ⟨podC, rfl, by rfl, by rfl, by rfl⟩
      · exact ⟨podD, rfl, by rfl, by rfl, by rfl⟩)

/-! ## Properties of the Slurm control -/

/-- C9: when a client is registered and the node lookup succeeds,
`IsNodeDrained` returns a `nil` error and `true` if and only if the state set
of the node contains `DRAIN`, does not contain `UNDRAIN`, and contains none of
`ALLOCATED`, `MIXED`, `COMPLETING`; it returns `false` for every busy node,
whether or not `DRAIN` is set. -/
theorem IsNodeDrained_iff {σ : Type} (r : realSlurmControl σ) (deps : SlurmDeps) (remote : σ)
    (nodeset : NodeSet) (pod : Pod) (slurmClient : Client σ) (node : V0044Node)
    (hclient : r.lookupClient nodeset = some slurmClient)
    (hget : slurmClient.Get remote (deps.GetNodeName pod) = .ok node) :
    (IsNodeDrained r deps remote nodeset pod).2 = none
      ∧ ((IsNodeDrained r deps remote nodeset pod).1 = true ↔
          (V0044NodeState.DRAIN ∈ node.GetStateAsSet
            ∧ V0044NodeState.UNDRAIN ∉ node.GetStateAsSet
            ∧ V0044NodeState.ALLOCATED ∉ node.GetStateAsSet
            ∧ V0044NodeState.MIXED ∉ node.GetStateAsSet
            ∧ V0044NodeState.COMPLETING ∉ node.GetStateAsSet))
      ∧ ((V0044NodeState.ALLOCATED ∈ node.GetStateAsSet
            ∨ V0044NodeState.MIXED ∈ node.GetStateAsSet
            ∨ V0044NodeState.COMPLETING ∈ node.GetStateAsSet) →
          (IsNodeDrained r deps remote nodeset pod).1 = false) := by
  have hval : IsNodeDrained r deps remote nodeset pod
      = ((setHas node.GetStateAsSet V0044NodeState.DRAIN
            && !setHas node.GetStateAsSet V0044NodeState.UNDRAIN)
          && !setHasAny node.GetStateAsSet
            [V0044NodeState.ALLOCATED, V0044NodeState.MIXED, V0044NodeState.COMPLETING],
        none) := by
    unfold IsNodeDrained
    rw [hclient]
    simp only [hget]
  rw [hval]
  simp only [setHas, setHasAny, List.any_cons, List.any_nil, Bool.or_false,
    Bool.and_eq_true, Bool.not_eq_true', Bool.or_eq_false_iff,
    decide_eq_true_eq, decide_eq_false_iff_not, Bool.or_eq_true]
  refine ⟨trivial, ?_, ?_⟩
  · tauto
  · intro hbusy
    rw [Bool.eq_false_iff]
    intro hc
    simp only [Bool.and_eq_true, Bool.not_eq_true', Bool.or_eq_false_iff,
      decide_eq_true_eq, decide_eq_false_iff_not] at hc
    tauto

/-- Witness of C9: a node that is allocated and has the `DRAIN` flag is not
drained. -/
theorem IsNodeDrained_iff_witness :
    (IsNodeDrained recordingControl refSlurmDeps [drainingWorkerA] (nodeSetWith none 1 none)
        podA).1 = false :=
  (IsNodeDrained_iff recordingControl refSlurmDeps [drainingWorkerA] (nodeSetWith none 1 none)
    podA recordingClient drainingWorkerA (by rfl) (by rfl)).2.2 (Or.inl (by decide))

theorem recordingClient_storesUpdates : recordingClient.StoresUpdates := by
  intro remote remote1 key node req hget hupdate
  have hfound : remote.find? (fun stored => decide (stored.Name = some key)) = some node := by
    unfold recordingClient at hget
    simp only at hget
    split at hget
    · rename_i found hfind
      simp only [Except.ok.injEq] at hget
      rw [hfind, hget]
    · simp at hget
  have hname : node.Name = some key := by
    have := List.find?_some hfound
    simpa using this
  have hremote1 : remote1 = remote.map
      (fun stored => if stored.Name = node.Name then writeUpdate stored req else stored) := by
    unfold recordingClient at hupdate
    simp only [Prod.mk.injEq, true_and] at hupdate
    exact hupdate.symm
  have hfind1 : remote1.find? (fun stored => decide (stored.Name = some key))
      = some (writeUpdate node req) := by
    rw [hremote1, List.find?_map]
    have hcomp : ((fun stored : V0044Node => decide (stored.Name = some key)) ∘
        (fun stored => if stored.Name = node.Name then writeUpdate stored req else stored))
        = (fun stored => decide (stored.Name = some key)) := by
      funext stored
      simp only [Function.comp_apply]
      split
      · rfl
      · rfl
    rw [hcomp, hfound]
    simp
  refine ⟨writeUpdate node req, ?_, ?_, ?_⟩
  · unfold recordingClient
    simp only [hfind1]
  · intro reason hreason
    simp [writeUpdate, hreason]
  · intro states hstates hdrain
    simp only [writeUpdate, hstates, V0044Node.GetStateAsSet, Option.getD_some, List.mem_append,
      List.mem_map]
    left
    exact ⟨V0044UpdateNodeMsgState.DRAIN, hdrain, rfl⟩

/-- C10: over a remote that stores what `Update` writes, `MakeNodeDrain`
issues no `Update` and returns `nil` whenever the node already has the `DRAIN`
flag and its reason equals the prefixed reason; and when a first
`MakeNodeDrain` issues its update and the update succeeds, a second
`MakeNodeDrain` with the same reason issues no `Update`, returns `nil` and
leaves the remote as it is. -/
theorem MakeNodeDrain_idempotent {σ : Type} (r : realSlurmControl σ) (deps : SlurmDeps)
    (nodeset : NodeSet) (pod : Pod) (reason : String) (slurmClient : Client σ)
    (remote remote1 : σ) (node : V0044Node)
    (hclient : r.lookupClient nodeset = some slurmClient)
    (hstores : slurmClient.StoresUpdates)
    (hget : slurmClient.Get remote (deps.GetNodeName pod) = .ok node) :
    ((V0044NodeState.DRAIN ∈ node.GetStateAsSet ∧ node.Reason.getD "" = prefixedReason reason) →
        (MakeNodeDrain r deps remote nodeset pod reason).err = none
          ∧ (MakeNodeDrain r deps remote nodeset pod reason).updates = []
          ∧ (MakeNodeDrain r deps remote nodeset pod reason).remote = remote)
      ∧ (¬ (V0044NodeState.DRAIN ∈ node.GetStateAsSet
              ∧ node.Reason.getD "" = prefixedReason reason) →
          slurmClient.Update remote node (drainRequest reason) = (none, remote1) →
          (MakeNodeDrain r deps remote nodeset pod reason).updates = [(node, drainRequest reason)]
            ∧ (MakeNodeDrain r deps remote nodeset pod reason).remote = remote1
            ∧ (MakeNodeDrain r deps remote1 nodeset pod reason).err = none
            ∧ (MakeNodeDrain r deps remote1 nodeset pod reason).updates = []
            ∧ (MakeNodeDrain r deps remote1 nodeset pod reason).remote = remote1) := by
  have hnoop : ∀ (rem : σ) (n : V0044Node),
      slurmClient.Get rem (deps.GetNodeName pod) = .ok n →
      V0044NodeState.DRAIN ∈ n.GetStateAsSet → n.Reason.getD "" = prefixedReason reason →
      MakeNodeDrain r deps rem nodeset pod reason = ⟨none, [], rem⟩ := by
    intro rem n hg hdrain hreason
    unfold MakeNodeDrain
    rw [hclient]
    simp only [hg]
    have hcond : (setHas n.GetStateAsSet V0044NodeState.DRAIN
        && n.Reason.getD "" == prefixedReason reason) = true := by
      simp [setHas, hdrain, hreason]
    rw [if_pos hcond]
  refine ⟨?_, ?_⟩
  · rintro ⟨hdrain, hreason⟩
    rw [hnoop remote node hget hdrain hreason]
    exact ⟨rfl, rfl, rfl⟩
  · intro hnot hupdate
    have hfirst : MakeNodeDrain r deps remote nodeset pod reason
        = ⟨none, [(node, drainRequest reason)], remote1⟩ := by
      unfold MakeNodeDrain
      rw [hclient]
      simp only [hget]
      have hcond : ¬ ((setHas node.GetStateAsSet V0044NodeState.DRAIN
          && node.Reason.getD "" == prefixedReason reason) = true) := by
        intro hc
        apply hnot
        simpa [setHas] using hc
      rw [if_neg hcond]
      simp only [hupdate]
      simp
    obtain ⟨node1, hget1, hreason1, hstate1⟩ :=
      hstores remote remote1 (deps.GetNodeName pod) node (drainRequest reason) hget hupdate
    have hdrain1 : V0044NodeState.DRAIN ∈ node1.GetStateAsSet :=
      hstate1 [V0044UpdateNodeMsgState.DRAIN] rfl (List.mem_singleton.mpr rfl)
    have hr1 : node1.Reason.getD "" = prefixedReason reason := by
      rw [hreason1 (prefixedReason reason) rfl]
      rfl
    rw [hfirst, hnoop remote1 node1 hget1 hdrain1 hr1]
    exact ⟨rfl, rfl, rfl, rfl, rfl⟩

/-- Witness of C10 on the recording remote: the first drain of the idle node
writes the flag and the reason, the second one issues no `Update`. -/
theorem MakeNodeDrain_idempotent_witness :
    (MakeNodeDrain recordingControl refSlurmDeps [idleWorkerA] (nodeSetWith none 1 none) podA
        "maintenance").updates = [(idleWorkerA, drainRequest "maintenance")]
      ∧ (MakeNodeDrain recordingControl refSlurmDeps [idleWorkerA] (nodeSetWith none 1 none) podA
        "maintenance").remote = [drainedWorkerA]
      ∧ (MakeNodeDrain recordingControl refSlurmDeps [drainedWorkerA] (nodeSetWith none 1 none)
        podA "maintenance").err = none
      ∧ (MakeNodeDrain recordingControl refSlurmDeps [drainedWorkerA] (nodeSetWith none 1 none)
        podA "maintenance").updates = []
      ∧ (MakeNodeDrain recordingControl refSlurmDeps [drainedWorkerA] (nodeSetWith none 1 none)
        podA "maintenance").remote = [drainedWorkerA] :=
  (MakeNodeDrain_idempotent recordingControl refSlurmDeps (nodeSetWith none 1 none) podA
    "maintenance" recordingClient [idleWorkerA] [drainedWorkerA] idleWorkerA (by rfl)
    recordingClient_storesUpdates (by rfl)).2 (by decide) (by rfl)

/-! ## Properties of `UpdateNodeWithPodInfo` -/

theorem recordingClient_storesComment : recordingClient.StoresComment := by
  intro remote remote1 key stored obj req hget hname hupdate
  have hfound : remote.find? (fun node => decide (node.Name = some key)) = some stored := by
    unfold recordingClient at hget
    simp only at hget
    split at hget
    · rename_i found hfind
      simp only [Except.ok.injEq] at hget
      rw [hfind, hget]
    · simp at hget
  have hkey : stored.Name = some key := by
    have := List.find?_some hfound
    simpa using this
  have hremote1 : remote1 = remote.map
      (fun node => if node.Name = obj.Name then writeUpdate node req else node) := by
    unfold recordingClient at hupdate
    simp only [Prod.mk.injEq, true_and] at hupdate
    exact hupdate.symm
  have hfind1 : remote1.find? (fun node => decide (node.Name = some key))
      = some (writeUpdate stored req) := by
    rw [hremote1, List.find?_map]
    have hcomp : ((fun node : V0044Node => decide (node.Name = some key)) ∘
        (fun node => if node.Name = obj.Name then writeUpdate node req else node))
        = (fun node => decide (node.Name = some key)) := by
      funext node
      simp only [Function.comp_apply]
      split
      · rfl
      · rfl
    rw [hcomp, hfound]
    simp [hname]
  refine ⟨writeUpdate stored req, ?_, rfl, ?_⟩
  · unfold recordingClient
    simp only [hfind1]
  · unfold writeUpdate
    cases req.Comment <;> rfl

/-- The call is a no-op when the comment of the node already parses to the
identity of the pod. -/
theorem UpdateNodeWithPodInfo_noop {σ : Type} (r : realSlurmControl σ) (deps : SlurmDeps)
    (remote : σ) (nodeset : NodeSet) (pod : Pod) (slurmClient : Client σ) (node : V0044Node)
    (hclient : r.lookupClient nodeset = some slurmClient)
    (hget : slurmClient.Get remote (deps.GetNodeName pod) = .ok node)
    (hsame : deps.ParseIntoPodInfo node.Comment = podInfoOf pod) :
    UpdateNodeWithPodInfo r deps remote nodeset pod = ⟨none, [], remote⟩ := by
  unfold UpdateNodeWithPodInfo
  rw [hclient]
  simp only [hget, hsame]
  have : (podInfoOf pod).Equal (podInfoOf pod) = true := by simp [PodInfo.Equal]
  rw [if_pos this]

/-- C11: over a remote that accepts every `Update` and stores the written
comment, and a comment format in which the identity of the pod parses back
from its string, `UpdateNodeWithPodInfo` issues no `Update` whenever the
comment of the node already parses to the identity (namespace, name,
orchestration node) of the pod, and a second call after a first one, with the
pod unchanged, issues no `Update`, returns `nil` and leaves the remote as it
is. -/
theorem UpdateNodeWithPodInfo_idempotent {σ : Type} (r : realSlurmControl σ) (deps : SlurmDeps)
    (remote : σ) (nodeset : NodeSet) (pod : Pod) (slurmClient : Client σ) (node : V0044Node)
    (hclient : r.lookupClient nodeset = some slurmClient)
    (hround : deps.ParseIntoPodInfo (some (deps.ToString (podInfoOf pod))) = podInfoOf pod)
    (hstores : slurmClient.StoresComment)
    (haccepts : ∀ (rem : σ) (obj : V0044Node) (req : V0044UpdateNodeMsg),
      (slurmClient.Update rem obj req).1 = none)
    (hget : slurmClient.Get remote (deps.GetNodeName pod) = .ok node) :
    (deps.ParseIntoPodInfo node.Comment = podInfoOf pod →
        (UpdateNodeWithPodInfo r deps remote nodeset pod).updates = []
          ∧ (UpdateNodeWithPodInfo r deps remote nodeset pod).err = none)
      ∧ (UpdateNodeWithPodInfo r deps
            (UpdateNodeWithPodInfo r deps remote nodeset pod).remote nodeset pod).updates = []
      ∧ (UpdateNodeWithPodInfo r deps
            (UpdateNodeWithPodInfo r deps remote nodeset pod).remote nodeset pod).err = none
      ∧ (UpdateNodeWithPodInfo r deps
            (UpdateNodeWithPodInfo r deps remote nodeset pod).remote nodeset pod).remote
          = (UpdateNodeWithPodInfo r deps remote nodeset pod).remote := by
  have hnoop := UpdateNodeWithPodInfo_noop r deps
  refine ⟨?_, ?_⟩
  · intro hsame
    rw [hnoop remote nodeset pod slurmClient node hclient hget hsame]
    exact ⟨rfl, rfl⟩
  · -- the remote after the first call holds a node whose comment parses to the identity
    have hafter : ∃ node1, slurmClient.Get (UpdateNodeWithPodInfo r deps remote nodeset pod).remote
          (deps.GetNodeName pod) = .ok node1
        ∧ deps.ParseIntoPodInfo node1.Comment = podInfoOf pod := by
      by_cases hsame : deps.ParseIntoPodInfo node.Comment = podInfoOf pod
      · rw [hnoop remote nodeset pod slurmClient node hclient hget hsame]
        exact ⟨node, hget, hsame⟩
      · have hne : (deps.ParseIntoPodInfo node.Comment).Equal (podInfoOf pod) = false := by
          simp [PodInfo.Equal, hsame]
        rcases hu1 : slurmClient.Update remote node (commentRequest deps (podInfoOf pod))
          with ⟨err1, remote1⟩
        have herr1 : err1 = none := by
          have := haccepts remote node (commentRequest deps (podInfoOf pod))
          rw [hu1] at this
          exact this
        subst herr1
        obtain ⟨stored1, hget1, hname1, hcomment1⟩ :=
          hstores remote remote1 (deps.GetNodeName pod) node node _ hget rfl hu1
        simp only [commentRequest] at hcomment1
        rcases hu2 : slurmClient.Update remote1 node idleRequest with ⟨err2, remote2⟩
        have herr2 : err2 = none := by
          have := haccepts remote1 node idleRequest
          rw [hu2] at this
          exact this
        subst herr2
        obtain ⟨stored2, hget2, _, hcomment2⟩ :=
          hstores remote1 remote2 (deps.GetNodeName pod) stored1 node _ hget1 hname1.symm hu2
        simp only [idleRequest] at hcomment2
        by_cases hnode : (deps.ParseIntoPodInfo node.Comment).Node = ""
        · have hval : UpdateNodeWithPodInfo r deps remote nodeset pod
              = ⟨none, [(node, commentRequest deps (podInfoOf pod))], remote1⟩ := by
            unfold UpdateNodeWithPodInfo
            rw [hclient]
            simp only [hget, hne, hu1, hnode]
            simp
          rw [hval]
          refine ⟨stored1, hget1, ?_⟩
          rw [hcomment1]; exact hround
        · have hval : UpdateNodeWithPodInfo r deps remote nodeset pod
              = ⟨none, [(node, commentRequest deps (podInfoOf pod)), (node, idleRequest)],
                  remote2⟩ := by
            unfold UpdateNodeWithPodInfo
            rw [hclient]
            simp only [hget, hne, hu1, hu2]
            simp [hnode]
          rw [hval]
          refine ⟨stored2, hget2, ?_⟩
          rw [hcomment2, hcomment1]; exact hround
    obtain ⟨node1, hget1, hsame1⟩ := hafter
    rw [hnoop _ nodeset pod slurmClient node1 hclient hget1 hsame1]
    exact ⟨rfl, rfl, rfl⟩

/-- Witness of C11 on the recording remote: the first call writes the
identity of the pod, now on `node-a`, over the one recorded for `node-b`; the
second call issues no `Update`. -/
theorem UpdateNodeWithPodInfo_idempotent_witness :
    (UpdateNodeWithPodInfo recordingControl refSlurmDeps [workerAOnNodeB]
        (nodeSetWith none 1 none) podA).remote = [workerAMigrated]
      ∧ (UpdateNodeWithPodInfo recordingControl refSlurmDeps
          (UpdateNodeWithPodInfo recordingControl refSlurmDeps [workerAOnNodeB]
            (nodeSetWith none 1 none) podA).remote (nodeSetWith none 1 none) podA).updates = [] :=
  ⟨by rfl, (UpdateNodeWithPodInfo_idempotent recordingControl refSlurmDeps [workerAOnNodeB]
    (nodeSetWith none 1 none) podA recordingClient workerAOnNodeB (by rfl) (by rfl)
    recordingClient_storesComment (fun _ _ _ => rfl) (by rfl)).2.1⟩

/-- C12: when the identity parsed from the comment of the node records a
non-empty orchestration node that differs from the node of the pod, and both
`Update` calls succeed, `UpdateNodeWithPodInfo` returns `nil` after exactly two
updates: first the comment carrying the identity of the pod, then the state
`IDLE`. -/
theorem UpdateNodeWithPodInfo_migration {σ : Type} (r : realSlurmControl σ) (deps : SlurmDeps)
    (remote remote1 remote2 : σ) (nodeset : NodeSet) (pod : Pod) (slurmClient : Client σ)
    (node : V0044Node)
    (hclient : r.lookupClient nodeset = some slurmClient)
    (hget : slurmClient.Get remote (deps.GetNodeName pod) = .ok node)
    (hrecorded : (deps.ParseIntoPodInfo node.Comment).Node ≠ "")
    (hmoved : (deps.ParseIntoPodInfo node.Comment).Node ≠ pod.NodeName)
    (hfirst : slurmClient.Update remote node (commentRequest deps (podInfoOf pod))
      = (none, remote1))
    (hsecond : slurmClient.Update remote1 node idleRequest = (none, remote2)) :
    (UpdateNodeWithPodInfo r deps remote nodeset pod).updates
        = [(node, { Comment := some (deps.ToString (podInfoOf pod)) }),
           (node, { State := some [V0044UpdateNodeMsgState.IDLE] })]
      ∧ (UpdateNodeWithPodInfo r deps remote nodeset pod).err = none
      ∧ (UpdateNodeWithPodInfo r deps remote nodeset pod).remote = remote2 := by
  have hne : (deps.ParseIntoPodInfo node.Comment).Equal (podInfoOf pod) = false := by
    simp only [PodInfo.Equal, decide_eq_false_iff_not]
    intro heq
    apply hmoved
    rw [heq]
    rfl
  have hval : UpdateNodeWithPodInfo r deps remote nodeset pod
      = ⟨none, [(node, commentRequest deps (podInfoOf pod)), (node, idleRequest)], remote2⟩ := by
    unfold UpdateNodeWithPodInfo
    rw [hclient]
    simp only [hget, hne, hfirst, hsecond]
    simp [hrecorded]
  rw [hval]
  exact ⟨rfl, rfl, rfl⟩

/-- Witness of C12 on the recording remote: the comment records `node-b`, the
pod runs on `node-a`. -/
theorem UpdateNodeWithPodInfo_migration_witness :
    (UpdateNodeWithPodInfo recordingControl refSlurmDeps [workerAOnNodeB]
        (nodeSetWith none 1 none) podA).updates
        = [(workerAOnNodeB, { Comment := some "slurm/worker-a/node-a" }),
           (workerAOnNodeB, { State := some [V0044UpdateNodeMsgState.IDLE] })] :=
  (UpdateNodeWithPodInfo_migration recordingControl refSlurmDeps [workerAOnNodeB]
    [{ workerAOnNodeB with Comment := some "slurm/worker-a/node-a" }] [workerAMigrated]
    (nodeSetWith none 1 none) podA recordingClient workerAOnNodeB (by rfl) (by rfl)
    (by decide) (by decide) (by rfl) (by rfl)).1

/-! ## Operations without a registered client -/

/-- C16: when no client is registered for the controller reference of the
NodeSet, every operation of `realSlurmControl` returns a `nil` error, issues
no `Update` and leaves the remote as it is, whatever the remote state: the
boolean queries return `true`, `CalculateNodeStatus` returns zero counts and
an empty map of node states, `GetNodeDeadlines` returns an empty store. -/
theorem realSlurmControl_no_client {σ : Type} (r : realSlurmControl σ) (deps : SlurmDeps)
    (remote : σ) (nodeset : NodeSet) (pod : Pod) (pods : List Pod) (reason : String)
    (hclient : r.lookupClient nodeset = none) :
    RefreshNodeCache r remote nodeset = none
      ∧ UpdateNodeWithPodInfo r deps remote nodeset pod = ⟨none, [], remote⟩
      ∧ MakeNodeDrain r deps remote nodeset pod reason = ⟨none, [], remote⟩
      ∧ MakeNodeUndrain r deps remote nodeset pod reason = ⟨none, [], remote⟩
      ∧ IsNodeDrain r deps remote nodeset pod = (true, none)
      ∧ IsNodeDrained r deps remote nodeset pod = (true, none)
      ∧ IsNodeDownForUnresponsive r deps remote nodeset pod = (true, none)
      ∧ IsNodeReasonOurs r deps remote nodeset pod = (true, none)
      ∧ CalculateNodeStatus r deps remote nodeset pods
          = ({ Total := 0, Allocated := 0, Down := 0, Error := 0, Future := 0, Idle := 0,
               Mixed := 0, Unknown := 0, Completing := 0, Drain := 0, Fail := 0, Invalid := 0,
               InvalidReg := 0, Maintenance := 0, NotResponding := 0, Undrain := 0,
               NodeStates := [] }, none)
      ∧ GetNodeDeadlines r deps remote nodeset pods = .ok [] := by
  refine ⟨?_, ?_, ?_, ?_, ?_, ?_, ?_, ?_, ?_, ?_⟩
  · unfold RefreshNodeCache; rw [hclient]
  · unfold UpdateNodeWithPodInfo; rw [hclient]
  · unfold MakeNodeDrain; rw [hclient]
  · unfold MakeNodeUndrain; rw [hclient]
  · unfold IsNodeDrain; rw [hclient]
  · unfold IsNodeDrained; rw [hclient]
  · unfold IsNodeDownForUnresponsive; rw [hclient]
  · unfold IsNodeReasonOurs; rw [hclient]
  · unfold CalculateNodeStatus; rw [hclient]
  · unfold GetNodeDeadlines; rw [hclient]

/-- Witness of C16 on a control without any client, over a remote that holds
a drained node. -/
theorem realSlurmControl_no_client_witness :
    IsNodeDrain noClientControl refSlurmDeps [drainedWorkerA] (nodeSetWith none 1 none) podA
        = (true, none)
      ∧ MakeNodeDrain noClientControl refSlurmDeps [idleWorkerA] (nodeSetWith none 1 none) podA
        "maintenance" = ⟨none, [], [idleWorkerA]⟩ :=
  ⟨(realSlurmControl_no_client noClientControl refSlurmDeps [drainedWorkerA]
      (nodeSetWith none 1 none) podA [podA] "maintenance" (by rfl)).2.2.2.2.1,
   (realSlurmControl_no_client noClientControl refSlurmDeps [idleWorkerA]
      (nodeSetWith none 1 none) podA [podA] "maintenance" (by rfl)).2.2.1⟩

/-! ## Properties of `syncSlurm` -/

theorem podInfoNodes_kubeNodes {σ τ : Type} (nsc : defaultNodeSetControl σ τ) (d : Deps)
    (deps : SlurmDeps) (sd : SyncDeps) (kube : τ) (nodeset : NodeSet) (m : NodeToPods)
    (nodes : List Node) (acc : PodInfoLoop σ)
    (hdone : (podInfoNodes nsc d deps sd kube nodeset m nodes acc).err = none) :
    (podInfoNodes nsc d deps sd kube nodeset m nodes acc).kubeNodes
      = acc.kubeNodes ++ liveNodeNames nodes m := by
  induction nodes generalizing acc with
  | nil => simp [podInfoNodes, liveNodeNames]
  | cons node rest ih =>
    unfold podInfoNodes at hdone ⊢
    by_cases hhas : mapHas m node = true
    · simp only [hhas, Bool.not_true, Bool.false_eq_true, if_false] at hdone ⊢
      rcases hpods : podInfoPods nsc d deps sd kube nodeset (mapGet m node)
        (acc.slurmUpdates, acc.remote) with ⟨_ | err, updates, remote⟩
      · rw [hpods] at hdone
        simp only at hdone ⊢
        rw [ih _ hdone]
        simp [liveNodeNames, List.filter_cons, hhas]
      · rw [hpods] at hdone
        simp at hdone
    · simp only [hhas, Bool.not_false, if_true] at hdone ⊢
      rw [ih _ hdone]
      simp [liveNodeNames, List.filter_cons, hhas]

theorem deleteLoop_condition (deps : SlurmDeps) (kubeNodes : List String) (node : V0044Node)
    (name : String) (hname : node.Name = some name) :
    (kubeNodes.contains name
        || !setHasAll node.GetStateAsSet [V0044NodeState.DOWN, V0044NodeState.NOTRESPONDING]
        || (deps.ParseIntoPodInfo node.Comment).Equal {})
      = !isOrphanedOf deps kubeNodes node := by
  unfold isOrphanedOf setHasAll PodInfo.Equal
  rw [hname]
  simp only [List.all_cons, List.all_nil, Bool.and_true, List.contains_eq_any_beq]
  by_cases h1 : name ∈ kubeNodes <;>
    by_cases h2 : V0044NodeState.DOWN ∈ node.GetStateAsSet <;>
    by_cases h3 : V0044NodeState.NOTRESPONDING ∈ node.GetStateAsSet <;>
    by_cases h4 : deps.ParseIntoPodInfo node.Comment = {} <;>
    simp [h1, h2, h3, h4]
  all_goals (intro x hx hxe; subst hxe; exact h1 hx)

theorem deleteLoop_spec {σ : Type} (slurmClient : Client σ) (deps : SlurmDeps)
    (kubeNodes : List String) (items : List V0044Node) (slurmNodes : List String)
    (deletes : List V0044Node) (remote : σ) :
    (∀ node ∈ (deleteLoop slurmClient deps kubeNodes items (slurmNodes, deletes, remote)).deletes,
        node ∈ deletes ∨ (node ∈ items ∧ isOrphanedOf deps kubeNodes node = true))
      ∧ (∀ name ∈ (deleteLoop slurmClient deps kubeNodes items
            (slurmNodes, deletes, remote)).slurmNodes,
          name ∈ slurmNodes
            ∨ ∃ node ∈ items, node.Name = some name ∧ isOrphanedOf deps kubeNodes node = false)
      ∧ ((deleteLoop slurmClient deps kubeNodes items (slurmNodes, deletes, remote)).result
            = .returned none →
          (deleteLoop slurmClient deps kubeNodes items (slurmNodes, deletes, remote)).deletes
              = deletes ++ items.filter (isOrphanedOf deps kubeNodes)
            ∧ (deleteLoop slurmClient deps kubeNodes items
                (slurmNodes, deletes, remote)).slurmNodes
              = slurmNodes ++ (items.filter (fun node => !isOrphanedOf deps kubeNodes node)).map
                  (fun node => node.Name.getD "")) := by
  induction items generalizing slurmNodes deletes remote with
  | nil =>
    refine ⟨?_, ?_, ?_⟩
    · intro node hnode; left; simpa [deleteLoop] using hnode
    · intro name hname; left; simpa [deleteLoop] using hname
    · intro _; simp [deleteLoop]
  | cons node rest ih =>
    unfold deleteLoop
    cases hname : node.Name with
    | none =>
      simp only
      refine ⟨?_, ?_, ?_⟩
      · intro n hn; left; exact hn
      · intro n hn; left; exact hn
      · intro h; simp at h
    | some name =>
      simp only
      rw [deleteLoop_condition deps kubeNodes node name hname]
      cases horph : isOrphanedOf deps kubeNodes node with
      | false =>
        simp only [Bool.not_false, if_true]
        obtain ⟨h1, h2, h3⟩ := ih (slurmNodes ++ [name]) deletes remote
        refine ⟨?_, ?_, ?_⟩
        · intro n hn
          rcases h1 n hn with h | ⟨h, ho⟩
          · left; exact h
          · right; exact ⟨List.mem_cons_of_mem _ h, ho⟩
        · intro n hn
          rcases h2 n hn with h | ⟨n1, hn1, hn1n, ho⟩
          · rw [List.mem_append, List.mem_singleton] at h
            rcases h with h | h
            · left; exact h
            · right; exact ⟨node, List.mem_cons_self _ _, by rw [hname, h], horph⟩
          · right; exact ⟨n1, List.mem_cons_of_mem _ hn1, hn1n, ho⟩
        · intro hdone
          obtain ⟨hd, hs⟩ := h3 hdone
          rw [hd, hs]
          simp [List.filter_cons, horph, hname]
      | true =>
        simp only [Bool.not_true, Bool.false_eq_true, if_false]
        rcases hdel : slurmClient.Delete remote node with ⟨err, remote1⟩
        simp only [hdel]
        by_cases htol : tolerateError err = true
        · simp only [htol, Bool.not_true, Bool.false_eq_true, if_false]
          obtain ⟨h1, h2, h3⟩ := ih slurmNodes (deletes ++ [node]) remote1
          refine ⟨?_, ?_, ?_⟩
          · intro n hn
            rcases h1 n hn with h | ⟨h, ho⟩
            · rw [List.mem_append, List.mem_singleton] at h
              rcases h with h | h
              · left; exact h
              · right; rw [h]; exact ⟨List.mem_cons_self _ _, horph⟩
            · right; exact ⟨List.mem_cons_of_mem _ h, ho⟩
          · intro n hn
            rcases h2 n hn with h | ⟨n1, hn1, hn1n, ho⟩
            · left; exact h
            · right; exact ⟨n1, List.mem_cons_of_mem _ hn1, hn1n, ho⟩
          · intro hdone
            obtain ⟨hd, hs⟩ := h3 hdone
            rw [hd, hs]
            simp [List.filter_cons, horph]
        · simp only [htol, Bool.not_false, if_true]
          refine ⟨?_, ?_, ?_⟩
          · intro n hn
            rw [List.mem_append, List.mem_singleton] at hn
            rcases hn with h | h
            · left; exact h
            · right; rw [h]; exact ⟨List.mem_cons_self _ _, horph⟩
          · intro n hn; left; exact hn
          · intro hdone
            simp only [GoResult.returned.injEq] at hdone
            rw [hdone] at htol
            simp [tolerateError] at htol

theorem markPods_condition (d : Deps) (sd : SyncDeps) (slurmNodes : List String) (pod : Pod) :
    (slurmNodes.contains pod.Hostname || !sd.IsHealthy pod
        || !sd.IsRunningAndAvailable pod 30 || d.isNodeSetPodDelete pod)
      = !shouldMark d sd slurmNodes pod := by
  unfold shouldMark
  by_cases h1 : pod.Hostname ∈ slurmNodes <;>
    cases sd.IsHealthy pod <;> cases sd.IsRunningAndAvailable pod 30 <;>
    cases d.isNodeSetPodDelete pod <;> simp [h1]

theorem withPodDelete_hostname (pod : Pod) : (withPodDelete pod).Hostname = pod.Hostname := rfl

theorem markPods_spec {τ : Type} (kubeClient : KubeClient τ) (d : Deps) (sd : SyncDeps)
    (slurmNodes : List String) (pods : List Pod) (podUpdates : List Pod) (kube : τ) :
    (∀ p ∈ (markPods kubeClient d sd slurmNodes pods (podUpdates, kube)).podUpdates,
        p ∈ podUpdates
          ∨ ∃ pod ∈ pods, shouldMark d sd slurmNodes pod = true ∧ p = withPodDelete pod)
      ∧ ((markPods kubeClient d sd slurmNodes pods (podUpdates, kube)).result = .returned none →
          (markPods kubeClient d sd slurmNodes pods (podUpdates, kube)).podUpdates
            = podUpdates ++ (pods.filter (shouldMark d sd slurmNodes)).map withPodDelete) := by
  induction pods generalizing podUpdates kube with
  | nil =>
    refine ⟨?_, ?_⟩
    · intro p hp; left; simpa [markPods] using hp
    · intro _; simp [markPods]
  | cons pod rest ih =>
    unfold markPods
    rw [markPods_condition d sd slurmNodes pod]
    cases hmark : shouldMark d sd slurmNodes pod with
    | false =>
      simp only [Bool.not_false, if_true]
      obtain ⟨h1, h2⟩ := ih podUpdates kube
      refine ⟨?_, ?_⟩
      · intro p hp
        rcases h1 p hp with h | ⟨q, hq, hm, hpq⟩
        · left; exact h
        · right; exact ⟨q, List.mem_cons_of_mem _ hq, hm, hpq⟩
      · intro hdone
        rw [h2 hdone]
        simp [List.filter_cons, hmark]
    | true =>
      simp only [Bool.not_true, Bool.false_eq_true, if_false]
      cases hann : pod.Annotations with
      | none =>
        simp only
        refine ⟨?_, ?_⟩
        · intro p hp; left; exact hp
        · intro h; simp at h
      | some annotations =>
        simp only
        rcases hupd : kubeClient.Update kube (withPodDelete pod) with ⟨err, kube1⟩
        try simp only [hupd]
        have hrec : ∀ acc : List Pod × τ, acc = (podUpdates ++ [withPodDelete pod], kube1) →
            (∀ p ∈ (markPods kubeClient d sd slurmNodes rest acc).podUpdates,
              p ∈ podUpdates ∨ ∃ q ∈ pod :: rest, shouldMark d sd slurmNodes q = true
                ∧ p = withPodDelete q)
            ∧ ((markPods kubeClient d sd slurmNodes rest acc).result = .returned none →
              (markPods kubeClient d sd slurmNodes rest acc).podUpdates
                = podUpdates ++ ((pod :: rest).filter (shouldMark d sd slurmNodes)).map
                    withPodDelete) := by
          intro acc hacc
          subst hacc
          obtain ⟨h1, h2⟩ := ih (podUpdates ++ [withPodDelete pod]) kube1
          refine ⟨?_, ?_⟩
          · intro p hp
            rcases h1 p hp with h | ⟨q, hq, hm, hpq⟩
            · rw [List.mem_append, List.mem_singleton] at h
              rcases h with h | h
              · left; exact h
              · right; exact ⟨pod, List.mem_cons_self _ _, hmark, h⟩
            · right; exact ⟨q, List.mem_cons_of_mem _ hq, hm, hpq⟩
          · intro hdone
            rw [h2 hdone]
            simp [List.filter_cons, hmark]
        cases err with
        | none => simpa using hrec _ rfl
        | some e =>
          simp only
          by_cases hnf : sd.IsNotFound e = true
          · simp only [hnf, if_true]
            refine ⟨?_, ?_⟩
            · intro p hp
              rw [List.mem_append, List.mem_singleton] at hp
              rcases hp with h | h
              · left; exact h
              · right; exact ⟨pod, List.mem_cons_self _ _, hmark, h⟩
            · intro h; simp at h
          · simp only [hnf, Bool.false_eq_true, if_false]
            exact hrec _ rfl

theorem markNodes_spec {τ : Type} (kubeClient : KubeClient τ) (d : Deps) (sd : SyncDeps)
    (slurmNodes : List String) (m : NodeToPods) (nodes : List Node) (podUpdates : List Pod)
    (kube : τ) :
    (∀ p ∈ (markNodes kubeClient d sd slurmNodes m nodes (podUpdates, kube)).podUpdates,
        p ∈ podUpdates
          ∨ ∃ pod ∈ candidatePods nodes m, shouldMark d sd slurmNodes pod = true
              ∧ p = withPodDelete pod)
      ∧ ((markNodes kubeClient d sd slurmNodes m nodes (podUpdates, kube)).result
            = .returned none →
          (markNodes kubeClient d sd slurmNodes m nodes (podUpdates, kube)).podUpdates
            = podUpdates
              ++ ((candidatePods nodes m).filter (shouldMark d sd slurmNodes)).map
                  withPodDelete) := by
  induction nodes generalizing podUpdates kube with
  | nil =>
    refine ⟨?_, ?_⟩
    · intro p hp; left; simpa [markNodes] using hp
    · intro _; simp [markNodes, candidatePods]
  | cons node rest ih =>
    unfold markNodes
    by_cases hhas : mapHas m node = true
    · simp only [hhas, Bool.not_true, Bool.false_eq_true, if_false]
      have hcand : candidatePods (node :: rest) m = mapGet m node ++ candidatePods rest m := by
        simp [candidatePods, List.filter_cons, hhas]
      obtain ⟨hp1, hp2⟩ := markPods_spec kubeClient d sd slurmNodes (mapGet m node) podUpdates kube
      rcases hres : markPods kubeClient d sd slurmNodes (mapGet m node) (podUpdates, kube)
        with ⟨result, podUpdates1, kube1⟩
      rw [hres] at hp1 hp2
      simp only at hp1 hp2
      by_cases hdone : result = .returned none
      · subst hdone
        simp only
        obtain ⟨h1, h2⟩ := ih podUpdates1 kube1
        have hmid := hp2 rfl
        refine ⟨?_, ?_⟩
        · intro p hp
          rcases h1 p hp with h | ⟨q, hq, hm, hpq⟩
          · rcases hp1 p h with h3 | ⟨q, hq, hm, hpq⟩
            · left; exact h3
            · right
              refine ⟨q, ?_, hm, hpq⟩
              rw [hcand]; exact List.mem_append_left _ hq
          · right
            refine ⟨q, ?_, hm, hpq⟩
            rw [hcand]; exact List.mem_append_right _ hq
        · intro hfin
          rw [h2 hfin, hmid, hcand]
          simp
      · have hstop : (match (⟨result, podUpdates1, kube1⟩ : MarkLoop τ) with
            | ⟨.returned none, podUpdates2, kube2⟩ =>
              markNodes kubeClient d sd slurmNodes m rest (podUpdates2, kube2)
            | stopped => stopped) = ⟨result, podUpdates1, kube1⟩ := by
          cases result with
          | panicked => rfl
          | returned err =>
            cases err with
            | none => exact absurd rfl hdone
            | some e => rfl
        rw [hstop]
        simp only
        refine ⟨?_, ?_⟩
        · intro p hp
          rcases hp1 p hp with h3 | ⟨q, hq, hm, hpq⟩
          · left; exact h3
          · right
            refine ⟨q, ?_, hm, hpq⟩
            rw [hcand]; exact List.mem_append_left _ hq
        · intro hfin; exact absurd hfin hdone
    · simp only [hhas, Bool.not_false, if_true]
      have hcand : candidatePods (node :: rest) m = candidatePods rest m := by
        simp [candidatePods, List.filter_cons, hhas]
      rw [hcand]
      exact ih podUpdates kube

/-- The shape of a pass of `syncSlurm` with a registered client: either it
ends before the second loop, or its deletes and retained names are those of
the second loop and its pod updates those of the third loop. -/
theorem syncSlurm_cases {σ τ : Type} (nsc : defaultNodeSetControl σ τ) (d : Deps)
    (deps : SlurmDeps) (sd : SyncDeps) (remote : σ) (kube : τ) (nodeset : NodeSet)
    (nodes : List Node) (m : NodeToPods) (slurmClient : Client σ)
    (hclient : nsc.slurmClusters (clusterNameOf nodeset) = some slurmClient) :
    ((syncSlurm nsc d deps sd remote kube nodeset nodes m).result ≠ .returned none
        ∧ (syncSlurm nsc d deps sd remote kube nodeset nodes m).deletes = []
        ∧ (syncSlurm nsc d deps sd remote kube nodeset nodes m).slurmNodes = []
        ∧ (syncSlurm nsc d deps sd remote kube nodeset nodes m).podUpdates = [])
      ∨ ((podInfoNodes nsc d deps sd kube nodeset m nodes ⟨none, [], [], remote⟩).err = none
        ∧ (syncSlurm nsc d deps sd remote kube nodeset nodes m).deletes
            = (deleteLoop slurmClient deps
                (podInfoNodes nsc d deps sd kube nodeset m nodes ⟨none, [], [], remote⟩).kubeNodes
                (listedNodes slurmClient remote)
                ([], [], (podInfoNodes nsc d deps sd kube nodeset m nodes
                  ⟨none, [], [], remote⟩).remote)).deletes
        ∧ (syncSlurm nsc d deps sd remote kube nodeset nodes m).slurmNodes
            = (deleteLoop slurmClient deps
                (podInfoNodes nsc d deps sd kube nodeset m nodes ⟨none, [], [], remote⟩).kubeNodes
                (listedNodes slurmClient remote)
                ([], [], (podInfoNodes nsc d deps sd kube nodeset m nodes
                  ⟨none, [], [], remote⟩).remote)).slurmNodes
        ∧ (((deleteLoop slurmClient deps
                (podInfoNodes nsc d deps sd kube nodeset m nodes ⟨none, [], [], remote⟩).kubeNodes
                (listedNodes slurmClient remote)
                ([], [], (podInfoNodes nsc d deps sd kube nodeset m nodes
                  ⟨none, [], [], remote⟩).remote)).result = .returned none
              ∧ (syncSlurm nsc d deps sd remote kube nodeset nodes m).result
                  = (markNodes nsc.kube d sd
                      (syncSlurm nsc d deps sd remote kube nodeset nodes m).slurmNodes m nodes
                      ([], kube)).result
              ∧ (syncSlurm nsc d deps sd remote kube nodeset nodes m).podUpdates
                  = (markNodes nsc.kube d sd
                      (syncSlurm nsc d deps sd remote kube nodeset nodes m).slurmNodes m nodes
                      ([], kube)).podUpdates)
            ∨ ((syncSlurm nsc d deps sd remote kube nodeset nodes m).result ≠ .returned none
              ∧ (syncSlurm nsc d deps sd remote kube nodeset nodes m).podUpdates = []))) := by
  unfold syncSlurm
  rw [hclient]
  simp only
  by_cases htol : tolerateError (listError slurmClient remote) = true
  · simp only [htol, Bool.not_true, Bool.false_eq_true, if_false]
    cases hfirst : (podInfoNodes nsc d deps sd kube nodeset m nodes ⟨none, [], [], remote⟩).err
      with
    | some err =>
      left
      simp
    | none =>
      right
      simp only
      cases hsecond : (deleteLoop slurmClient deps
          (podInfoNodes nsc d deps sd kube nodeset m nodes ⟨none, [], [], remote⟩).kubeNodes
          (listedNodes slurmClient remote)
          ([], [], (podInfoNodes nsc d deps sd kube nodeset m nodes
            ⟨none, [], [], remote⟩).remote)).result with
      | panicked =>
        simp
      | returned err =>
        cases err with
        | none => simp
        | some e => simp
  · left
    simp only [htol, Bool.not_false, if_true]
    refine ⟨?_, trivial, trivial, trivial⟩
    intro h
    simp only [GoResult.returned.injEq] at h
    rw [h] at htol
    simp [tolerateError] at htol

/-- C13: in a pass of `syncSlurm` with a registered client, every Slurm node
passed to `Delete` is a listed node whose name is not the name of an
orchestration node that is both in the node list and in the map, whose state
set contains `DOWN` and `NOTRESPONDING`, and whose comment parses to a
non-empty identity; every retained name is the name of a listed node that
fails this condition; and when the pass returns `nil`, the deleted nodes are
exactly the listed nodes with this condition and the retained names exactly
the names of the others. -/
theorem syncSlurm_deletes_orphans {σ τ : Type} (nsc : defaultNodeSetControl σ τ) (d : Deps)
    (deps : SlurmDeps) (sd : SyncDeps) (remote : σ) (kube : τ) (nodeset : NodeSet)
    (nodes : List Node) (m : NodeToPods) (slurmClient : Client σ)
    (hclient : nsc.slurmClusters (clusterNameOf nodeset) = some slurmClient) :
    (∀ node ∈ (syncSlurm nsc d deps sd remote kube nodeset nodes m).deletes,
        node ∈ listedNodes slurmClient remote ∧ isOrphaned deps nodes m node = true)
      ∧ (∀ name ∈ (syncSlurm nsc d deps sd remote kube nodeset nodes m).slurmNodes,
          ∃ node ∈ listedNodes slurmClient remote,
            node.Name = some name ∧ isOrphaned deps nodes m node = false)
      ∧ ((syncSlurm nsc d deps sd remote kube nodeset nodes m).result = .returned none →
          (syncSlurm nsc d deps sd remote kube nodeset nodes m).deletes
              = (listedNodes slurmClient remote).filter (isOrphaned deps nodes m)
            ∧ (syncSlurm nsc d deps sd remote kube nodeset nodes m).slurmNodes
              = ((listedNodes slurmClient remote).filter
                  (fun node => !isOrphaned deps nodes m node)).map
                  (fun node => node.Name.getD "")) := by
  rcases syncSlurm_cases nsc d deps sd remote kube nodeset nodes m slurmClient hclient
    with ⟨hres, hdel, hnames, _⟩ | ⟨hfirst, hdel, hnames, hthird⟩
  · rw [hdel, hnames]
    refine ⟨?_, ?_, ?_⟩
    · intro node hnode; simp at hnode
    · intro name hname; simp at hname
    · intro h; exact absurd h hres
  · have hkube := podInfoNodes_kubeNodes nsc d deps sd kube nodeset m nodes
      ⟨none, [], [], remote⟩ hfirst
    simp only [List.nil_append] at hkube
    rw [hkube] at hdel hnames hthird
    obtain ⟨h1, h2, h3⟩ := deleteLoop_spec slurmClient deps (liveNodeNames nodes m)
      (listedNodes slurmClient remote) [] []
      (podInfoNodes nsc d deps sd kube nodeset m nodes ⟨none, [], [], remote⟩).remote
    rw [hdel, hnames]
    refine ⟨?_, ?_, ?_⟩
    · intro node hnode
      rcases h1 node hnode with h | h
      · simp at h
      · exact h
    · intro name hname
      rcases h2 name hname with h | h
      · simp at h
      · exact h
    · intro hdone
      rcases hthird with ⟨hsec, _, _⟩ | ⟨hne, _⟩
      · have := h3 hsec
        simpa [isOrphaned] using this
      · exact absurd hdone hne

/-- Witness of C13: of the listed nodes `worker-a`, idle, and `worker-x`, down
and not responding with the identity of a pod that is gone, only `worker-x`
is deleted. -/
theorem syncSlurm_deletes_orphans_witness :
    (syncSlurm acceptingControl refDeps refSlurmDeps refSyncDeps
        [registeredWorkerA, lostWorkerX] [] (nodeSetWith none 1 none) [nodeA, nodeB]
        twoAnnotated).deletes = [lostWorkerX]
      ∧ (syncSlurm acceptingControl refDeps refSlurmDeps refSyncDeps
        [registeredWorkerA, lostWorkerX] [] (nodeSetWith none 1 none) [nodeA, nodeB]
        twoAnnotated).deletes
          = (listedNodes recordingClient [registeredWorkerA, lostWorkerX]).filter
              (isOrphaned refSlurmDeps [nodeA, nodeB] twoAnnotated) :=
  ⟨by rfl, ((syncSlurm_deletes_orphans acceptingControl refDeps refSlurmDeps refSyncDeps
      [registeredWorkerA, lostWorkerX] [] (nodeSetWith none 1 none) [nodeA, nodeB] twoAnnotated
      recordingClient (by rfl)).2.2 (by rfl)).1⟩

/-- In a pass of `syncSlurm` with a registered client, every pod passed
to the `Update` of the Kubernetes client is the copy, with the deletion
annotation, of a pod of a listed orchestration node whose hostname is not a
retained Slurm node name and that is healthy, running and available past the
30 seconds, and not already marked; no updated pod has the hostname of a
retained Slurm node; and when the pass returns `nil`, the updated pods are
exactly the copies of the pods with this condition. -/
theorem syncSlurm_marks {σ τ : Type} (nsc : defaultNodeSetControl σ τ) (d : Deps)
    (deps : SlurmDeps) (sd : SyncDeps) (remote : σ) (kube : τ) (nodeset : NodeSet)
    (nodes : List Node) (m : NodeToPods) (slurmClient : Client σ)
    (hclient : nsc.slurmClusters (clusterNameOf nodeset) = some slurmClient) :
    (∀ p ∈ (syncSlurm nsc d deps sd remote kube nodeset nodes m).podUpdates,
        p.Hostname ∉ (syncSlurm nsc d deps sd remote kube nodeset nodes m).slurmNodes
          ∧ ∃ pod ∈ candidatePods nodes m,
              shouldMark d sd (syncSlurm nsc d deps sd remote kube nodeset nodes m).slurmNodes
                  pod = true
                ∧ p = withPodDelete pod)
      ∧ ((syncSlurm nsc d deps sd remote kube nodeset nodes m).result = .returned none →
          (syncSlurm nsc d deps sd remote kube nodeset nodes m).podUpdates
            = ((candidatePods nodes m).filter
                (shouldMark d sd
                  (syncSlurm nsc d deps sd remote kube nodeset nodes m).slurmNodes)).map
                withPodDelete) := by
  have hhost : ∀ (retained : List String) (p pod : Pod),
      shouldMark d sd retained pod = true → p = withPodDelete pod → p.Hostname ∉ retained := by
    intro retained p pod hm hp
    rw [hp, withPodDelete_hostname]
    unfold shouldMark at hm
    simp only [Bool.and_eq_true, decide_eq_true_eq] at hm
    exact hm.1.1.1
  rcases syncSlurm_cases nsc d deps sd remote kube nodeset nodes m slurmClient hclient
    with ⟨hres, _, _, hpods⟩ | ⟨_, _, _, hthird⟩
  · rw [hpods]
    refine ⟨?_, ?_⟩
    · intro p hp; simp at hp
    · intro h; exact absurd h hres
  · rcases hthird with ⟨_, hresult, hpods⟩ | ⟨hne, hpods⟩
    · obtain ⟨h1, h2⟩ := markNodes_spec nsc.kube d sd
        (syncSlurm nsc d deps sd remote kube nodeset nodes m).slurmNodes m nodes [] kube
      refine ⟨?_, ?_⟩
      · intro p hp
        rw [hpods] at hp
        rcases h1 p hp with h | ⟨pod, hpod, hm, hpq⟩
        · simp at h
        · exact ⟨hhost _ p pod hm hpq, pod, hpod, hm, hpq⟩
      · intro hdone
        rw [hresult] at hdone
        have := h2 hdone
        rw [hpods, this]
        simp
    · rw [hpods]
      refine ⟨?_, ?_⟩
      · intro p hp; simp at hp
      · intro h; exact absurd h hne

/-- Example of a pass that returns `nil`: `worker-a` is retained, so only the
pod `worker-b`, whose Slurm node is not listed, is marked for deletion. -/
theorem syncSlurm_marks_witness :
    (syncSlurm acceptingControl refDeps refSlurmDeps refSyncDeps
        [registeredWorkerA, lostWorkerX] [] (nodeSetWith none 1 none) [nodeA, nodeB]
        twoAnnotated).slurmNodes = ["worker-a"]
      ∧ (syncSlurm acceptingControl refDeps refSlurmDeps refSyncDeps
        [registeredWorkerA, lostWorkerX] [] (nodeSetWith none 1 none) [nodeA, nodeB]
        twoAnnotated).podUpdates = [withPodDelete annotatedB]
      ∧ (syncSlurm acceptingControl refDeps refSlurmDeps refSyncDeps
        [registeredWorkerA, lostWorkerX] [] (nodeSetWith none 1 none) [nodeA, nodeB]
        twoAnnotated).podUpdates
          = ((candidatePods [nodeA, nodeB] twoAnnotated).filter
              (shouldMark refDeps refSyncDeps
                (syncSlurm acceptingControl refDeps refSlurmDeps refSyncDeps
                  [registeredWorkerA, lostWorkerX] [] (nodeSetWith none 1 none) [nodeA, nodeB]
                  twoAnnotated).slurmNodes)).map withPodDelete :=
  ⟨by rfl, by rfl, (syncSlurm_marks acceptingControl refDeps refSlurmDeps refSyncDeps
      [registeredWorkerA, lostWorkerX] [] (nodeSetWith none 1 none) [nodeA, nodeB] twoAnnotated
      recordingClient (by rfl)).2 (by rfl)⟩

/-- C14: the pod `podA` of the listed node `node-a` is healthy, running and
available, not marked for deletion, and its hostname is no retained Slurm node
name, but it has no annotation map: `syncSlurm` panics at the write of the
deletion annotation and passes no pod to the `Update` of the Kubernetes
client. The same pod with an empty annotation map is passed to `Update` with
the annotation `slinky.slurm.net/pod-delete` set to `true`. -/
theorem syncSlurm_panics_unmarked :
    podA ∈ candidatePods [nodeA] [(nodeA, [podA])]
      ∧ shouldMark refDeps refSyncDeps [] podA = true
      ∧ podA.Annotations = none
      ∧ (syncSlurm acceptingControl refDeps refSlurmDeps refSyncDeps [] [] oneReplica [nodeA]
          [(nodeA, [podA])]).slurmNodes = []
      ∧ (syncSlurm acceptingControl refDeps refSlurmDeps refSyncDeps [] [] oneReplica [nodeA]
          [(nodeA, [podA])]).result = .panicked
      ∧ (syncSlurm acceptingControl refDeps refSlurmDeps refSyncDeps [] [] oneReplica [nodeA]
          [(nodeA, [podA])]).podUpdates = []
      ∧ (syncSlurm acceptingControl refDeps refSlurmDeps refSyncDeps [] [] oneReplica [nodeA]
          [(nodeA, [podA])]).kube = []
      ∧ (syncSlurm acceptingControl refDeps refSlurmDeps refSyncDeps [] [] oneReplica [nodeA]
          [(nodeA, [annotatedA])]).podUpdates
        = [{ annotatedA with Annotations := some [("slinky.slurm.net/pod-delete", "true")] }]
      ∧ (syncSlurm acceptingControl refDeps refSlurmDeps refSyncDeps [] [] oneReplica [nodeA]
          [(nodeA, [annotatedA])]).result = .returned none := by
  refine ⟨by decide, by rfl, by rfl, by rfl, by rfl, by rfl, by rfl, by rfl, by rfl⟩

/-- C15: `tolerateError` accepts exactly `nil` and the texts `Not Found` and
`No Content`; yet an error of the Kubernetes `Update` that is neither, here a
conflict on the pod about to be marked, does not end the pass: `syncSlurm`
returns `nil`. -/
theorem syncSlurm_swallows_update_error :
    (∀ err : Option GoError, tolerateError err = true
        ↔ (err = none ∨ err = some "Not Found" ∨ err = some "No Content"))
      ∧ (conflictKube.Update [] (withPodDelete annotatedA)).1
          = some "Operation cannot be fulfilled on pods: the object has been modified"
      ∧ tolerateError (conflictKube.Update [] (withPodDelete annotatedA)).1 = false
      ∧ (syncSlurm conflictControl refDeps refSlurmDeps refSyncDeps [] []
          (nodeSetWith none 1 none) [nodeA] [(nodeA, [annotatedA])]).podUpdates
          = [withPodDelete annotatedA]
      ∧ (syncSlurm conflictControl refDeps refSlurmDeps refSyncDeps [] []
          (nodeSetWith none 1 none) [nodeA] [(nodeA, [annotatedA])]).result
          = .returned none := by
  refine ⟨?_, by rfl, by rfl, by rfl, by rfl⟩
  intro err
  cases err with
  | none => simp [tolerateError]
  | some text =>
    simp [tolerateError, statusTextNotFound, statusTextNoContent]

/-! ## Properties of `syncNodeSetStatus` -/

theorem countNodePods_desired (d : Deps) (st : StatusDeps) (nodeset : NodeSet) (m : NodeToPods)
    (hash : String) (now : Time) (counts : StatusCounts) (node : Node) :
    (countNodePods d st nodeset m hash now counts node).desiredNumberScheduled
      = counts.desiredNumberScheduled
        + (if d.nodeShouldRunNodeSetPod node nodeset = true then 1 else 0) := by
  unfold countNodePods
  simp only
  repeat' split
  all_goals simp_all

theorem countNodePods_available (d : Deps) (st : StatusDeps) (nodeset : NodeSet) (m : NodeToPods)
    (hash : String) (now : Time) (counts : StatusCounts) (node : Node) :
    counts.numberAvailable ≤ (countNodePods d st nodeset m hash now counts node).numberAvailable
      ∧ (countNodePods d st nodeset m hash now counts node).numberAvailable
        ≤ counts.numberAvailable
          + (if d.nodeShouldRunNodeSetPod node nodeset = true then 1 else 0) := by
  unfold countNodePods
  simp only
  repeat' split
  all_goals simp_all

theorem countSlurmStates_desired (counts : StatusCounts) (slurmNode : V0044Node) :
    (countSlurmStates counts slurmNode).desiredNumberScheduled = counts.desiredNumberScheduled := by
  unfold countSlurmStates
  simp only
  repeat' split
  all_goals rfl

theorem countSlurmStates_available (counts : StatusCounts) (slurmNode : V0044Node) :
    (countSlurmStates counts slurmNode).numberAvailable = counts.numberAvailable := by
  unfold countSlurmStates
  simp only
  repeat' split
  all_goals rfl

/-- When the loop of `syncNodeSetStatus` ends without error, the desired
count has grown by the number of nodes that should run a pod, and the
available count by at most that number. -/
theorem statusLoop_counts {σ τ : Type} (nsc : defaultNodeSetControl σ τ) (d : Deps)
    (deps : SlurmDeps) (sd : SyncDeps) (st : StatusDeps) (kube : τ) (nodeset : NodeSet)
    (m : NodeToPods) (hash : String) (now : Time) (nodes : List Node) (acc : StatusLoop σ) :
    (statusLoop nsc d deps sd st kube nodeset m hash now nodes acc).err = none →
      (statusLoop nsc d deps sd st kube nodeset m hash now nodes acc).counts.desiredNumberScheduled
          = acc.counts.desiredNumberScheduled
            + (nodes.countP (fun node => d.nodeShouldRunNodeSetPod node nodeset) : Int)
        ∧ acc.counts.numberAvailable
          ≤ (statusLoop nsc d deps sd st kube nodeset m hash now nodes acc).counts.numberAvailable
        ∧ (statusLoop nsc d deps sd st kube nodeset m hash now nodes acc).counts.numberAvailable
          ≤ acc.counts.numberAvailable
            + (nodes.countP (fun node => d.nodeShouldRunNodeSetPod node nodeset) : Int) := by
  induction nodes generalizing acc with
  | nil =>
    intro _
    simp [statusLoop]
  | cons node rest ih =>
    have hd := countNodePods_desired d st nodeset m hash now acc.counts node
    have ha := countNodePods_available d st nodeset m hash now acc.counts node
    have hcount : ((node :: rest).countP (fun node => d.nodeShouldRunNodeSetPod node nodeset) : Int)
        = (rest.countP (fun node => d.nodeShouldRunNodeSetPod node nodeset) : Int)
          + (if d.nodeShouldRunNodeSetPod node nodeset = true then 1 else 0) := by
      rw [List.countP_cons]
      split <;> simp
    rw [hcount]
    generalize (if d.nodeShouldRunNodeSetPod node nodeset = true then (1 : Int) else 0) = k
      at hd ha
    unfold statusLoop
    simp only
    repeat' split
    all_goals first
      | (intro hnone; simp at hnone; done)
      | (intro hnone
         have hrec := ih _ hnone
         have hs1 := countSlurmStates_desired
         have hs2 := countSlurmStates_available
         dsimp only at hrec hnone ⊢
         try simp only [hs1, hs2] at hrec
         omega)

theorem syncNodeSetStatus_computed {σ τ : Type} (nsc : defaultNodeSetControl σ τ) (d : Deps)
    (deps : SlurmDeps) (sd : SyncDeps) (st : StatusDeps) (remote : σ) (kube : τ)
    (nodeset : NodeSet) (nodes : List Node) (m : NodeToPods) (collisionCount : Int)
    (hash : String) (updateObservedGen : Bool) (now : Time) (status : NodeSetStatus)
    (h : (syncNodeSetStatus nsc d deps sd st remote kube nodeset nodes m collisionCount hash
      updateObservedGen now).computed = some status) :
    ∃ selector,
      (statusLoop nsc d deps sd st kube nodeset m hash now nodes ⟨none, {}, [], remote⟩).err = none
      ∧ status = computedStatus nodeset
          (statusLoop nsc d deps sd st kube nodeset m hash now nodes ⟨none, {}, [], remote⟩).counts
          collisionCount hash updateObservedGen selector := by
  unfold syncNodeSetStatus at h
  cases hsel : st.selectorString nodeset with
  | error err => rw [hsel] at h; simp at h
  | ok selector =>
    rw [hsel] at h
    simp only at h
    cases hloop : (statusLoop nsc d deps sd st kube nodeset m hash now nodes
        ⟨none, {}, [], remote⟩).err with
    | some err => rw [hloop] at h; simp at h
    | none =>
      rw [hloop] at h
      simp only at h
      refine ⟨selector, rfl, ?_⟩
      split at h
      · simp only [Option.some.injEq] at h; exact h.symm
      · simp only [Option.some.injEq] at h; exact h.symm

theorem wrap32_of_range (x : Int) (h1 : -2 ^ 31 ≤ x) (h2 : x < 2 ^ 31) : wrap32 x = x := by
  unfold wrap32
  omega

/-- C17, as stated, fails: with `replicas` the least 32-bit integer and two
nodes that each hold an available pod, the computed status has
`DesiredNumberScheduled = -2147483648`, `NumberAvailable = 2` and
`NumberUnavailable = 2147483646`, which is not their difference. -/
theorem syncNodeSetStatus_unavailable_wraps :
    (syncNodeSetStatus statusControl refDeps refSlurmDeps refSyncDeps refStatusDeps [] []
        minReplicas [nodeA, nodeB] [(nodeA, [podA]), (nodeB, [podB])] 0 "new" false 100).computed
        = some minReplicasStatus
      ∧ minReplicasStatus.NumberUnavailable
        ≠ minReplicasStatus.DesiredNumberScheduled - minReplicasStatus.NumberAvailable := by
  refine ⟨by rfl, by decide⟩

/-- C17, amended: whenever `syncNodeSetStatus` gets to compute a status, the
status it hands to `updateStatus` has as `NumberUnavailable` the difference
`DesiredNumberScheduled - NumberAvailable` of 32-bit integers: it is the
difference itself whenever that lies between `-2^31` and `2^31 - 1`, which is
so for fewer than `2^31` listed nodes when `spec.replicas` is not set or is
not negative. `DesiredNumberScheduled` is `spec.replicas` when that is set and
the number of listed nodes that should run a pod otherwise. -/
theorem syncNodeSetStatus_unavailable {σ τ : Type} (nsc : defaultNodeSetControl σ τ) (d : Deps)
    (deps : SlurmDeps) (sd : SyncDeps) (st : StatusDeps) (remote : σ) (kube : τ)
    (nodeset : NodeSet) (nodes : List Node) (m : NodeToPods) (collisionCount : Int)
    (hash : String) (updateObservedGen : Bool) (now : Time) (status : NodeSetStatus)
    (h : (syncNodeSetStatus nsc d deps sd st remote kube nodeset nodes m collisionCount hash
      updateObservedGen now).computed = some status) :
    status.NumberUnavailable = wrap32 (status.DesiredNumberScheduled - status.NumberAvailable)
      ∧ (-2 ^ 31 ≤ status.DesiredNumberScheduled - status.NumberAvailable →
          status.DesiredNumberScheduled - status.NumberAvailable < 2 ^ 31 →
          status.NumberUnavailable = status.DesiredNumberScheduled - status.NumberAvailable)
      ∧ (∀ replicas, nodeset.Spec.Replicas = some replicas →
          status.DesiredNumberScheduled = replicas
            ∧ (0 ≤ replicas → replicas < 2 ^ 31 → (nodes.length : Int) < 2 ^ 31 →
                status.NumberUnavailable = replicas - status.NumberAvailable))
      ∧ (nodeset.Spec.Replicas = none →
          status.DesiredNumberScheduled
              = (nodes.countP (fun node => d.nodeShouldRunNodeSetPod node nodeset) : Int)
            ∧ ((nodes.length : Int) < 2 ^ 31 →
                status.NumberUnavailable
                  = status.DesiredNumberScheduled - status.NumberAvailable)) := by
  obtain ⟨selector, hloop, hstatus⟩ := syncNodeSetStatus_computed nsc d deps sd st remote kube
    nodeset nodes m collisionCount hash updateObservedGen now status h
  obtain ⟨hdesired, hlow, hhigh⟩ := statusLoop_counts nsc d deps sd st kube nodeset m hash now
    nodes ⟨none, {}, [], remote⟩ hloop
  simp only [zero_add] at hdesired hlow hhigh
  have hcount : ((nodes.countP (fun node => d.nodeShouldRunNodeSetPod node nodeset) : Nat) : Int)
      ≤ (nodes.length : Int) := by
    exact_mod_cast List.countP_le_length _
  have hav : status.NumberAvailable
      = (statusLoop nsc d deps sd st kube nodeset m hash now nodes
          ⟨none, {}, [], remote⟩).counts.numberAvailable := by
    rw [hstatus]; rfl
  have hun : status.NumberUnavailable
      = wrap32 (status.DesiredNumberScheduled - status.NumberAvailable) := by
    rw [hstatus]; rfl
  rw [← hav] at hlow hhigh
  refine ⟨hun, ?_, ?_, ?_⟩
  · intro h1 h2
    rw [hun, wrap32_of_range _ h1 h2]
  · intro replicas hr
    have hdes : status.DesiredNumberScheduled = replicas := by
      rw [hstatus]; simp [computedStatus, hr]
    refine ⟨hdes, ?_⟩
    intro h0 h1 hn
    rw [hun, hdes, wrap32_of_range _ (by omega) (by omega)]
  · intro hr
    have hdes : status.DesiredNumberScheduled
        = (nodes.countP (fun node => d.nodeShouldRunNodeSetPod node nodeset) : Int) := by
      rw [hstatus]
      simp only [computedStatus, hr]
      rw [hdesired]
    refine ⟨hdes, ?_⟩
    intro hn
    rw [hun, wrap32_of_range _ (by omega) (by omega)]

/-- Witness of the amended C17: `replicas = 1` over two nodes that each hold an
available pod. -/
theorem syncNodeSetStatus_unavailable_witness :
    (syncNodeSetStatus statusControl refDeps refSlurmDeps refSyncDeps refStatusDeps [] []
        oneReplica [nodeA, nodeB] [(nodeA, [podA]), (nodeB, [podB])] 0 "new" false 100).computed
        = some oneReplicaStatus
      ∧ oneReplicaStatus.NumberUnavailable
        = oneReplicaStatus.DesiredNumberScheduled - oneReplicaStatus.NumberAvailable :=
  ⟨by rfl, (syncNodeSetStatus_unavailable statusControl refDeps refSlurmDeps refSyncDeps
      refStatusDeps [] [] oneReplica [nodeA, nodeB] [(nodeA, [podA]), (nodeB, [podB])] 0 "new"
      false 100 oneReplicaStatus (by rfl)).2.1 (by decide) (by decide)⟩

/-- C18, as stated, fails: with `replicas = 1` and two nodes that each hold an
available pod, the computed status has `NumberAvailable = 2`,
`DesiredNumberScheduled = 1` and `NumberUnavailable = -1`. -/
theorem syncNodeSetStatus_unavailable_negative :
    (syncNodeSetStatus statusControl refDeps refSlurmDeps refSyncDeps refStatusDeps [] []
        oneReplica [nodeA, nodeB] [(nodeA, [podA]), (nodeB, [podB])] 0 "new" false 100).computed
        = some oneReplicaStatus
      ∧ oneReplicaStatus.NumberUnavailable < 0
      ∧ ¬ (oneReplicaStatus.NumberAvailable ≤ oneReplicaStatus.DesiredNumberScheduled) := by
  refine ⟨by rfl, by decide, by decide⟩

/-- C18, amended: in the status computed by `syncNodeSetStatus` over fewer than
`2^31` listed nodes, `NumberAvailable` is at most the number of listed nodes
that should run a pod; so `NumberUnavailable` is not negative when
`spec.replicas` is not set. When `spec.replicas` is set, `NumberUnavailable`
is `replicas - NumberAvailable` as a 32-bit integer; whenever
`replicas - NumberAvailable` is at least `-2^31` it is that difference, not
negative exactly when `NumberAvailable` is at most `replicas`. -/
theorem syncNodeSetStatus_unavailable_sign {σ τ : Type} (nsc : defaultNodeSetControl σ τ)
    (d : Deps) (deps : SlurmDeps) (sd : SyncDeps) (st : StatusDeps) (remote : σ) (kube : τ)
    (nodeset : NodeSet) (nodes : List Node) (m : NodeToPods) (collisionCount : Int)
    (hash : String) (updateObservedGen : Bool) (now : Time) (status : NodeSetStatus)
    (hnodes : (nodes.length : Int) < 2 ^ 31)
    (h : (syncNodeSetStatus nsc d deps sd st remote kube nodeset nodes m collisionCount hash
      updateObservedGen now).computed = some status) :
    0 ≤ status.NumberAvailable
      ∧ status.NumberAvailable
        ≤ (nodes.countP (fun node => d.nodeShouldRunNodeSetPod node nodeset) : Int)
      ∧ (nodeset.Spec.Replicas = none →
          0 ≤ status.NumberUnavailable
            ∧ status.NumberAvailable ≤ status.DesiredNumberScheduled)
      ∧ (∀ replicas, nodeset.Spec.Replicas = some replicas → replicas < 2 ^ 31 →
          status.NumberUnavailable = wrap32 (replicas - status.NumberAvailable)
            ∧ (-2 ^ 31 ≤ replicas - status.NumberAvailable →
                status.NumberUnavailable = replicas - status.NumberAvailable
                  ∧ (0 ≤ status.NumberUnavailable ↔ status.NumberAvailable ≤ replicas))) := by
  obtain ⟨selector, hloop, hstatus⟩ := syncNodeSetStatus_computed nsc d deps sd st remote kube
    nodeset nodes m collisionCount hash updateObservedGen now status h
  obtain ⟨hdesired, hlow, hhigh⟩ := statusLoop_counts nsc d deps sd st kube nodeset m hash now
    nodes ⟨none, {}, [], remote⟩ hloop
  simp only [zero_add] at hdesired hlow hhigh
  have hcount : ((nodes.countP (fun node => d.nodeShouldRunNodeSetPod node nodeset) : Nat) : Int)
      ≤ (nodes.length : Int) := by
    exact_mod_cast List.countP_le_length _
  have hav : status.NumberAvailable
      = (statusLoop nsc d deps sd st kube nodeset m hash now nodes
          ⟨none, {}, [], remote⟩).counts.numberAvailable := by
    rw [hstatus]; rfl
  have hun : status.NumberUnavailable
      = wrap32 (status.DesiredNumberScheduled - status.NumberAvailable) := by
    rw [hstatus]; rfl
  rw [← hav] at hlow hhigh
  refine ⟨hlow, hhigh, ?_, ?_⟩
  · intro hr
    have hdes : status.DesiredNumberScheduled
        = (nodes.countP (fun node => d.nodeShouldRunNodeSetPod node nodeset) : Int) := by
      rw [hstatus]
      simp only [computedStatus, hr]
      rw [hdesired]
    rw [hun, wrap32_of_range _ (by omega) (by omega)]
    constructor <;> omega
  · intro replicas hr hmax
    have hdes : status.DesiredNumberScheduled = replicas := by
      rw [hstatus]; simp [computedStatus, hr]
    rw [hun, hdes]
    refine ⟨rfl, ?_⟩
    intro hmin
    rw [wrap32_of_range _ hmin (by omega)]
    refine ⟨rfl, ?_⟩
    constructor <;> intro h1 <;> omega

/-- Witness of the amended C18: with `replicas = 1` and two available pods,
`NumberUnavailable` is `1 - 2`, and `NumberAvailable` is at most the two
nodes. -/
theorem syncNodeSetStatus_unavailable_sign_witness :
    oneReplicaStatus.NumberAvailable
        ≤ (([nodeA, nodeB].countP
            (fun node => refDeps.nodeShouldRunNodeSetPod node oneReplica) : Nat) : Int)
      ∧ oneReplicaStatus.NumberUnavailable = 1 - oneReplicaStatus.NumberAvailable :=
  ⟨(syncNodeSetStatus_unavailable_sign statusControl refDeps refSlurmDeps refSyncDeps
      refStatusDeps [] [] oneReplica [nodeA, nodeB] [(nodeA, [podA]), (nodeB, [podB])] 0 "new"
      false 100 oneReplicaStatus (by decide) (by rfl)).2.1,
   (((syncNodeSetStatus_unavailable_sign statusControl refDeps refSlurmDeps refSyncDeps
      refStatusDeps [] [] oneReplica [nodeA, nodeB] [(nodeA, [podA]), (nodeB, [podB])] 0 "new"
      false 100 oneReplicaStatus (by decide) (by rfl)).2.2.2 1 rfl (by decide)).2
        (by decide)).1⟩

/-- C19: `updateStatus` returns `nil` without calling `UpdateNodeSetStatus` for
every status equal to the stored status of the NodeSet; whenever it calls
`UpdateNodeSetStatus`, the status differs from the stored one. -/
theorem updateStatus_skips_equal {σ τ : Type} (nsc : defaultNodeSetControl σ τ) (kube : τ)
    (nodeset : NodeSet) (status : NodeSetStatus) :
    (status = nodeset.Status →
        (updateStatus nsc kube nodeset status).err = none
          ∧ (updateStatus nsc kube nodeset status).writes = []
          ∧ (updateStatus nsc kube nodeset status).kube = kube)
      ∧ ((updateStatus nsc kube nodeset status).writes ≠ [] → status ≠ nodeset.Status) := by
  have hsame : inconsistentStatus nodeset nodeset.Status = false := by
    simp [inconsistentStatus]
  have hskip : status = nodeset.Status → updateStatus nsc kube nodeset status = ⟨none, [], kube⟩ := by
    intro heq
    unfold updateStatus
    rw [heq, hsame]
    rfl
  refine ⟨?_, ?_⟩
  · intro heq
    rw [hskip heq]
    exact ⟨rfl, rfl, rfl⟩
  · intro hw heq
    rw [hskip heq] at hw
    exact hw rfl

/-- Witness of C19 on the stored status of `storedNodeSet`. -/
theorem updateStatus_skips_equal_witness :
    (updateStatus statusControl [] storedNodeSet storedNodeSet.Status).writes = [] :=
  ((updateStatus_skips_equal statusControl [] storedNodeSet storedNodeSet.Status).1 rfl).2.1

/-- C20: `inconsistentStatus` returns `false` for a status whose
`ObservedGeneration` 5 is greater than the `Generation` 3 of the NodeSet but
equal to the stored `ObservedGeneration`, and for statuses that differ from the
stored status only in `NumberDown`, only in `CollisionCount` or only in
`Selector`. -/
theorem inconsistentStatus_misses_fields :
    storedNodeSet.Status.ObservedGeneration > storedNodeSet.Generation
      ∧ inconsistentStatus storedNodeSet storedNodeSet.Status = false
      ∧ inconsistentStatus storedNodeSet { storedNodeSet.Status with NumberDown := 1 } = false
      ∧ inconsistentStatus storedNodeSet { storedNodeSet.Status with CollisionCount := some 1 }
          = false
      ∧ inconsistentStatus storedNodeSet { storedNodeSet.Status with Selector := "app=b" }
          = false
      ∧ (updateStatus statusControl [] storedNodeSet
          { storedNodeSet.Status with NumberDown := 1 }).writes = [] := by
  refine ⟨by decide, by rfl, by rfl, by rfl, by rfl, by rfl⟩

/-! ## The reason of a node -/

theorem stringsHasPrefix_iff (s pre : String) :
    stringsHasPrefix s pre = true ↔ ∃ rest : String, s = pre ++ rest := by
  unfold stringsHasPrefix
  rw [List.isPrefixOf_iff_prefix]
  constructor
  · rintro ⟨t, ht⟩
    refine ⟨String.mk t, ?_⟩
    apply String.ext
    rw [String.data_append, ← ht]
  · rintro ⟨rest, hrest⟩
    refine ⟨rest.data, ?_⟩
    rw [hrest, String.data_append]

theorem prefixedReason_ours (reason : String) :
    prefixedReason reason = ""
      ∨ stringsHasPrefix (prefixedReason reason) nodeReasonPrefix = true := by
  unfold prefixedReason
  split
  · right
    rw [stringsHasPrefix_iff]
    exact ⟨" " ++ reason, by rw [String.append_assoc]⟩
  · left; rfl

theorem MakeNodeDrain_updates {σ : Type} (r : realSlurmControl σ) (deps : SlurmDeps) (remote : σ)
    (nodeset : NodeSet) (pod : Pod) (reason : String) (u : V0044Node × V0044UpdateNodeMsg)
    (hu : u ∈ (MakeNodeDrain r deps remote nodeset pod reason).updates) :
    u.2 = drainRequest reason := by
  unfold MakeNodeDrain at hu
  repeat' split at hu
  all_goals (try simp only [] at hu)
  all_goals (try split_ifs at hu)
  all_goals simp_all

theorem MakeNodeUndrain_updates {σ : Type} (r : realSlurmControl σ) (deps : SlurmDeps)
    (remote : σ) (nodeset : NodeSet) (pod : Pod) (reason : String)
    (u : V0044Node × V0044UpdateNodeMsg)
    (hu : u ∈ (MakeNodeUndrain r deps remote nodeset pod reason).updates) :
    u.2 = undrainRequest reason := by
  unfold MakeNodeUndrain at hu
  repeat' split at hu
  all_goals (try simp only [] at hu)
  all_goals (try split_ifs at hu)
  all_goals simp_all

theorem IsNodeReasonOurs_found {σ : Type} (r : realSlurmControl σ) (deps : SlurmDeps) (remote : σ)
    (nodeset : NodeSet) (pod : Pod) (slurmClient : Client σ) (slurmNode : V0044Node)
    (hclient : r.lookupClient nodeset = some slurmClient)
    (hget : slurmClient.Get remote (deps.GetNodeName pod) = .ok slurmNode) :
    IsNodeReasonOurs r deps remote nodeset pod
      = (!(slurmNode.Reason.getD "" != ""
            && !stringsHasPrefix (slurmNode.Reason.getD "") nodeReasonPrefix), none) := by
  unfold IsNodeReasonOurs
  simp only [hclient, hget]
  split
  all_goals simp_all
  all_goals tauto

/-- C21: when a client is registered for the NodeSet and the lookup of the
Slurm node succeeds, `IsNodeReasonOurs` returns no error, and it returns
`false` exactly when the reason of the node is present, not empty and does not
begin with `slurm-operator:`. It returns `true` when the reason is absent or
empty, when the reason is the text `MakeNodeDrain` and `MakeNodeUndrain` build
from any caller reason, and when the reason is the one carried by any update
that `MakeNodeDrain` or `MakeNodeUndrain` issues. -/
theorem IsNodeReasonOurs_iff {σ : Type} (r : realSlurmControl σ) (deps : SlurmDeps) (remote : σ)
    (nodeset : NodeSet) (pod : Pod) (slurmClient : Client σ) (slurmNode : V0044Node)
    (hclient : r.lookupClient nodeset = some slurmClient)
    (hget : slurmClient.Get remote (deps.GetNodeName pod) = .ok slurmNode) :
    (IsNodeReasonOurs r deps remote nodeset pod).2 = none
      ∧ ((IsNodeReasonOurs r deps remote nodeset pod).1 = false ↔
          ∃ reason, slurmNode.Reason = some reason ∧ reason ≠ ""
            ∧ ¬ ∃ rest : String, reason = nodeReasonPrefix ++ rest)
      ∧ (slurmNode.Reason = none ∨ slurmNode.Reason = some "" →
          (IsNodeReasonOurs r deps remote nodeset pod).1 = true)
      ∧ (∀ reason, slurmNode.Reason = some (prefixedReason reason) →
          (IsNodeReasonOurs r deps remote nodeset pod).1 = true)
      ∧ (∀ (τ : Type) (r1 : realSlurmControl τ) (deps1 : SlurmDeps) (remote1 : τ)
          (nodeset1 : NodeSet) (pod1 : Pod) (reason : String)
          (u : V0044Node × V0044UpdateNodeMsg),
          u ∈ (MakeNodeDrain r1 deps1 remote1 nodeset1 pod1 reason).updates
              ∨ u ∈ (MakeNodeUndrain r1 deps1 remote1 nodeset1 pod1 reason).updates →
          slurmNode.Reason = u.2.Reason →
          (IsNodeReasonOurs r deps remote nodeset pod).1 = true) := by
  rw [IsNodeReasonOurs_found r deps remote nodeset pod slurmClient slurmNode hclient hget]
  have hwritten : ∀ reason, slurmNode.Reason = some (prefixedReason reason) →
      (!(slurmNode.Reason.getD "" != ""
        && !stringsHasPrefix (slurmNode.Reason.getD "") nodeReasonPrefix)) = true := by
    intro reason hr
    rw [hr]
    rcases prefixedReason_ours reason with h | h
    · simp [h]
    · simp [h]
  refine ⟨rfl, ?_, ?_, hwritten, ?_⟩
  · constructor
    · intro h
      cases hr : slurmNode.Reason with
      | none => simp [hr] at h
      | some reason =>
        simp only [hr, Option.getD_some] at h
        have h1 : reason ≠ "" ∧ stringsHasPrefix reason nodeReasonPrefix = false := by
          simpa using h
        refine ⟨reason, rfl, h1.1, ?_⟩
        rw [← stringsHasPrefix_iff]
        simp [h1.2]
    · rintro ⟨reason, hr, hne, hpre⟩
      rw [← stringsHasPrefix_iff] at hpre
      simp [hr, hne, hpre]
  · rintro (h | h) <;> simp [h]
  · intro τ r1 deps1 remote1 nodeset1 pod1 reason u hu hr
    apply hwritten reason
    rw [hr]
    rcases hu with hu | hu
    · rw [MakeNodeDrain_updates r1 deps1 remote1 nodeset1 pod1 reason u hu]; rfl
    · rw [MakeNodeUndrain_updates r1 deps1 remote1 nodeset1 pod1 reason u hu]; rfl

/-- Witness of C21: the node drained by the operator for `maintenance` carries
a reason of the operator. -/
theorem IsNodeReasonOurs_iff_witness :
    (IsNodeReasonOurs recordingControl refSlurmDeps [drainedWorkerA] oneReplica podA).1 = true :=
  (IsNodeReasonOurs_iff recordingControl refSlurmDeps [drainedWorkerA] oneReplica podA
    recordingClient drainedWorkerA (by rfl) (by rfl)).2.2.2.1 "maintenance" (by rfl)

/-! ## Properties of `CalculateNodeStatus` -/

theorem countFlagStates_counters (status : SlurmNodeStatus) (nodeName : String)
    (node : V0044Node) :
    (countFlagStates status nodeName node).Total = status.Total
      ∧ (countFlagStates status nodeName node).baseTotal = status.baseTotal
      ∧ (countFlagStates status nodeName node).Completing = status.Completing
          + (if setHas node.GetStateAsSet V0044NodeState.COMPLETING then 1 else 0)
      ∧ (countFlagStates status nodeName node).Drain = status.Drain
          + (if setHas node.GetStateAsSet V0044NodeState.DRAIN then 1 else 0)
      ∧ (countFlagStates status nodeName node).Fail = status.Fail
          + (if setHas node.GetStateAsSet V0044NodeState.FAIL then 1 else 0)
      ∧ (countFlagStates status nodeName node).Invalid = status.Invalid
          + (if setHas node.GetStateAsSet V0044NodeState.INVALID then 1 else 0)
      ∧ (countFlagStates status nodeName node).InvalidReg = status.InvalidReg
          + (if setHas node.GetStateAsSet V0044NodeState.INVALIDREG then 1 else 0)
      ∧ (countFlagStates status nodeName node).Maintenance = status.Maintenance
          + (if setHas node.GetStateAsSet V0044NodeState.MAINTENANCE then 1 else 0)
      ∧ (countFlagStates status nodeName node).NotResponding = status.NotResponding
          + (if setHas node.GetStateAsSet V0044NodeState.NOTRESPONDING then 1 else 0)
      ∧ (countFlagStates status nodeName node).Undrain = status.Undrain
          + (if setHas node.GetStateAsSet V0044NodeState.UNDRAIN then 1 else 0) := by
  unfold countFlagStates SlurmNodeStatus.baseTotal recordState
  simp only [apply_ite SlurmNodeStatus.Total, apply_ite SlurmNodeStatus.Allocated,
    apply_ite SlurmNodeStatus.Down, apply_ite SlurmNodeStatus.Error,
    apply_ite SlurmNodeStatus.Future, apply_ite SlurmNodeStatus.Idle,
    apply_ite SlurmNodeStatus.Mixed, apply_ite SlurmNodeStatus.Unknown,
    apply_ite SlurmNodeStatus.Completing, apply_ite SlurmNodeStatus.Drain,
    apply_ite SlurmNodeStatus.Fail, apply_ite SlurmNodeStatus.Invalid,
    apply_ite SlurmNodeStatus.InvalidReg, apply_ite SlurmNodeStatus.Maintenance,
    apply_ite SlurmNodeStatus.NotResponding, apply_ite SlurmNodeStatus.Undrain, ite_self]
  refine ⟨trivial, trivial, ?_, ?_, ?_, ?_, ?_, ?_, ?_, ?_⟩ <;> split <;> simp

theorem countBaseState_counters (status : SlurmNodeStatus) (nodeName : String)
    (node : V0044Node) :
    (countBaseState status nodeName node).Total = status.Total
      ∧ (countBaseState status nodeName node).baseTotal = status.baseTotal
          + (if hasBaseState node then 1 else 0)
      ∧ (countBaseState status nodeName node).Completing = status.Completing
      ∧ (countBaseState status nodeName node).Drain = status.Drain
      ∧ (countBaseState status nodeName node).Fail = status.Fail
      ∧ (countBaseState status nodeName node).Invalid = status.Invalid
      ∧ (countBaseState status nodeName node).InvalidReg = status.InvalidReg
      ∧ (countBaseState status nodeName node).Maintenance = status.Maintenance
      ∧ (countBaseState status nodeName node).NotResponding = status.NotResponding
      ∧ (countBaseState status nodeName node).Undrain = status.Undrain := by
  unfold countBaseState SlurmNodeStatus.baseTotal recordState hasBaseState setHasAny setHas
  simp only
  split_ifs <;> simp_all <;> omega

/-- No base-state counter decreases in the `switch` over the base states. -/
theorem countBaseState_mono (status : SlurmNodeStatus) (nodeName : String) (node : V0044Node) :
    status.Allocated ≤ (countBaseState status nodeName node).Allocated
      ∧ status.Down ≤ (countBaseState status nodeName node).Down
      ∧ status.Error ≤ (countBaseState status nodeName node).Error
      ∧ status.Future ≤ (countBaseState status nodeName node).Future
      ∧ status.Idle ≤ (countBaseState status nodeName node).Idle
      ∧ status.Mixed ≤ (countBaseState status nodeName node).Mixed
      ∧ status.Unknown ≤ (countBaseState status nodeName node).Unknown := by
  unfold countBaseState recordState
  simp only
  split_ifs <;> simp

theorem countFlagStates_base (status : SlurmNodeStatus) (nodeName : String) (node : V0044Node) :
    (countFlagStates status nodeName node).Allocated = status.Allocated
      ∧ (countFlagStates status nodeName node).Down = status.Down
      ∧ (countFlagStates status nodeName node).Error = status.Error
      ∧ (countFlagStates status nodeName node).Future = status.Future
      ∧ (countFlagStates status nodeName node).Idle = status.Idle
      ∧ (countFlagStates status nodeName node).Mixed = status.Mixed
      ∧ (countFlagStates status nodeName node).Unknown = status.Unknown := by
  unfold countFlagStates recordState
  simp only [apply_ite SlurmNodeStatus.Allocated,
    apply_ite SlurmNodeStatus.Down, apply_ite SlurmNodeStatus.Error,
    apply_ite SlurmNodeStatus.Future, apply_ite SlurmNodeStatus.Idle,
    apply_ite SlurmNodeStatus.Mixed, apply_ite SlurmNodeStatus.Unknown, ite_self]
  exact ⟨trivial, trivial, trivial, trivial, trivial, trivial, trivial⟩

theorem statesAppend_keys (m : List (String × List PodCondition)) (name : String)
    (cond : PodCondition) (entry : String × List PodCondition)
    (h : entry ∈ statesAppend m name cond) :
    entry.1 = name ∨ ∃ old ∈ m, old.1 = entry.1 := by
  unfold statesAppend at h
  split at h
  · rw [List.mem_map] at h
    obtain ⟨old, hold, heq⟩ := h
    split at heq
    · left; rw [← heq]; simp_all
    · right; exact ⟨old, hold, by rw [heq]⟩
  · rw [List.mem_append, List.mem_singleton] at h
    rcases h with h | h
    · right; exact ⟨entry, h, rfl⟩
    · left; rw [h]

theorem appendAll_ite (m : List (String × List PodCondition)) (name : String) (c : Bool)
    (cond : PodCondition) :
    appendAll m name (if c = true then [cond] else []) = if c = true then statesAppend m name cond else m := by
  cases c <;> rfl

theorem appendAll_append (m : List (String × List PodCondition)) (name : String)
    (conds1 conds2 : List PodCondition) :
    appendAll m name (conds1 ++ conds2) = appendAll (appendAll m name conds1) name conds2 := by
  unfold appendAll
  rw [List.foldl_append]

theorem countFlagStates_NodeStates (status : SlurmNodeStatus) (nodeName : String)
    (node : V0044Node) :
    (countFlagStates status nodeName node).NodeStates
      = appendAll status.NodeStates nodeName (flagConditions node) := by
  unfold countFlagStates flagConditions recordState
  simp only [apply_ite SlurmNodeStatus.NodeStates, appendAll_append, appendAll_ite]

theorem countBaseState_NodeStates (status : SlurmNodeStatus) (nodeName : String)
    (node : V0044Node) :
    (countBaseState status nodeName node).NodeStates
      = appendAll status.NodeStates nodeName (baseConditions node) := by
  unfold countBaseState baseConditions recordState
  simp only
  split_ifs <;> rfl

theorem appendAll_keys (S : String → Prop) (name : String) (hname : S name)
    (conds : List PodCondition) (m : List (String × List PodCondition))
    (h : ∀ entry ∈ m, S entry.1) :
    ∀ entry ∈ appendAll m name conds, S entry.1 := by
  induction conds generalizing m with
  | nil => exact h
  | cons cond rest ih =>
    unfold appendAll
    rw [List.foldl_cons]
    apply ih
    intro entry hentry
    rcases statesAppend_keys _ _ _ _ hentry with h1 | ⟨old, hold, h1⟩
    · rw [h1]; exact hname
    · rw [← h1]; exact h old hold

/-- The counters after one iteration of the loop of `CalculateNodeStatus`. -/
theorem calculateStep_counters (deps : SlurmDeps) (pods : List Pod) (status : SlurmNodeStatus)
    (node : V0044Node) :
    (calculateStep (pods.map deps.GetNodeName) status node).Total = status.Total
          + (if hasMatchingPod deps pods node then 1 else 0)
      ∧ (calculateStep (pods.map deps.GetNodeName) status node).baseTotal = status.baseTotal
          + (if hasMatchingPod deps pods node && hasBaseState node then 1 else 0)
      ∧ (calculateStep (pods.map deps.GetNodeName) status node).Completing = status.Completing
          + (if countsFor deps pods V0044NodeState.COMPLETING node then 1 else 0)
      ∧ (calculateStep (pods.map deps.GetNodeName) status node).Drain = status.Drain
          + (if countsFor deps pods V0044NodeState.DRAIN node then 1 else 0)
      ∧ (calculateStep (pods.map deps.GetNodeName) status node).Fail = status.Fail
          + (if countsFor deps pods V0044NodeState.FAIL node then 1 else 0)
      ∧ (calculateStep (pods.map deps.GetNodeName) status node).Invalid = status.Invalid
          + (if countsFor deps pods V0044NodeState.INVALID node then 1 else 0)
      ∧ (calculateStep (pods.map deps.GetNodeName) status node).InvalidReg = status.InvalidReg
          + (if countsFor deps pods V0044NodeState.INVALIDREG node then 1 else 0)
      ∧ (calculateStep (pods.map deps.GetNodeName) status node).Maintenance = status.Maintenance
          + (if countsFor deps pods V0044NodeState.MAINTENANCE node then 1 else 0)
      ∧ (calculateStep (pods.map deps.GetNodeName) status node).NotResponding
          = status.NotResponding
            + (if countsFor deps pods V0044NodeState.NOTRESPONDING node then 1 else 0)
      ∧ (calculateStep (pods.map deps.GetNodeName) status node).Undrain = status.Undrain
          + (if countsFor deps pods V0044NodeState.UNDRAIN node then 1 else 0) := by
  unfold calculateStep countsFor hasMatchingPod
  cases hmatch : (pods.map deps.GetNodeName).contains (node.Name.getD "")
  · simp only [hmatch]; simp
  · obtain ⟨f1, f2, f3, f4, f5, f6, f7, f8, f9, f10⟩ := countFlagStates_counters
      (countBaseState { status with Total := status.Total + 1 } (node.Name.getD "") node)
      (node.Name.getD "") node
    obtain ⟨b1, b2, b3, b4, b5, b6, b7, b8, b9, b10⟩ := countBaseState_counters
      { status with Total := status.Total + 1 } (node.Name.getD "") node
    simp only [hmatch, Bool.not_true, Bool.false_eq_true, ↓reduceIte, Bool.true_and]
    rw [f1, f2, f3, f4, f5, f6, f7, f8, f9, f10, b1, b2, b3, b4, b5, b6, b7, b8, b9, b10]
    simp [SlurmNodeStatus.baseTotal]

/-- One iteration of the loop of `CalculateNodeStatus` lowers no base-state
counter and raises their sum by at most one. -/
theorem calculateStep_base (names : List String) (status : SlurmNodeStatus) (node : V0044Node) :
    status.Allocated ≤ (calculateStep names status node).Allocated
      ∧ status.Down ≤ (calculateStep names status node).Down
      ∧ status.Error ≤ (calculateStep names status node).Error
      ∧ status.Future ≤ (calculateStep names status node).Future
      ∧ status.Idle ≤ (calculateStep names status node).Idle
      ∧ status.Mixed ≤ (calculateStep names status node).Mixed
      ∧ status.Unknown ≤ (calculateStep names status node).Unknown
      ∧ (calculateStep names status node).baseTotal ≤ status.baseTotal + 1 := by
  unfold calculateStep
  cases hmatch : names.contains (node.Name.getD "")
  · simp only [hmatch]; simp
  · obtain ⟨f1, f2, f3, f4, f5, f6, f7⟩ := countFlagStates_base
      (countBaseState { status with Total := status.Total + 1 } (node.Name.getD "") node)
      (node.Name.getD "") node
    obtain ⟨m1, m2, m3, m4, m5, m6, m7⟩ := countBaseState_mono
      { status with Total := status.Total + 1 } (node.Name.getD "") node
    have hsum := (countBaseState_counters { status with Total := status.Total + 1 }
      (node.Name.getD "") node).2.1
    simp only [hmatch, Bool.not_true, Bool.false_eq_true, ↓reduceIte]
    unfold SlurmNodeStatus.baseTotal at hsum ⊢
    rw [f1, f2, f3, f4, f5, f6, f7]
    refine ⟨m1, m2, m3, m4, m5, m6, m7, ?_⟩
    rw [hsum]
    split <;> simp

theorem calculateFold_counter (names : List String) (f : SlurmNodeStatus → Int)
    (p : V0044Node → Bool)
    (hstep : ∀ status node,
      f (calculateStep names status node) = f status + (if p node then 1 else 0))
    (items : List V0044Node) (status : SlurmNodeStatus) :
    f (items.foldl (calculateStep names) status) = f status + (items.countP p : Int) := by
  induction items generalizing status with
  | nil => simp
  | cons node rest ih =>
    rw [List.foldl_cons, ih, hstep, List.countP_cons]
    split <;> simp_all
    omega

theorem calculateFold_keys (S : String → Prop) (names : List String) (items : List V0044Node)
    (hitems : ∀ node ∈ items, names.contains (node.Name.getD "") = true → S (node.Name.getD ""))
    (status : SlurmNodeStatus) (h : ∀ entry ∈ status.NodeStates, S entry.1) :
    ∀ entry ∈ (items.foldl (calculateStep names) status).NodeStates, S entry.1 := by
  induction items generalizing status with
  | nil => exact h
  | cons node rest ih =>
    rw [List.foldl_cons]
    apply ih (fun other hother => hitems other (List.mem_cons_of_mem _ hother))
    unfold calculateStep
    cases hmatch : names.contains (node.Name.getD "")
    · simp only [hmatch]; exact h
    · simp only [hmatch, Bool.not_true, Bool.false_eq_true, ↓reduceIte]
      rw [countFlagStates_NodeStates, countBaseState_NodeStates]
      have hname := hitems node (List.mem_cons_self _ _) hmatch
      exact appendAll_keys S _ hname _ _ (appendAll_keys S _ hname _ _ h)

/-- C22: when a client is registered for the NodeSet and lists the Slurm
nodes, `CalculateNodeStatus` returns no error and counts only the listed nodes
whose name (the empty name for a node without one) is the node name of a pod
of the list: `Total` is the number of such nodes, each flag counter is the
number of such nodes that carry the flag, the sum of the seven base-state
counters is the number of such nodes that carry a base state, one node lowers
no base-state counter and raises their sum by at most one, and every key of
`NodeStates` is the node name of a pod and the name of a listed node. -/
theorem CalculateNodeStatus_counts {σ : Type} (r : realSlurmControl σ) (deps : SlurmDeps)
    (remote : σ) (nodeset : NodeSet) (pods : List Pod) (slurmClient : Client σ)
    (items : List V0044Node)
    (hclient : r.lookupClient nodeset = some slurmClient)
    (hlist : slurmClient.ListNodes remote = .ok items) :
    (CalculateNodeStatus r deps remote nodeset pods).2 = none
      ∧ (CalculateNodeStatus r deps remote nodeset pods).1.Total
          = (items.countP (hasMatchingPod deps pods) : Int)
      ∧ (CalculateNodeStatus r deps remote nodeset pods).1.Completing
          = (items.countP (countsFor deps pods V0044NodeState.COMPLETING) : Int)
      ∧ (CalculateNodeStatus r deps remote nodeset pods).1.Drain
          = (items.countP (countsFor deps pods V0044NodeState.DRAIN) : Int)
      ∧ (CalculateNodeStatus r deps remote nodeset pods).1.Fail
          = (items.countP (countsFor deps pods V0044NodeState.FAIL) : Int)
      ∧ (CalculateNodeStatus r deps remote nodeset pods).1.Invalid
          = (items.countP (countsFor deps pods V0044NodeState.INVALID) : Int)
      ∧ (CalculateNodeStatus r deps remote nodeset pods).1.InvalidReg
          = (items.countP (countsFor deps pods V0044NodeState.INVALIDREG) : Int)
      ∧ (CalculateNodeStatus r deps remote nodeset pods).1.Maintenance
          = (items.countP (countsFor deps pods V0044NodeState.MAINTENANCE) : Int)
      ∧ (CalculateNodeStatus r deps remote nodeset pods).1.NotResponding
          = (items.countP (countsFor deps pods V0044NodeState.NOTRESPONDING) : Int)
      ∧ (CalculateNodeStatus r deps remote nodeset pods).1.Undrain
          = (items.countP (countsFor deps pods V0044NodeState.UNDRAIN) : Int)
      ∧ (CalculateNodeStatus r deps remote nodeset pods).1.baseTotal
          = (items.countP (fun node => hasMatchingPod deps pods node && hasBaseState node) : Int)
      ∧ (∀ (status : SlurmNodeStatus) (node : V0044Node),
          status.Allocated ≤ (calculateStep (pods.map deps.GetNodeName) status node).Allocated
            ∧ status.Down ≤ (calculateStep (pods.map deps.GetNodeName) status node).Down
            ∧ status.Error ≤ (calculateStep (pods.map deps.GetNodeName) status node).Error
            ∧ status.Future ≤ (calculateStep (pods.map deps.GetNodeName) status node).Future
            ∧ status.Idle ≤ (calculateStep (pods.map deps.GetNodeName) status node).Idle
            ∧ status.Mixed ≤ (calculateStep (pods.map deps.GetNodeName) status node).Mixed
            ∧ status.Unknown ≤ (calculateStep (pods.map deps.GetNodeName) status node).Unknown
            ∧ (calculateStep (pods.map deps.GetNodeName) status node).baseTotal
                ≤ status.baseTotal + 1)
      ∧ (∀ entry ∈ (CalculateNodeStatus r deps remote nodeset pods).1.NodeStates,
          (∃ pod ∈ pods, deps.GetNodeName pod = entry.1)
            ∧ ∃ node ∈ items, hasMatchingPod deps pods node = true
                ∧ node.Name.getD "" = entry.1) := by
  have hcalc : CalculateNodeStatus r deps remote nodeset pods
      = (items.foldl (calculateStep (pods.map deps.GetNodeName)) {}, none) := by
    unfold CalculateNodeStatus
    simp only [hclient, hlist]
  have hfold := fun (f : SlurmNodeStatus → Int) (p : V0044Node → Bool) hstep =>
    calculateFold_counter (pods.map deps.GetNodeName) f p hstep items {}
  have hstep := calculateStep_counters deps pods
  rw [hcalc]
  refine ⟨rfl, ?_, ?_, ?_, ?_, ?_, ?_, ?_, ?_, ?_, ?_,
    fun status node => calculateStep_base _ status node, ?_⟩
  · simpa using hfold SlurmNodeStatus.Total _ (fun status node => (hstep status node).1)
  · simpa using hfold SlurmNodeStatus.Completing _ (fun status node => (hstep status node).2.2.1)
  · simpa using hfold SlurmNodeStatus.Drain _ (fun status node => (hstep status node).2.2.2.1)
  · simpa using hfold SlurmNodeStatus.Fail _ (fun status node => (hstep status node).2.2.2.2.1)
  · simpa using hfold SlurmNodeStatus.Invalid _
      (fun status node => (hstep status node).2.2.2.2.2.1)
  · simpa using hfold SlurmNodeStatus.InvalidReg _
      (fun status node => (hstep status node).2.2.2.2.2.2.1)
  · simpa using hfold SlurmNodeStatus.Maintenance _
      (fun status node => (hstep status node).2.2.2.2.2.2.2.1)
  · simpa using hfold SlurmNodeStatus.NotResponding _
      (fun status node => (hstep status node).2.2.2.2.2.2.2.2.1)
  · simpa using hfold SlurmNodeStatus.Undrain _
      (fun status node => (hstep status node).2.2.2.2.2.2.2.2.2)
  · simpa [SlurmNodeStatus.baseTotal] using hfold SlurmNodeStatus.baseTotal _
      (fun status node => (hstep status node).2.1)
  · apply calculateFold_keys
      (fun name => (∃ pod ∈ pods, deps.GetNodeName pod = name)
        ∧ ∃ node ∈ items, hasMatchingPod deps pods node = true ∧ node.Name.getD "" = name)
    · intro node hnode hmatch
      refine ⟨?_, node, hnode, hmatch, rfl⟩
      simpa using hmatch
    · intro entry hentry
      simp at hentry

/-- Witness of C22: of the two listed nodes only `worker-a` has a pod; it is
counted once, as idle and as drained, and `worker-x` leaves no trace. -/
theorem CalculateNodeStatus_counts_witness :
    (CalculateNodeStatus recordingControl refSlurmDeps [drainedWorkerA, lostWorkerX] oneReplica
        [podA]).1 = drainedAndLostStatus
      ∧ (CalculateNodeStatus recordingControl refSlurmDeps [drainedWorkerA, lostWorkerX]
          oneReplica [podA]).1.Total
        = (([drainedWorkerA, lostWorkerX].countP (hasMatchingPod refSlurmDeps [podA]) : Nat) : Int)
      ∧ [drainedWorkerA, lostWorkerX].countP (hasMatchingPod refSlurmDeps [podA]) = 1 :=
  ⟨by rfl, (CalculateNodeStatus_counts recordingControl refSlurmDeps
      [drainedWorkerA, lostWorkerX] oneReplica [podA] recordingClient
      [drainedWorkerA, lostWorkerX] (by rfl) (by rfl)).2.1, by decide⟩

/-! ## Properties of `GetNodeDeadlines` -/

/-- C23, as stated, fails: for a running job on `worker-a` and `worker-b` and
a pod list that holds only the pod of `worker-a`, the store has an entry for
`worker-b`, a node of the allocation without a pod in the list. -/
theorem GetNodeDeadlines_pushes_whole_allocation :
    GetNodeDeadlines (jobsControl [runningJob]) commaSlurmDeps [] oneReplica [podA]
        = .ok [("worker-a", 4600000000000), ("worker-b", 4600000000000)]
      ∧ "worker-b" ∉ [podA].map commaSlurmDeps.GetNodeName := by
  refine ⟨by rfl, by decide⟩

/-- The entries of a store after one `Push`. -/
theorem TimeStore.Push_mem (ts : TimeStore) (k : String) (v : Int) (key : String) (t : Int) :
    (key, t) ∈ TimeStore.Push ts k v ↔
      (key ≠ k ∧ (key, t) ∈ ts)
        ∨ (key = k ∧ ((∃ t0, (k, t0) ∈ ts ∧ t = max t0 v)
            ∨ ((∀ t0, (k, t0) ∉ ts) ∧ t = v))) := by
  unfold TimeStore.Push
  split
  next hany =>
    rw [List.any_eq_true] at hany
    obtain ⟨e0, he0, hk0⟩ := hany
    have hk0 : e0.1 = k := by simpa using hk0
    rw [List.mem_map]
    constructor
    · rintro ⟨e, he, heq⟩
      split at heq
      next hk =>
        have hk : e.1 = k := by simpa using hk
        simp only [Prod.mk.injEq] at heq
        right
        refine ⟨by rw [← heq.1, hk], Or.inl ⟨e.2, ?_, heq.2.symm⟩⟩
        rw [← hk]; exact he
      next hk =>
        have hk : e.1 ≠ k := by simpa using hk
        left
        subst heq
        exact ⟨hk, he⟩
    · rintro (⟨hne, hmem⟩ | ⟨heq, (⟨t0, hmem, ht⟩ | ⟨hnone, _⟩)⟩)
      · exact ⟨(key, t), hmem, by simp [hne]⟩
      · exact ⟨(k, t0), hmem, by simp [heq, ht]⟩
      · exact absurd (by rw [← hk0]; exact he0) (hnone e0.2)
  next hany =>
    have hnone : ∀ e ∈ ts, e.1 ≠ k := by
      intro e he hk
      apply hany
      rw [List.any_eq_true]
      exact ⟨e, he, by simp [hk]⟩
    rw [List.mem_append, List.mem_singleton, Prod.mk.injEq]
    constructor
    · rintro (hmem | ⟨hk, hv⟩)
      · left; exact ⟨hnone _ hmem, hmem⟩
      · right
        refine ⟨hk, Or.inr ⟨?_, hv⟩⟩
        intro t0 hmem
        exact hnone _ hmem rfl
    · rintro (⟨_, hmem⟩ | ⟨heq, (⟨t0, hmem, _⟩ | ⟨_, ht⟩)⟩)
      · left; exact hmem
      · exact absurd rfl (hnone _ hmem)
      · right; exact ⟨heq, ht⟩

theorem TimeStore.Agrees_push (ts : TimeStore) (pushes : List (String × Int)) (k : String)
    (v : Int) (h : ts.Agrees pushes) : (TimeStore.Push ts k v).Agrees (pushes ++ [(k, v)]) := by
  obtain ⟨h1, h2⟩ := h
  constructor
  · intro key t hmem
    rw [TimeStore.Push_mem] at hmem
    rcases hmem with ⟨hne, hmem⟩ | ⟨heq, (⟨t0, hmem, ht⟩ | ⟨hnone, ht⟩)⟩
    · obtain ⟨hp, hmax⟩ := h1 key t hmem
      refine ⟨List.mem_append_left _ hp, ?_⟩
      intro t1 ht1
      rw [List.mem_append, List.mem_singleton, Prod.mk.injEq] at ht1
      rcases ht1 with ht1 | ⟨hk, _⟩
      · exact hmax t1 ht1
      · exact absurd hk hne
    · obtain ⟨hp, hmax⟩ := h1 k t0 hmem
      subst heq
      constructor
      · rw [List.mem_append, List.mem_singleton]
        rcases le_total t0 v with hle | hle
        · right; rw [ht, max_eq_right hle]
        · left; rw [ht, max_eq_left hle]; exact hp
      · intro t1 ht1
        rw [List.mem_append, List.mem_singleton, Prod.mk.injEq] at ht1
        rcases ht1 with ht1 | ⟨_, hv⟩
        · rw [ht]; exact le_trans (hmax t1 ht1) (le_max_left _ _)
        · rw [ht, hv]; exact le_max_right _ _
    · subst heq
      constructor
      · rw [ht]; exact List.mem_append_right _ (List.mem_singleton_self _)
      · intro t1 ht1
        rw [List.mem_append, List.mem_singleton, Prod.mk.injEq] at ht1
        rcases ht1 with ht1 | ⟨_, hv⟩
        · obtain ⟨t2, ht2⟩ := h2 key t1 ht1
          exact absurd ht2 (hnone t2)
        · rw [ht, hv]
  · intro key t1 ht1
    rw [List.mem_append, List.mem_singleton, Prod.mk.injEq] at ht1
    by_cases hk : key = k
    · subst hk
      by_cases hex : ∃ t0, (key, t0) ∈ ts
      · obtain ⟨t0, ht0⟩ := hex
        exact ⟨max t0 v, (TimeStore.Push_mem ts key v key _).mpr
          (Or.inr ⟨rfl, Or.inl ⟨t0, ht0, rfl⟩⟩)⟩
      · exact ⟨v, (TimeStore.Push_mem ts key v key _).mpr
          (Or.inr ⟨rfl, Or.inr ⟨fun t0 ht0 => hex ⟨t0, ht0⟩, rfl⟩⟩)⟩
    · rcases ht1 with ht1 | ⟨hk1, _⟩
      · obtain ⟨t, ht⟩ := h2 key t1 ht1
        exact ⟨t, (TimeStore.Push_mem ts k v key t).mpr (Or.inl ⟨hk, ht⟩)⟩
      · exact absurd hk1 hk

theorem TimeStore.Agrees_foldl (more : List (String × Int)) (ts : TimeStore)
    (pushes : List (String × Int)) (h : ts.Agrees pushes) :
    (more.foldl (fun store p => TimeStore.Push store p.1 p.2) ts).Agrees (pushes ++ more) := by
  induction more generalizing ts pushes with
  | nil => simpa using h
  | cons p rest ih =>
    rw [List.foldl_cons]
    have := ih _ _ (TimeStore.Agrees_push ts pushes p.1 p.2 h)
    simpa using this

/-- When the allocation of every running job expands, the loop of
`GetNodeDeadlines` ends with the store that the pushes of the jobs build. -/
theorem deadlinesLoop_ok (deps : SlurmDeps) (slurmNodeNamesSet : List String)
    (items : List V0044JobInfo) (ts : TimeStore)
    (hexpand : ∀ job ∈ items, V0044JobInfoJobState.RUNNING ∈ job.GetStateAsSet →
      ∃ names, deps.Expand (job.Nodes.getD "") = .ok names) :
    deadlinesLoop deps slurmNodeNamesSet items ts
      = .ok ((items.flatMap (jobPushes deps slurmNodeNamesSet)).foldl
          (fun store p => TimeStore.Push store p.1 p.2) ts) := by
  induction items generalizing ts with
  | nil => rfl
  | cons job rest ih =>
    have hrest := fun store => ih store
      (fun other hother => hexpand other (List.mem_cons_of_mem _ hother))
    unfold deadlinesLoop
    rw [List.flatMap_cons, List.foldl_append]
    by_cases hrun : job.GetStateAsSet.contains V0044JobInfoJobState.RUNNING = true
    · obtain ⟨names, hnames⟩ := hexpand job (List.mem_cons_self _ _) (by simpa using hrun)
      by_cases hany : names.any (fun name => slurmNodeNamesSet.contains name) = true
      · have hp : jobPushes deps slurmNodeNamesSet job
            = names.map (fun name => (name, jobDeadline job)) := by
          unfold jobPushes
          rw [if_pos hrun, hnames]
          exact if_pos hany
        rw [hp, List.foldl_map]
        simp only [hrun, hnames, hany, Bool.not_true, Bool.false_eq_true, if_false]
        exact hrest _
      · have hp : jobPushes deps slurmNodeNamesSet job = [] := by
          unfold jobPushes
          rw [if_pos hrun, hnames]
          exact if_neg hany
        rw [hp]
        simp only [Bool.not_eq_true] at hany
        simp only [hrun, hnames, hany, Bool.not_true, Bool.not_false, Bool.false_eq_true,
          if_false, if_true, List.foldl_nil]
        exact hrest _
    · have hp : jobPushes deps slurmNodeNamesSet job = [] := by
        unfold jobPushes
        rw [if_neg hrun]
      rw [hp]
      simp only [Bool.not_eq_true] at hrun
      simp only [hrun, Bool.not_false, if_true, List.foldl_nil]
      exact hrest _

theorem jobPushes_mem (deps : SlurmDeps) (pods : List Pod) (job : V0044JobInfo) (key : String)
    (t : Int) :
    (key, t) ∈ jobPushes deps (pods.map deps.GetNodeName) job
      ↔ pushesFor deps pods job key ∧ t = jobDeadline job := by
  unfold jobPushes pushesFor
  by_cases hrun : job.GetStateAsSet.contains V0044JobInfoJobState.RUNNING = true
  · have hin : V0044JobInfoJobState.RUNNING ∈ job.GetStateAsSet := by simpa using hrun
    rw [if_pos hrun]
    cases hexp : deps.Expand (job.Nodes.getD "") with
    | error err => simp
    | ok names =>
      dsimp only
      by_cases hany : names.any (fun name => (pods.map deps.GetNodeName).contains name) = true
      · rw [if_pos hany, List.mem_map]
        rw [List.any_eq_true] at hany
        obtain ⟨name, hname, hcontains⟩ := hany
        have hpod : ∃ pod ∈ pods, deps.GetNodeName pod = name := by simpa using hcontains
        constructor
        · rintro ⟨n, hn, heq⟩
          simp only [Prod.mk.injEq] at heq
          obtain ⟨hk, ht⟩ := heq
          subst hk
          exact ⟨⟨hin, names, rfl, ⟨name, hname, hpod⟩, hn⟩, ht.symm⟩
        · rintro ⟨⟨_, names1, hn, _, hkey⟩, ht⟩
          simp only [Except.ok.injEq] at hn
          subst hn
          exact ⟨key, hkey, by rw [ht]⟩
      · rw [if_neg hany]
        simp only [List.not_mem_nil, false_iff]
        rintro ⟨⟨_, names1, hn, ⟨name, hname, pod, hpod, hp⟩, _⟩, _⟩
        simp only [Except.ok.injEq] at hn
        subst hn
        apply hany
        rw [List.any_eq_true]
        exact ⟨name, hname, by simpa using ⟨pod, hpod, hp⟩⟩
  · have hnot : V0044JobInfoJobState.RUNNING ∉ job.GetStateAsSet := by simpa using hrun
    rw [if_neg hrun]
    simp [hnot]

/-- C23, amended: when a client is registered, lists the jobs, and the
allocation of every running job expands, `GetNodeDeadlines` returns a store
whose keys are exactly the node names of the expanded allocations of the
running jobs whose allocation holds the node name of at least one pod of the
list: every node of such an allocation gets an entry, with or without a pod
of its own. The value of an entry is `startTime + timeLimit` of one of these
jobs, the greatest among those that hold the node, where the limit is the
infinite sentinel when the job says so. -/
theorem GetNodeDeadlines_store {σ : Type} (r : realSlurmControl σ) (deps : SlurmDeps)
    (remote : σ) (nodeset : NodeSet) (pods : List Pod) (slurmClient : Client σ)
    (items : List V0044JobInfo)
    (hclient : r.lookupClient nodeset = some slurmClient)
    (hjobs : slurmClient.ListJobs remote = .ok items)
    (hexpand : ∀ job ∈ items, V0044JobInfoJobState.RUNNING ∈ job.GetStateAsSet →
      ∃ names, deps.Expand (job.Nodes.getD "") = .ok names) :
    ∃ ts, GetNodeDeadlines r deps remote nodeset pods = .ok ts
      ∧ (∀ key, (∃ t, (key, t) ∈ ts) ↔ ∃ job ∈ items, pushesFor deps pods job key)
      ∧ (∀ key t, (key, t) ∈ ts →
          (∃ job ∈ items, pushesFor deps pods job key ∧ t = jobDeadline job)
            ∧ ∀ job ∈ items, pushesFor deps pods job key → jobDeadline job ≤ t)
      ∧ (∀ job : V0044JobInfo,
          jobDeadline job
            = ((job.StartTime.getD {}).Number.getD 0) * 1000000000
              + (if (job.TimeLimit.getD {}).Infinite.getD false = true then infiniteDuration
                 else wrap64 (((job.TimeLimit.getD {}).Number.getD 0) * timeMinute))) := by
  have hmem : ∀ key t, (key, t) ∈ items.flatMap (jobPushes deps (pods.map deps.GetNodeName))
      ↔ ∃ job ∈ items, pushesFor deps pods job key ∧ t = jobDeadline job := by
    intro key t
    rw [List.mem_flatMap]
    constructor
    · rintro ⟨job, hjob, hp⟩
      exact ⟨job, hjob, (jobPushes_mem deps pods job key t).mp hp⟩
    · rintro ⟨job, hjob, hp⟩
      exact ⟨job, hjob, (jobPushes_mem deps pods job key t).mpr hp⟩
  have hagree := TimeStore.Agrees_foldl
    (items.flatMap (jobPushes deps (pods.map deps.GetNodeName))) [] []
    ⟨fun _ _ h => absurd h (List.not_mem_nil _), fun _ _ h => absurd h (List.not_mem_nil _)⟩
  rw [List.nil_append] at hagree
  obtain ⟨h1, h2⟩ := hagree
  refine ⟨(items.flatMap (jobPushes deps (pods.map deps.GetNodeName))).foldl
    (fun store p => TimeStore.Push store p.1 p.2) [], ?_, ?_, ?_, ?_⟩
  · unfold GetNodeDeadlines
    simp only [hclient, hjobs]
    exact deadlinesLoop_ok deps _ items [] hexpand
  · intro key
    constructor
    · rintro ⟨t, ht⟩
      obtain ⟨job, hjob, hp, _⟩ := (hmem key t).mp (h1 key t ht).1
      exact ⟨job, hjob, hp⟩
    · rintro ⟨job, hjob, hp⟩
      exact h2 key (jobDeadline job) ((hmem key _).mpr ⟨job, hjob, hp, rfl⟩)
  · intro key t ht
    refine ⟨(hmem key t).mp (h1 key t ht).1, ?_⟩
    intro job hjob hp
    exact (h1 key t ht).2 _ ((hmem key _).mpr ⟨job, hjob, hp, rfl⟩)
  · intro job
    rfl

/-- Witness of the amended C23 on the running job of `worker-a` and
`worker-b` with the pod of `worker-a`. -/
theorem GetNodeDeadlines_store_witness :
    ∃ ts, GetNodeDeadlines (jobsControl [runningJob]) commaSlurmDeps [] oneReplica [podA] = .ok ts
      ∧ (∀ key, (∃ t, (key, t) ∈ ts)
          ↔ ∃ job ∈ [runningJob], pushesFor commaSlurmDeps [podA] job key) := by
  obtain ⟨ts, h1, h2, _⟩ := GetNodeDeadlines_store (jobsControl [runningJob]) commaSlurmDeps []
    oneReplica [podA] (jobsClient [runningJob]) [runningJob] (by rfl) (by rfl)
    (by
      intro job hjob _
      rw [List.mem_singleton] at hjob
      subst hjob
      exact ⟨["worker-a", "worker-b"], by rfl⟩)
  exact ⟨ts, h1, h2⟩

/-! ## The template generation -/

theorem countNodePods_nil_generation (d : Deps) (st : StatusDeps) (nodeset : NodeSet)
    (m : NodeToPods) (hash : String) (now : Time) (counts : StatusCounts) (node : Node)
    (err : GoError) (herr : GetTemplateGeneration st nodeset = .error err) :
    countNodePods d st nodeset m hash now counts node
      = countNodePods d st.withNilGeneration nodeset m hash now counts node := by
  have herr1 : GetTemplateGeneration st.withNilGeneration nodeset = .error err := herr
  unfold countNodePods
  simp only [herr, herr1]
  rfl

theorem statusLoop_nil_generation {σ τ : Type} (nsc : defaultNodeSetControl σ τ) (d : Deps)
    (deps : SlurmDeps) (sd : SyncDeps) (st : StatusDeps) (kube : τ) (nodeset : NodeSet)
    (m : NodeToPods) (hash : String) (now : Time) (err : GoError)
    (herr : GetTemplateGeneration st nodeset = .error err) (nodes : List Node)
    (acc : StatusLoop σ) :
    statusLoop nsc d deps sd st kube nodeset m hash now nodes acc
      = statusLoop nsc d deps sd st.withNilGeneration kube nodeset m hash now nodes acc := by
  induction nodes generalizing acc with
  | nil => rfl
  | cons node rest ih =>
    unfold statusLoop
    simp only [countNodePods_nil_generation d st nodeset m hash now _ node err herr, ih]
    rfl

/-- Without a Slurm client the loop of `syncNodeSetStatus` ends without a new
error. -/
theorem statusLoop_no_client {σ τ : Type} (nsc : defaultNodeSetControl σ τ) (d : Deps)
    (deps : SlurmDeps) (sd : SyncDeps) (st : StatusDeps) (kube : τ) (nodeset : NodeSet)
    (m : NodeToPods) (hash : String) (now : Time)
    (hnone : nsc.slurmClusters (clusterNameOf nodeset) = none) (nodes : List Node)
    (acc : StatusLoop σ) :
    (statusLoop nsc d deps sd st kube nodeset m hash now nodes acc).err = acc.err := by
  induction nodes generalizing acc with
  | nil => rfl
  | cons node rest ih =>
    unfold statusLoop
    simp only [hnone]
    rw [ih]

/-- C24: `GetTemplateGeneration` returns `(nil, nil)` when the template
generation annotation is absent, the parsed value when `strconv.ParseInt`
accepts the annotation, and `(nil, err)` with the error of `strconv.ParseInt`
otherwise. In the error case a pass of `syncNodeSetStatus` is the pass in
which every pod is compared through `IsPodUpdated` with a `nil` generation,
and the error does not end the pass: when the label selector resolves and no
Slurm client is registered, the pass computes the status and hands it to
`updateStatus`. -/
theorem GetTemplateGeneration_cases (st : StatusDeps) (nodeset : NodeSet) :
    (annotationOf nodeset.Annotations DeprecatedTemplateGeneration = none →
        GetTemplateGeneration st nodeset = .ok none)
      ∧ (∀ annotation generation,
          annotationOf nodeset.Annotations DeprecatedTemplateGeneration = some annotation →
          st.ParseInt annotation = .ok generation →
          GetTemplateGeneration st nodeset = .ok (some generation))
      ∧ (∀ annotation err,
          annotationOf nodeset.Annotations DeprecatedTemplateGeneration = some annotation →
          st.ParseInt annotation = .error err →
          GetTemplateGeneration st nodeset = .error err)
      ∧ (∀ err, GetTemplateGeneration st nodeset = .error err →
          ∀ (σ τ : Type) (nsc : defaultNodeSetControl σ τ) (d : Deps) (deps : SlurmDeps)
            (sd : SyncDeps) (remote : σ) (kube : τ) (nodes : List Node) (m : NodeToPods)
            (collisionCount : Int) (hash : String) (updateObservedGen : Bool) (now : Time),
            syncNodeSetStatus nsc d deps sd st remote kube nodeset nodes m collisionCount hash
                updateObservedGen now
              = syncNodeSetStatus nsc d deps sd st.withNilGeneration remote kube nodeset nodes m
                  collisionCount hash updateObservedGen now
            ∧ (∀ selector, st.selectorString nodeset = .ok selector →
                nsc.slurmClusters (clusterNameOf nodeset) = none →
                (syncNodeSetStatus nsc d deps sd st remote kube nodeset nodes m collisionCount
                    hash updateObservedGen now).computed
                  = some (computedStatus nodeset
                      (statusLoop nsc d deps sd st kube nodeset m hash now nodes
                        ⟨none, {}, [], remote⟩).counts
                      collisionCount hash updateObservedGen selector))) := by
  refine ⟨?_, ?_, ?_, ?_⟩
  · intro h
    unfold GetTemplateGeneration
    rw [h]
  · intro annotation generation h hparse
    unfold GetTemplateGeneration
    rw [h]
    simp only [hparse]
  · intro annotation err h hparse
    unfold GetTemplateGeneration
    rw [h]
    simp only [hparse]
  · intro err herr σ τ nsc d deps sd remote kube nodes m collisionCount hash updateObservedGen now
    constructor
    · unfold syncNodeSetStatus
      rw [statusLoop_nil_generation nsc d deps sd st kube nodeset m hash now err herr]
      rfl
    · intro selector hsel hnone
      have hloop := statusLoop_no_client nsc d deps sd st kube nodeset m hash now hnone nodes
        ⟨none, {}, [], remote⟩
      unfold syncNodeSetStatus
      simp only [hsel]
      simp only at hloop
      rw [hloop]
      simp only
      split <;> rfl

/-- Witness of C24: the annotation `seven` is not a number, and the pass over
`node-a` still computes the status. -/
theorem GetTemplateGeneration_cases_witness :
    GetTemplateGeneration refStatusDeps malformedGeneration = .error "invalid syntax"
      ∧ (syncNodeSetStatus statusControl refDeps refSlurmDeps refSyncDeps refStatusDeps [] []
          malformedGeneration [nodeA] [(nodeA, [podA])] 0 "new" false 100).computed
        = some malformedGenerationStatus :=
  ⟨(GetTemplateGeneration_cases refStatusDeps malformedGeneration).2.2.1 "seven"
      "invalid syntax" (by rfl) (by rfl),
   ((((GetTemplateGeneration_cases refStatusDeps malformedGeneration).2.2.2 "invalid syntax"
      (by rfl)) (List V0044Node) (List Pod) statusControl refDeps refSlurmDeps refSyncDeps
      [] [] [nodeA] [(nodeA, [podA])] 0 "new" false 100).2 "app.kubernetes.io/name=slurmd"
      (by rfl) (by rfl)).trans (by rfl)⟩

/-! ## Properties of the event handler -/

theorem nodeSetsForControllerLoop_eq (ed : EventDeps) (controller : Controller)
    (items out : List NodeSet) :
    nodeSetsForControllerLoop ed controller items out
      = out ++ items.filter (referencesController ed controller) := by
  induction items generalizing out with
  | nil => simp [nodeSetsForControllerLoop]
  | cons item rest ih =>
    unfold nodeSetsForControllerLoop
    by_cases h : ed.IsMatch item.Spec.ControllerRef (ed.NamespacedName controller) = true
    · rw [if_pos h, ih, List.filter_cons_of_pos (by exact h)]
      simp
    · rw [if_neg h, ih, List.filter_cons_of_neg (by exact h)]

theorem enqueueLoop_eq (items : List NodeSet) (q : RequestQueue) :
    enqueueLoop items q = q ++ items := by
  induction items generalizing q with
  | nil => simp [enqueueLoop]
  | cons item rest ih =>
    unfold enqueueLoop
    rw [ih]
    simp

theorem enqueueRequest_controller (e : ControllerEventHandler) (ed : EventDeps)
    (controller : Controller) (items : List NodeSet) (q : RequestQueue)
    (hlist : e.refResolver.reader.ListNodeSets = .ok items) :
    e.enqueueRequest ed (.controller controller) q
      = q ++ items.filter (referencesController ed controller) := by
  unfold ControllerEventHandler.enqueueRequest RefResolver.GetNodeSetsForController
  simp only [hlist]
  rw [enqueueLoop_eq, nodeSetsForControllerLoop_eq, List.nil_append]

/-- C25: when the reader lists the NodeSets `items`, the methods `Create`,
`Update` and `Delete` of the handler, called with an event whose object is a
Controller, add to the queue the NodeSets of `items` that reference the
Controller, each as often as it is listed, and no other: one request for
each when the listed NodeSets are distinct, so that the queue grows by the
number of referencing NodeSets. The method `Generic` adds nothing. -/
theorem ControllerEventHandler_enqueues (e : ControllerEventHandler) (ed : EventDeps)
    (controller : Controller) (items : List NodeSet) (q : RequestQueue)
    (hlist : e.refResolver.reader.ListNodeSets = .ok items) :
    e.Create ed ⟨.controller controller⟩ q
        = q ++ items.filter (referencesController ed controller)
      ∧ (∀ old, e.Update ed ⟨old, .controller controller⟩ q
          = q ++ items.filter (referencesController ed controller))
      ∧ e.Delete ed ⟨.controller controller⟩ q
          = q ++ items.filter (referencesController ed controller)
      ∧ (∀ item, (q ++ items.filter (referencesController ed controller)).count item
          = q.count item
            + (if referencesController ed controller item then items.count item else 0))
      ∧ (items.Nodup → ∀ item ∈ items,
          (items.filter (referencesController ed controller)).count item
            = if referencesController ed controller item then 1 else 0)
      ∧ (q ++ items.filter (referencesController ed controller)).length
          = q.length + items.countP (referencesController ed controller)
      ∧ (∀ evt, e.Generic ed evt q = q) := by
  have hcount : ∀ item, (items.filter (referencesController ed controller)).count item
      = if referencesController ed controller item then items.count item else 0 := by
    intro item
    by_cases h : referencesController ed controller item = true
    · rw [if_pos h, List.count_filter h]
    · rw [if_neg h, List.count_eq_zero]
      intro hmem
      exact h (List.mem_filter.mp hmem).2
  refine ⟨enqueueRequest_controller e ed controller items q hlist,
    fun _ => enqueueRequest_controller e ed controller items q hlist,
    enqueueRequest_controller e ed controller items q hlist, ?_, ?_, ?_, fun _ => rfl⟩
  · intro item
    rw [List.count_append, hcount]
  · intro hnodup item hitem
    rw [hcount, List.count_eq_one_of_mem hnodup hitem]
  · rw [List.length_append, List.countP_eq_length_filter]

/-- Witness of C25 on the objects of `Test_ControllerEventHandler_Create`:
no, one and two NodeSets that reference `slurm1` give no, one and two
requests. -/
theorem ControllerEventHandler_enqueues_witness :
    (NewControllerEventHandler ⟨.ok [nodesetA, nodesetB, nodeset2A]⟩).Create refEventDeps
        ⟨.controller controller1⟩ [] = [nodesetA, nodesetB]
      ∧ (NewControllerEventHandler ⟨.ok [nodesetA, nodeset2A]⟩).Create refEventDeps
        ⟨.controller controller1⟩ [] = [nodesetA]
      ∧ (NewControllerEventHandler ⟨.ok []⟩).Create refEventDeps
        ⟨.controller controller1⟩ [] = [] :=
  ⟨((ControllerEventHandler_enqueues (NewControllerEventHandler
      ⟨.ok [nodesetA, nodesetB, nodeset2A]⟩) refEventDeps controller1
      [nodesetA, nodesetB, nodeset2A] [] (by rfl)).1).trans (by rfl),
   ((ControllerEventHandler_enqueues (NewControllerEventHandler
      ⟨.ok [nodesetA, nodeset2A]⟩) refEventDeps controller1
      [nodesetA, nodeset2A] [] (by rfl)).1).trans (by rfl),
   ((ControllerEventHandler_enqueues (NewControllerEventHandler ⟨.ok []⟩) refEventDeps
      controller1 [] [] (by rfl)).1).trans (by rfl)⟩

/-! ## The length of the delete list -/

theorem rollingStep_candidates_open (d : Deps) (nodeset : NodeSet) (hash : String) (now : Time)
    (maxUnavailable : Int) (st : RollingState) (e : Node × List Pod)
    (hopen : st.numUnavailable < maxUnavailable) :
    (rollingStep d nodeset hash now maxUnavailable st e).candidatePodsToDelete
      = st.candidatePodsToDelete ++ (optionalReplacePodOf d nodeset hash now e).toList := by
  have hnot : ¬ st.numUnavailable ≥ maxUnavailable := by omega
  unfold rollingStep optionalReplacePodOf mustReplace
  rcases hf : d.findUpdatedPodsOnNode nodeset e.2 hash with ⟨_ | np, _ | op, _ | _⟩ <;>
    simp <;> (repeat' split) <;> simp_all

theorem rollingFold_candidates_open (d : Deps) (nodeset : NodeSet) (hash : String) (now : Time)
    (maxUnavailable : Int) (entries : List (Node × List Pod)) (st : RollingState)
    (hopen : (entries.foldl (rollingStep d nodeset hash now maxUnavailable) st).numUnavailable
      < maxUnavailable) :
    (entries.foldl (rollingStep d nodeset hash now maxUnavailable) st).candidatePodsToDelete
      = st.candidatePodsToDelete ++ entries.filterMap (optionalReplacePodOf d nodeset hash now) := by
  induction entries generalizing st with
  | nil => simp
  | cons e es ih =>
    rw [List.foldl_cons] at hopen ⊢
    have hfold := rollingFold_numUnavailable d nodeset hash now maxUnavailable es
      (rollingStep d nodeset hash now maxUnavailable st e)
    have hstep := rollingStep_numUnavailable d nodeset hash now maxUnavailable st e
    have hst : st.numUnavailable < maxUnavailable := by
      have h1 : (0 : Int) ≤ (if hasExcessPods d nodeset hash e = true then 1 else 0) := by
        split <;> decide
      have h2 : (0 : Int) ≤ (if newPodUnavailable d nodeset hash now e = true then 1 else 0) := by
        split <;> decide
      omega
    rw [ih _ hopen, rollingStep_candidates_open d nodeset hash now maxUnavailable st e hst,
      List.filterMap_cons]
    cases optionalReplacePodOf d nodeset hash now e <;> simp

theorem rollingLoop_delete_length (d : Deps) (nodeset : NodeSet) (hash : String) (now : Time)
    (maxUnavailable : Int) (entries : List (Node × List Pod)) :
    ((oldPodsToDelete maxUnavailable
        (rollingLoop d nodeset hash now maxUnavailable entries)).length : Int)
      = deleteCount d nodeset hash now maxUnavailable entries := by
  have hnum : (rollingLoop d nodeset hash now maxUnavailable entries).numUnavailable
      = (unavailableNodes d nodeset hash now entries : Int) := by
    unfold rollingLoop unavailableNodes
    rw [rollingFold_numUnavailable]
    simp
  have hallowed : (rollingLoop d nodeset hash now maxUnavailable entries).allowedReplacementPods.length
      = mustReplaceCount d nodeset hash now entries := by
    unfold rollingLoop mustReplaceCount
    rw [rollingFold_allowed]
    simp
  unfold oldPodsToDelete deleteCount
  rw [List.length_append, List.length_take, hallowed]
  by_cases hopen : (rollingLoop d nodeset hash now maxUnavailable entries).numUnavailable
      < maxUnavailable
  · have hcand : (rollingLoop d nodeset hash now maxUnavailable entries).candidatePodsToDelete.length
        = optionalReplaceCount d nodeset hash now entries := by
      unfold rollingLoop optionalReplaceCount at *
      rw [rollingFold_candidates_open d nodeset hash now maxUnavailable entries _ hopen]
      simp
    rw [hcand]
    rw [hnum] at hopen
    unfold remainingUnavailable
    simp only [hcand, hnum]
    push_cast
    split_ifs <;> omega
  · rw [hnum] at hopen
    have hzero : remainingUnavailable maxUnavailable
        (rollingLoop d nodeset hash now maxUnavailable entries) = 0 := by
      have := (remainingUnavailable_le maxUnavailable
        (rollingLoop d nodeset hash now maxUnavailable entries)).1
      rw [hnum] at this
      omega
    rw [hzero]
    push_cast
    omega

theorem deleteCount_perm (d : Deps) (nodeset : NodeSet) (hash : String) (now : Time)
    (maxUnavailable : Int) (entries order : List (Node × List Pod)) (hperm : order.Perm entries) :
    deleteCount d nodeset hash now maxUnavailable order
      = deleteCount d nodeset hash now maxUnavailable entries := by
  unfold deleteCount mustReplaceCount optionalReplaceCount unavailableNodes
  rw [(hperm.filterMap _).length_eq, (hperm.filterMap _).length_eq, hperm.countP_eq,
    hperm.countP_eq]

/-- In every pass of `syncNodeSetRollingUpdate` that reaches
`syncNodeSetPods`, the length of the delete list is the number of must-replace
pods of the filtered nodes plus the smaller of the number of their
optional-replace pods and `max(0, maxUnavailable - numUnavailable)`, where
`numUnavailable` is the final count over all filtered nodes. The length is the
same for every order in which the main loop visits the filtered map, and the
bound of the slice `candidatePodsToDelete[:remainingUnavailable]` is not
negative and at most the length of `candidatePodsToDelete`. -/
theorem syncNodeSetRollingUpdate_delete_count (d : Deps) (it : MapIteration) (nodeset : NodeSet)
    (nodes : List Node) (m : NodeToPods) (hash : String) (now : Time) (pass : RollingPass)
    (hv : it.Valid)
    (h : syncNodeSetRollingUpdate d it nodeset nodes m hash now = .ok pass) :
    (pass.oldPodsToDelete.length : Int)
        = (mustReplaceCount d nodeset hash now pass.filtered : Int)
          + min (optionalReplaceCount d nodeset hash now pass.filtered : Int)
              (max 0 (pass.maxUnavailable - pass.state.numUnavailable))
      ∧ pass.state.numUnavailable = (unavailableNodes d nodeset hash now pass.filtered : Int)
      ∧ (∀ order : List (Node × List Pod), order.Perm pass.filtered →
          (oldPodsToDelete pass.maxUnavailable
              (rollingLoop d nodeset hash now pass.maxUnavailable order)).length
            = pass.oldPodsToDelete.length)
      ∧ (remainingUnavailable pass.maxUnavailable pass.state : Int)
          = min (max 0 (pass.maxUnavailable - pass.state.numUnavailable))
              (pass.state.candidatePodsToDelete.length : Int)
      ∧ remainingUnavailable pass.maxUnavailable pass.state
          ≤ pass.state.candidatePodsToDelete.length := by
  obtain ⟨hst, hdel, _, _⟩ := syncNodeSetRollingUpdate_ok d it nodeset nodes m hash now pass h
  have hperm := (hv pass.filtered).2.2
  have hlen := rollingLoop_delete_length d nodeset hash now pass.maxUnavailable
    (it.pass pass.filtered)
  rw [← hst, ← hdel, deleteCount_perm d nodeset hash now pass.maxUnavailable pass.filtered
    (it.pass pass.filtered) hperm] at hlen
  have hnum : pass.state.numUnavailable
      = (unavailableNodes d nodeset hash now pass.filtered : Int) := by
    rw [hst]
    unfold rollingLoop unavailableNodes
    rw [rollingFold_numUnavailable, hperm.countP_eq, hperm.countP_eq]
    simp
  refine ⟨?_, hnum, ?_, ?_, (remainingUnavailable_le pass.maxUnavailable pass.state).2⟩
  · rw [hlen, hnum]
    rfl
  · intro order horder
    have hother := rollingLoop_delete_length d nodeset hash now pass.maxUnavailable order
    rw [deleteCount_perm d nodeset hash now pass.maxUnavailable pass.filtered order horder,
      ← hlen] at hother
    exact_mod_cast hother
  · unfold remainingUnavailable
    simp only
    split_ifs <;> omega

/-- Example on the example cluster with `maxUnavailable = 1`: no
must-replace pod, four optional-replace pods, no unavailable node, one pod in
the delete list. -/
theorem syncNodeSetRollingUpdate_delete_count_witness :
    syncNodeSetRollingUpdate refDeps MapIteration.inOrder (nodeSetWith (some 4) 1 none)
        fourNodes fourStale "new" 100 = .ok fourStalePass
      ∧ (fourStalePass.oldPodsToDelete.length : Int)
        = (mustReplaceCount refDeps (nodeSetWith (some 4) 1 none) "new" 100
            fourStalePass.filtered : Int)
          + min (optionalReplaceCount refDeps (nodeSetWith (some 4) 1 none) "new" 100
              fourStalePass.filtered : Int)
              (max 0 (fourStalePass.maxUnavailable - fourStalePass.state.numUnavailable))
      ∧ mustReplaceCount refDeps (nodeSetWith (some 4) 1 none) "new" 100 fourStalePass.filtered = 0
      ∧ optionalReplaceCount refDeps (nodeSetWith (some 4) 1 none) "new" 100
          fourStalePass.filtered = 4 :=
  ⟨by rfl, (syncNodeSetRollingUpdate_delete_count refDeps MapIteration.inOrder
      (nodeSetWith (some 4) 1 none) fourNodes fourStale "new" 100 fourStalePass
      MapIteration.inOrder_valid (by rfl)).1, by rfl, by rfl⟩

theorem MapIteration.classifyReversed_valid : MapIteration.classifyReversed.Valid := by
  intro m
  exact ⟨List.Perm.refl _, List.reverse_perm _, List.Perm.refl _⟩

/-- C26: with `partition = 1`, `maxUnavailable = 1`, an unready old pod on
`node-a` and an available up-to-date pod on `node-b`, the classification loop
of `filterNodeSetPodsNodeToUpdate` keeps the node it visits first: the delete
list of `syncNodeSetRollingUpdate` holds one pod when that is `node-a` and
none when that is `node-b`, so its length depends on the order in which the
map is iterated. The list sorted by `utils.NodeByWeight` is `node-a`, `node-b`
for both orders. -/
theorem delete_count_depends_on_order :
    MapIteration.inOrder.Valid ∧ MapIteration.classifyReversed.Valid
      ∧ syncNodeSetRollingUpdate refDeps MapIteration.inOrder (nodeSetWith none 1 (some 1))
          [nodeA, nodeB] brokenAndNew "new" 100 = .ok brokenAndNewPassA
      ∧ syncNodeSetRollingUpdate refDeps MapIteration.classifyReversed
          (nodeSetWith none 1 (some 1)) [nodeA, nodeB] brokenAndNew "new" 100
          = .ok brokenAndNewPassB
      ∧ brokenAndNewPassA.oldPodsToDelete.length = 1
      ∧ brokenAndNewPassB.oldPodsToDelete.length = 0
      ∧ NodeByWeight.sort (brokenAndNew.map Prod.fst) = [nodeA, nodeB] := by
  refine ⟨MapIteration.inOrder_valid, MapIteration.classifyReversed_valid, by rfl, by rfl,
    by rfl, by rfl, by rfl⟩

/-! ## Runtime faults of `syncSlurm` -/

/-- C27: `syncSlurm` panics on the pod `podA`, which is healthy, running and
available, has no Slurm node and has no annotation map, when it writes the
deletion annotation; and it panics on a listed Slurm node without a name when
it dereferences the name. With an empty annotation map and without the
nameless node the same passes return `nil`. -/
theorem syncSlurm_panics :
    podA.Annotations = none
      ∧ (syncSlurm acceptingControl refDeps refSlurmDeps refSyncDeps [] [] oneReplica [nodeA]
          [(nodeA, [podA])]).result = .panicked
      ∧ (syncSlurm acceptingControl refDeps refSlurmDeps refSyncDeps [] [] oneReplica [nodeA]
          [(nodeA, [annotatedA])]).result = .returned none
      ∧ (syncSlurm acceptingControl refDeps refSlurmDeps refSyncDeps [namelessNode] []
          oneReplica [] []).result = .panicked
      ∧ (syncSlurm acceptingControl refDeps refSlurmDeps refSyncDeps [idleWorkerA] []
          oneReplica [] []).result = .returned none := by
  refine ⟨by rfl, by rfl, by rfl, by rfl, by rfl⟩

/-! ## Conditions and state sets -/

theorem statesOf_statesAppend (m : List (String × List PodCondition)) (name : String)
    (cond : PodCondition) (key : String) :
    statesOf (statesAppend m name cond) key
      = if key = name then statesOf m name ++ [cond] else statesOf m key := by
  unfold statesAppend
  by_cases hany : m.any (fun entry => entry.1 == name) = true
  · rw [if_pos hany]
    unfold statesOf
    rw [List.find?_map]
    have hcomp : ((fun entry : String × List PodCondition => entry.1 == key)
        ∘ fun entry => if (entry.1 == name) = true then (entry.1, entry.2 ++ [cond]) else entry)
        = fun entry => entry.1 == key := by
      funext entry
      simp only [Function.comp]
      split <;> rfl
    rw [hcomp]
    by_cases hk : key = name
    · subst hk
      rw [if_pos rfl]
      cases hfind : m.find? (fun entry => entry.1 == key) with
      | none =>
        rw [List.find?_eq_none] at hfind
        rw [List.any_eq_true] at hany
        obtain ⟨entry, hentry, hkey⟩ := hany
        exact absurd hkey (hfind entry hentry)
      | some entry =>
        have hkey := List.find?_some hfind
        simp only [Option.map_some']
        rw [if_pos hkey]
    · rw [if_neg hk]
      cases hfind : m.find? (fun entry => entry.1 == key) with
      | none => rfl
      | some entry =>
        have hkey := List.find?_some hfind
        have hne : ¬ (entry.1 == name) = true := by
          intro h
          apply hk
          rw [← beq_iff_eq.mp hkey, beq_iff_eq.mp h]
        simp only [Option.map_some']
        rw [if_neg hne]
  · rw [if_neg hany]
    have hnone : m.find? (fun entry => entry.1 == name) = none := by
      rw [List.find?_eq_none]
      intro entry hentry hkey
      apply hany
      rw [List.any_eq_true]
      exact ⟨entry, hentry, hkey⟩
    unfold statesOf
    rw [List.find?_append]
    by_cases hk : key = name
    · subst hk
      rw [if_pos rfl, hnone]
      simp
    · rw [if_neg hk]
      have : ([(name, [cond])] : List (String × List PodCondition)).find?
          (fun entry => entry.1 == key) = none := by
        rw [List.find?_eq_none]
        intro entry hentry hkey
        rw [List.mem_singleton] at hentry
        subst hentry
        exact hk (beq_iff_eq.mp hkey).symm
      rw [this]
      cases m.find? (fun entry => entry.1 == key) <;> rfl

theorem statesOf_appendAll (name : String) (key : String) (conds : List PodCondition)
    (m : List (String × List PodCondition)) :
    statesOf (appendAll m name conds) key
      = if key = name then statesOf m name ++ conds else statesOf m key := by
  induction conds generalizing m with
  | nil =>
    unfold appendAll
    rw [List.foldl_nil, List.append_nil]
    split
    · next h => rw [h]
    · rfl
  | cons cond rest ih =>
    unfold appendAll
    rw [List.foldl_cons]
    have := ih (statesAppend m name cond)
    unfold appendAll at this
    rw [this, statesOf_statesAppend, statesOf_statesAppend]
    by_cases hk : key = name
    · simp [hk]
    · simp [hk]

theorem statesOf_calculateStep (names : List String) (status : SlurmNodeStatus)
    (node : V0044Node) (key : String) :
    statesOf (calculateStep names status node).NodeStates key
      = statesOf status.NodeStates key
        ++ (if names.contains (node.Name.getD "") && (node.Name.getD "" == key) then
              baseConditions node ++ flagConditions node
            else []) := by
  unfold calculateStep
  cases hmatch : names.contains (node.Name.getD "")
  · simp only [hmatch]
    simp
  · simp only [hmatch, Bool.not_true, Bool.false_eq_true, ↓reduceIte, Bool.true_and]
    rw [countFlagStates_NodeStates, countBaseState_NodeStates, statesOf_appendAll,
      statesOf_appendAll]
    by_cases hk : key = node.Name.getD ""
    · subst hk
      simp
    · have hne : ¬ node.Name.getD "" = key := fun h => hk h.symm
      simp [hk, hne]
      rw [statesOf_appendAll, if_neg hk]

theorem statesOf_calculateFold (names : List String) (key : String) (items : List V0044Node)
    (status : SlurmNodeStatus) :
    statesOf (items.foldl (calculateStep names) status).NodeStates key
      = statesOf status.NodeStates key
        ++ (items.filter (fun node =>
              names.contains (node.Name.getD "") && (node.Name.getD "" == key))).flatMap
            (fun node => baseConditions node ++ flagConditions node) := by
  induction items generalizing status with
  | nil => simp
  | cons node rest ih =>
    rw [List.foldl_cons, ih, statesOf_calculateStep]
    by_cases h : (names.contains (node.Name.getD "") && (node.Name.getD "" == key)) = true
    · simp only [List.filter_cons, h, if_true, List.flatMap_cons, List.append_assoc]
    · simp only [List.filter_cons, h, Bool.false_eq_true, if_false, List.append_nil]

/-- On conditions that all have the status `True`, a condition type is true
exactly when a condition of the type is in the list. -/
theorem IsConditionTrue_any (conds : List PodCondition) (condType : String)
    (htrue : ∀ cond ∈ conds, cond.Status = ConditionTrue) :
    conditions.IsConditionTrue ⟨conds⟩ condType
      = conds.any (fun cond => cond.CondType == condType) := by
  unfold conditions.IsConditionTrue GetPodCondition
  induction conds with
  | nil => rfl
  | cons cond rest ih =>
    simp only [List.find?_cons, List.any_cons]
    cases hc : cond.CondType == condType
    · simp only [Bool.false_or]
      exact ih (fun other hother => htrue other (List.mem_cons_of_mem _ hother))
    · simp only [Bool.true_or]
      rw [htrue cond (List.mem_cons_self _ _)]
      simp

theorem nodeConditions_true (node : V0044Node) :
    ∀ cond ∈ baseConditions node ++ flagConditions node, cond.Status = ConditionTrue := by
  intro cond hcond
  rw [List.mem_append] at hcond
  rcases hcond with h | h
  · unfold baseConditions at h
    simp only at h
    split_ifs at h <;> simp_all [nodeState]
  · unfold flagConditions at h
    simp only [List.mem_append] at h
    rcases h with (((((((h | h) | h) | h) | h) | h) | h) | h) <;>
      split_ifs at h <;> simp_all [nodeState]

theorem any_optional (c : Bool) (cond : PodCondition) (p : PodCondition → Bool) :
    (if c = true then [cond] else []).any p = (c && p cond) := by
  cases c <;> simp

/-- The condition types among the conditions recorded for a node. -/
theorem nodeConditions_types (node : V0044Node) :
    (baseConditions node ++ flagConditions node).any
        (fun cond => cond.CondType == PodConditionAllocated)
        = setHas node.GetStateAsSet V0044NodeState.ALLOCATED
      ∧ (baseConditions node ++ flagConditions node).any
          (fun cond => cond.CondType == PodConditionMixed)
        = (!setHas node.GetStateAsSet V0044NodeState.ALLOCATED
            && !setHas node.GetStateAsSet V0044NodeState.DOWN
            && !setHas node.GetStateAsSet V0044NodeState.ERROR
            && !setHas node.GetStateAsSet V0044NodeState.FUTURE
            && !setHas node.GetStateAsSet V0044NodeState.IDLE
            && setHas node.GetStateAsSet V0044NodeState.MIXED)
      ∧ (baseConditions node ++ flagConditions node).any
          (fun cond => cond.CondType == PodConditionCompleting)
        = setHas node.GetStateAsSet V0044NodeState.COMPLETING
      ∧ (baseConditions node ++ flagConditions node).any
          (fun cond => cond.CondType == PodConditionDrain)
        = setHas node.GetStateAsSet V0044NodeState.DRAIN
      ∧ (baseConditions node ++ flagConditions node).any
          (fun cond => cond.CondType == PodConditionUndrain)
        = setHas node.GetStateAsSet V0044NodeState.UNDRAIN := by
  have hflags : ∀ condType : String,
      (flagConditions node).any (fun cond => cond.CondType == condType)
        = ((setHas node.GetStateAsSet V0044NodeState.COMPLETING
              && PodConditionCompleting == condType)
            || (setHas node.GetStateAsSet V0044NodeState.DRAIN && PodConditionDrain == condType)
            || (setHas node.GetStateAsSet V0044NodeState.FAIL && PodConditionFail == condType)
            || (setHas node.GetStateAsSet V0044NodeState.INVALID
                && PodConditionInvalid == condType)
            || (setHas node.GetStateAsSet V0044NodeState.INVALIDREG
                && PodConditionInvalidReg == condType)
            || (setHas node.GetStateAsSet V0044NodeState.MAINTENANCE
                && PodConditionMaintenance == condType)
            || (setHas node.GetStateAsSet V0044NodeState.NOTRESPONDING
                && PodConditionNotResponding == condType)
            || (setHas node.GetStateAsSet V0044NodeState.UNDRAIN
                && PodConditionUndrain == condType)) := by
    intro condType
    unfold flagConditions
    simp only [List.any_append, any_optional, nodeState]
  have hbase : ∀ condType : String,
      (baseConditions node).any (fun cond => cond.CondType == condType)
        = if setHas node.GetStateAsSet V0044NodeState.ALLOCATED then
            PodConditionAllocated == condType
          else if setHas node.GetStateAsSet V0044NodeState.DOWN then PodConditionDown == condType
          else if setHas node.GetStateAsSet V0044NodeState.ERROR then
            PodConditionError == condType
          else if setHas node.GetStateAsSet V0044NodeState.FUTURE then
            PodConditionFuture == condType
          else if setHas node.GetStateAsSet V0044NodeState.IDLE then PodConditionIdle == condType
          else if setHas node.GetStateAsSet V0044NodeState.MIXED then
            PodConditionMixed == condType
          else if setHas node.GetStateAsSet V0044NodeState.UNKNOWN then
            PodConditionUnknown == condType
          else false := by
    intro condType
    unfold baseConditions
    simp only
    split_ifs <;> simp [nodeState]
  simp only [List.any_append, hflags, hbase]
  refine ⟨?_, ?_, ?_, ?_, ?_⟩ <;>
    simp [PodConditionAllocated, PodConditionDown, PodConditionError, PodConditionFuture,
      PodConditionIdle, PodConditionMixed, PodConditionUnknown, PodConditionCompleting,
      PodConditionDrain, PodConditionFail, PodConditionInvalid, PodConditionInvalidReg,
      PodConditionMaintenance, PodConditionNotResponding, PodConditionUndrain, StatePrefix,
      Bool.and_assoc]

theorem mixed_alone (node : V0044Node) (hone : atMostOneBaseState node = true)
    (hmixed : setHas node.GetStateAsSet V0044NodeState.MIXED = true) :
    setHas node.GetStateAsSet V0044NodeState.ALLOCATED = false
      ∧ setHas node.GetStateAsSet V0044NodeState.DOWN = false
      ∧ setHas node.GetStateAsSet V0044NodeState.ERROR = false
      ∧ setHas node.GetStateAsSet V0044NodeState.FUTURE = false
      ∧ setHas node.GetStateAsSet V0044NodeState.IDLE = false := by
  unfold atMostOneBaseState baseStates at hone
  simp only [List.filter_cons, List.filter_nil] at hone
  generalize setHas node.GetStateAsSet V0044NodeState.ALLOCATED = b1 at hone ⊢
  generalize setHas node.GetStateAsSet V0044NodeState.DOWN = b2 at hone ⊢
  generalize setHas node.GetStateAsSet V0044NodeState.ERROR = b3 at hone ⊢
  generalize setHas node.GetStateAsSet V0044NodeState.FUTURE = b4 at hone ⊢
  generalize setHas node.GetStateAsSet V0044NodeState.IDLE = b5 at hone ⊢
  generalize setHas node.GetStateAsSet V0044NodeState.MIXED = b6 at hone hmixed ⊢
  generalize setHas node.GetStateAsSet V0044NodeState.UNKNOWN = b7 at hone ⊢
  subst hmixed
  revert hone
  cases b1 <;> cases b2 <;> cases b3 <;> cases b4 <;> cases b5 <;> cases b7 <;> decide

/-- C28: for a listed Slurm node that alone carries its name, has a matching
pod and carries at most one base state, the conditions `CalculateNodeStatus`
records under its name, taken as the conditions of a pod, make
`conditions.IsNodeBusy` the membership of `ALLOCATED`, `MIXED` or `COMPLETING`
in the state set, and `conditions.IsNodeDrained` the value `IsNodeDrained` of
the Slurm control computes from the state set: `DRAIN` without `UNDRAIN` and
not busy. -/
theorem conditions_agree_with_states {σ : Type} (r : realSlurmControl σ) (deps : SlurmDeps)
    (remote : σ) (nodeset : NodeSet) (pods : List Pod) (slurmClient : Client σ)
    (items : List V0044Node) (node : V0044Node)
    (hclient : r.lookupClient nodeset = some slurmClient)
    (hlist : slurmClient.ListNodes remote = .ok items)
    (hunique : items.filter (fun other => other.Name.getD "" == node.Name.getD "") = [node])
    (hmatch : hasMatchingPod deps pods node = true)
    (hone : atMostOneBaseState node = true) :
    conditions.IsNodeBusy (recordedStatus (CalculateNodeStatus r deps remote nodeset pods).1 node)
        = setHasAny node.GetStateAsSet
            [V0044NodeState.ALLOCATED, V0044NodeState.MIXED, V0044NodeState.COMPLETING]
      ∧ conditions.IsNodeDrained
          (recordedStatus (CalculateNodeStatus r deps remote nodeset pods).1 node)
        = (setHas node.GetStateAsSet V0044NodeState.DRAIN
            && !setHas node.GetStateAsSet V0044NodeState.UNDRAIN
            && !setHasAny node.GetStateAsSet
                [V0044NodeState.ALLOCATED, V0044NodeState.MIXED, V0044NodeState.COMPLETING])
      ∧ (∀ pod, slurmClient.Get remote (deps.GetNodeName pod) = .ok node →
          conditions.IsNodeDrained
              (recordedStatus (CalculateNodeStatus r deps remote nodeset pods).1 node)
            = (IsNodeDrained r deps remote nodeset pod).1) := by
  have hcalc : (CalculateNodeStatus r deps remote nodeset pods).1
      = items.foldl (calculateStep (pods.map deps.GetNodeName)) {} := by
    unfold CalculateNodeStatus
    simp only [hclient, hlist]
  have hfilter : items.filter (fun other =>
      (pods.map deps.GetNodeName).contains (other.Name.getD "")
        && (other.Name.getD "" == node.Name.getD "")) = [node] := by
    have h1 : List.filter
        (fun other : V0044Node => (pods.map deps.GetNodeName).contains (other.Name.getD ""))
        (List.filter (fun other : V0044Node => other.Name.getD "" == node.Name.getD "") items)
        = List.filter (fun other : V0044Node =>
            (pods.map deps.GetNodeName).contains (other.Name.getD "")
              && (other.Name.getD "" == node.Name.getD "")) items :=
      List.filter_filter _ _
    rw [hunique] at h1
    rw [← h1]
    unfold hasMatchingPod at hmatch
    rw [List.filter_cons, if_pos hmatch, List.filter_nil]
  have hconds : recordedStatus (CalculateNodeStatus r deps remote nodeset pods).1 node
      = ⟨baseConditions node ++ flagConditions node⟩ := by
    unfold recordedStatus
    rw [hcalc, statesOf_calculateFold, hfilter]
    simp [statesOf]
  obtain ⟨tAllocated, tMixed, tCompleting, tDrain, tUndrain⟩ := nodeConditions_types node
  have htrue := fun condType =>
    IsConditionTrue_any (baseConditions node ++ flagConditions node) condType
      (nodeConditions_true node)
  have hbusy : conditions.IsNodeBusy ⟨baseConditions node ++ flagConditions node⟩
      = setHasAny node.GetStateAsSet
          [V0044NodeState.ALLOCATED, V0044NodeState.MIXED, V0044NodeState.COMPLETING] := by
    unfold conditions.IsNodeBusy
    simp only [htrue, tAllocated, tMixed, tCompleting]
    have hany : setHasAny node.GetStateAsSet
          [V0044NodeState.ALLOCATED, V0044NodeState.MIXED, V0044NodeState.COMPLETING]
        = (setHas node.GetStateAsSet V0044NodeState.ALLOCATED
            || setHas node.GetStateAsSet V0044NodeState.MIXED
            || setHas node.GetStateAsSet V0044NodeState.COMPLETING) := by
      simp [setHasAny, setHas, Bool.or_assoc]
    rw [hany]
    cases hm : setHas node.GetStateAsSet V0044NodeState.MIXED
    · simp
    · obtain ⟨h1, h2, h3, h4, h5⟩ := mixed_alone node hone hm
      simp [h1, h2, h3, h4, h5]
  have hdrained : conditions.IsNodeDrained ⟨baseConditions node ++ flagConditions node⟩
      = (setHas node.GetStateAsSet V0044NodeState.DRAIN
          && !setHas node.GetStateAsSet V0044NodeState.UNDRAIN
          && !setHasAny node.GetStateAsSet
              [V0044NodeState.ALLOCATED, V0044NodeState.MIXED, V0044NodeState.COMPLETING]) := by
    unfold conditions.IsNodeDrained conditions.IsNodeDrain
    rw [hbusy]
    simp only [htrue, tDrain, tUndrain]
  rw [hconds]
  refine ⟨hbusy, hdrained, ?_⟩
  intro pod hget
  rw [hdrained]
  unfold IsNodeDrained
  simp only [hclient, hget]

/-- Witness of C28 on the drained node `worker-a`: both tests say that the
node is drained. -/
theorem conditions_agree_with_states_witness :
    conditions.IsNodeDrained
        (recordedStatus (CalculateNodeStatus recordingControl refSlurmDeps
          [drainedWorkerA, lostWorkerX] oneReplica [podA]).1 drainedWorkerA)
        = (IsNodeDrained recordingControl refSlurmDeps [drainedWorkerA, lostWorkerX] oneReplica
            podA).1
      ∧ (IsNodeDrained recordingControl refSlurmDeps [drainedWorkerA, lostWorkerX] oneReplica
          podA).1 = true :=
  ⟨(conditions_agree_with_states recordingControl refSlurmDeps [drainedWorkerA, lostWorkerX]
      oneReplica [podA] recordingClient [drainedWorkerA, lostWorkerX] drainedWorkerA
      (by rfl) (by rfl) (by rfl) (by rfl) (by rfl)).2.2 podA (by rfl), by rfl⟩

/-! ## The state update of `UpdateNodeWithPodInfo` -/

/-- C29: for the pod `podA` on `node-a` and a Slurm node whose comment records
another pod name on the same `node-a`, `UpdateNodeWithPodInfo` writes the
comment and then sends the update that forces the state `IDLE`, although the
recorded orchestration node is the node of the pod. -/
theorem UpdateNodeWithPodInfo_idle_without_migration :
    (refSlurmDeps.ParseIntoPodInfo workerARenamed.Comment).Node = podA.NodeName
      ∧ (refSlurmDeps.ParseIntoPodInfo workerARenamed.Comment).PodName ≠ podA.Name
      ∧ (UpdateNodeWithPodInfo recordingControl refSlurmDeps [workerARenamed] oneReplica
          podA).updates
        = [(workerARenamed, commentRequest refSlurmDeps (podInfoOf podA)),
           (workerARenamed, idleRequest)]
      ∧ (UpdateNodeWithPodInfo recordingControl refSlurmDeps [workerARenamed] oneReplica
          podA).remote
        = [{ Name := some "worker-a",
             State := some [V0044NodeState.IDLE, V0044NodeState.ALLOCATED],
             Comment := some "slurm/worker-a/node-a" }] := by
  refine ⟨by rfl, by decide, by rfl, by rfl⟩

/-! ## The number of selected nodes -/

theorem classifyLoop_eq (d : Deps) (nodeset : NodeSet) (hash : String)
    (es : List (Node × List Pod)) (updated rest : List Node) :
    classifyLoop d nodeset hash es (updated, rest)
      = (updated ++ (es.filter (holdsPod d nodeset hash)).map Prod.fst,
         rest ++ (es.filter (fun e => !holdsPod d nodeset hash e)).map Prod.fst) := by
  induction es generalizing updated rest with
  | nil => simp [classifyLoop]
  | cons e es ih =>
    unfold classifyLoop
    rcases hf : d.findUpdatedPodsOnNode nodeset e.2 hash with ⟨newPod, oldPod, ok⟩
    have hhold : holdsPod d nodeset hash e = (!ok || newPod.isSome || oldPod.isSome) := by
      unfold holdsPod
      rw [hf]
    simp only
    by_cases hc : (!ok || newPod.isSome || oldPod.isSome) = true
    · rw [if_pos hc, ih]
      rw [← hhold] at hc
      simp [List.filter_cons, hc]
    · rw [if_neg hc, ih]
      rw [← hhold] at hc
      simp [List.filter_cons, hc]

/-- The list `sorted` of `filterNodeSetPodsNodeToUpdate`: the nodes that hold a
pod, then the others, each in visiting order. -/
theorem filterNodeSetPodsNodeToUpdate_eq (d : Deps) (it : MapIteration) (nodeset : NodeSet)
    (hash : String) (m : NodeToPods) (hv : it.Valid) (hp : 0 ≤ partitionOf nodeset) :
    filterNodeSetPodsNodeToUpdate d it nodeset hash m
      = .ok ((((it.classify m).filter (holdsPod d nodeset hash)).map Prod.fst
            ++ ((it.classify m).filter (fun e => !holdsPod d nodeset hash e)).map Prod.fst).take
          ((m.length : Int) - partitionOf nodeset).toNat) := by
  have hlen : (NodeByWeight.sort ((it.collect m).map Prod.fst)).length = m.length := by
    unfold NodeByWeight.sort
    rw [List.length_insertionSort, List.length_map, (hv m).1.length_eq]
  have hsorted : (((it.classify m).filter (holdsPod d nodeset hash)).map Prod.fst
      ++ ((it.classify m).filter (fun e => !holdsPod d nodeset hash e)).map Prod.fst).length
      = m.length := by
    rw [List.length_append, List.length_map, List.length_map, ← List.countP_eq_length_filter,
      ← List.countP_eq_length_filter, ← (hv m).2.1.length_eq]
    have := List.length_eq_countP_add_countP (holdsPod d nodeset hash) (it.classify m)
    have hnot : (fun a : Node × List Pod => decide ¬holdsPod d nodeset hash a = true)
        = (fun e => !holdsPod d nodeset hash e) := by
      funext e
      cases holdsPod d nodeset hash e <;> rfl
    rw [hnot] at this
    omega
  unfold filterNodeSetPodsNodeToUpdate
  simp only [classifyLoop_eq, List.nil_append, List.append_nil, hlen]
  rw [hsorted]
  split_ifs with h1 h2
  · have : ((m.length : Int) - partitionOf nodeset).toNat = 0 := by omega
    rw [this, List.take_zero]
  · rfl
  · have : ((m.length : Int) - partitionOf nodeset).toNat = m.length := by omega
    rw [this, ← hsorted, List.take_length]

/-- C30: for a map with distinct keys and a partition that is not negative,
`filterNodeSetPodsNodeToUpdate` returns `max(0, n - p)` nodes, where `n` is
the number of entries of the map; the nodes are distinct keys of the map, and
a node that holds no pod is returned only if every node that holds a pod (an
up-to-date pod, an old pod or an inconsistent set of pods) is returned. -/
theorem filterNodeSetPodsNodeToUpdate_count (d : Deps) (it : MapIteration) (nodeset : NodeSet)
    (hash : String) (m : NodeToPods) (hv : it.Valid) (hkeys : (m.map Prod.fst).Nodup)
    (hp : 0 ≤ partitionOf nodeset) :
    ∃ selected, filterNodeSetPodsNodeToUpdate d it nodeset hash m = .ok selected
      ∧ (selected.length : Int) = max 0 ((m.length : Int) - partitionOf nodeset)
      ∧ selected.Nodup
      ∧ (∀ node ∈ selected, mapHas m node = true)
      ∧ (∀ e ∈ m, holdsPod d nodeset hash e = false → e.1 ∈ selected →
          ∀ other ∈ m, holdsPod d nodeset hash other = true → other.1 ∈ selected) := by
  have hperm : ((((it.classify m).filter (holdsPod d nodeset hash)).map Prod.fst
      ++ ((it.classify m).filter (fun e => !holdsPod d nodeset hash e)).map Prod.fst)).Perm
      (m.map Prod.fst) := by
    rw [← List.map_append]
    exact ((List.filter_append_perm _ _).trans (hv m).2.1).map _
  have hnodup := hperm.nodup_iff.mpr hkeys
  have hlen := hperm.length_eq
  rw [List.length_map] at hlen
  refine ⟨_, filterNodeSetPodsNodeToUpdate_eq d it nodeset hash m hv hp, ?_, ?_, ?_, ?_⟩
  · rw [List.length_take, hlen]
    omega
  · exact hnodup.sublist (List.take_sublist _ _)
  · intro node hnode
    rw [mapHas_eq_true_iff]
    exact hperm.mem_iff.mp (List.mem_of_mem_take hnode)
  · intro e he hnone hsel other hother hsome
    have heR : e.1 ∈ ((it.classify m).filter (fun e => !holdsPod d nodeset hash e)).map
        Prod.fst :=
      List.mem_map_of_mem _ (List.mem_filter.mpr ⟨(hv m).2.1.mem_iff.mpr he, by simp [hnone]⟩)
    have hoU : other.1 ∈ ((it.classify m).filter (holdsPod d nodeset hash)).map Prod.fst :=
      List.mem_map_of_mem _ (List.mem_filter.mpr ⟨(hv m).2.1.mem_iff.mpr hother, hsome⟩)
    have heU : e.1 ∉ ((it.classify m).filter (holdsPod d nodeset hash)).map Prod.fst :=
      fun h => (List.nodup_append.mp hnodup).2.2 h heR
    rw [List.take_append_eq_append_take, List.mem_append] at hsel ⊢
    rcases hsel with h | h
    · exact absurd (List.mem_of_mem_take h) heU
    · left
      have hpos : 0 < (((m.length : Int) - partitionOf nodeset).toNat
          - (((it.classify m).filter (holdsPod d nodeset hash)).map Prod.fst).length) := by
        rcases Nat.eq_zero_or_pos (((m.length : Int) - partitionOf nodeset).toNat
          - (((it.classify m).filter (holdsPod d nodeset hash)).map Prod.fst).length)
          with hz | hz
        · rw [hz, List.take_zero] at h
          exact absurd h (List.not_mem_nil _)
        · exact hz
      rw [List.take_of_length_le (by omega)]
      exact hoU

/-- Witness of C30 on the example cluster with `partition = 2`: two of the
four nodes are returned. -/
theorem filterNodeSetPodsNodeToUpdate_count_witness :
    ∃ selected, filterNodeSetPodsNodeToUpdate refDeps MapIteration.inOrder
        (nodeSetWith none 1 (some 2)) "new" fourStale = .ok selected
      ∧ (selected.length : Int)
        = max 0 ((fourStale.length : Int) - partitionOf (nodeSetWith none 1 (some 2)))
      ∧ selected.Nodup := by
  obtain ⟨selected, h1, h2, h3, _⟩ := filterNodeSetPodsNodeToUpdate_count refDeps
    MapIteration.inOrder (nodeSetWith none 1 (some 2)) "new" fourStale
    MapIteration.inOrder_valid (by decide) (by decide)
  exact ⟨selected, h1, h2, h3⟩

end SlurmOperator
